import Mathlib

/-!
# Verification of the lndhubx bank engine

Shallow embedding of `src/bank/src/bank_engine.rs` (the synchronous bank
engine of lndhubx).  Monetary values are embedded as exact rationals (`Rat`),
mirroring the arbitrary-precision decimal arithmetic of `rust_decimal`.
Database writes are modelled as list appends on the engine state (the store
is assumed reachable; connection failures are not modelled), `update_account`
calls are recorded in an explicit log, and Rust panics (`unwrap`,
`panic!`, failed `assert!`) are modelled as `Option.none` results of the
handlers.  Presentation-only message fields that no handler branches on
(`meta`, `metadata`, UUID request ids' concrete representation, record
timestamps inside rows) are elided; every field a handler reads or writes is
kept.  External collaborators (the Lightning driver, wall-clock time, BOLT-11
decoding) enter through an explicit `Oracle` argument.
-/

set_option linter.unreachableTactic false
set_option linter.unusedTactic false
set_option linter.unnecessarySeqFocus false

namespace LndHubX

/-- Closed currency enum (BTC plus fiat codes); `core_types` is outside
`src/`, the constructors follow the spec's data model. -/
inductive Currency
  | BTC
  | USD
  | EUR
  deriving DecidableEq, Repr

inductive AccountType
  | Internal
  | External
  deriving DecidableEq, Repr

inductive AccountClass
  | Cash
  | Fees
  deriving DecidableEq, Repr

/-- `Money` = (currency, value); values are exact decimals, embedded as `Rat`. -/
structure Money where
  currency : Currency
  value : Rat
  deriving DecidableEq, Repr

/-- `Rate` = (base, quote, value). -/
structure Rate where
  base : Currency
  quote : Currency
  value : Rat
  deriving DecidableEq, Repr

def SATS_IN_BITCOIN : Rat := 100000000

/-- Modelled from the spec: `exchange(rate)`: if `self.currency != rate.base`,
fail; else produce `(rate.quote, value * rate.value)` (`core_types` is not
under `src/`). -/
def Money.exchange (m : Money) (r : Rate) : Option Money :=
  if m.currency = r.base then some ⟨r.quote, m.value * r.value⟩ else none

/-- Modelled from the spec: `Money::from_sats(n)` = (BTC, n * 10^-8). -/
def Money.from_sats (n : Rat) : Money :=
  ⟨Currency.BTC, n / SATS_IN_BITCOIN⟩

/-- Modelled from the spec: `Money::from_btc(v)` = (BTC, v). -/
def Money.from_btc (v : Rat) : Money :=
  ⟨Currency.BTC, v⟩

/-- Rounding a rational to an integer away from zero
(`RoundingStrategy::AwayFromZero` at 0 decimal places). -/
def roundAwayFromZero (q : Rat) : Int :=
  if 0 ≤ q then ⌈q⌉ else ⌊q⌋

/-- `round_dp_with_strategy(dp, AwayFromZero)` on a decimal. -/
def roundDpAway (dp : Nat) (q : Rat) : Rat :=
  (roundAwayFromZero (q * 10 ^ dp) : Rat) / 10 ^ dp

/-- Modelled from the spec: `try_sats` returns the amount in sats rounded
away-from-zero to an integer for wire use; defined for BTC amounts
(`core_types` is not under `src/`). -/
def Money.try_sats (m : Money) : Option Int :=
  if m.currency = Currency.BTC then some (roundAwayFromZero (m.value * SATS_IN_BITCOIN))
  else none

/-- `Account` as persisted and held in the ledger. -/
structure Account where
  account_id : Nat
  currency : Currency
  balance : Rat
  account_type : AccountType
  account_class : AccountClass
  deriving DecidableEq, Repr

def BANK_UID : Nat := 23193913
def DEALER_UID : Nat := 52172712

/-- Association-list lookup (model of `HashMap::get`). -/
def lookupA {α : Type} (l : List (Nat × α)) (k : Nat) : Option α :=
  match l with
  | [] => none
  | (k2, v) :: t => if k2 = k then some v else lookupA t k

/-- Association-list insert/replace (model of `HashMap::insert`). -/
def insertA {α : Type} (l : List (Nat × α)) (k : Nat) (v : α) : List (Nat × α) :=
  match l with
  | [] => [(k, v)]
  | (k2, w) :: t => if k2 = k then (k, v) :: t else (k2, w) :: insertA t k v

/-- Association-list removal returning the removed value
(model of `HashMap::remove`). -/
def removeA {α : Type} (l : List (Nat × α)) (k : Nat) : Option (α × List (Nat × α)) :=
  match l with
  | [] => none
  | (k2, v) :: t =>
    if k2 = k then some (v, t)
    else match removeA t k with
      | none => none
      | some (w, t2) => some (w, (k2, v) :: t2)

def Currency.idx : Currency → Nat
  | .BTC => 0
  | .USD => 1
  | .EUR => 2

def AccountType.idx : AccountType → Nat
  | .Internal => 0
  | .External => 1

/-- Deterministic stand-in for the fresh UUID of a lazily created default
account (opaque ids; determinism is all the handlers rely on). -/
def defaultAccountId (owner : Nat) (c : Currency) (t : AccountType) : Nat :=
  1000000000 + owner * 100 + c.idx * 10 + t.idx

/-- A user's account collection (`UserAccount` of the missing `ledger.rs`). -/
structure UserAccount where
  owner : Nat
  accounts : List (Nat × Account)
  deriving DecidableEq, Repr

def UserAccount.new (uid : Nat) : UserAccount := ⟨uid, []⟩

/-- Modelled from the spec (`ledger.rs` is not under `src/`): a user has at
most one default account per (currency, account type, Cash);
`get_default_account` returns it, creating it lazily with zero balance; the
account type defaults to Internal when unspecified. -/
def UserAccount.get_default_account (ua : UserAccount) (c : Currency)
    (t? : Option AccountType) : Account × UserAccount :=
  let t := t?.getD AccountType.Internal
  match ua.accounts.find? (fun p =>
      decide (p.2.currency = c ∧ p.2.account_type = t ∧ p.2.account_class = AccountClass.Cash)) with
  | some p => (p.2, ua)
  | none =>
    let a : Account := ⟨defaultAccountId ua.owner c t, c, 0, t, AccountClass.Cash⟩
    (a, ⟨ua.owner, insertA ua.accounts a.account_id a⟩)

def insuranceFundAccountId : Nat := 424242

/-- Modelled from the spec (`ledger.rs` is not under `src/`): the ledger owns
per-user accounts, dealer accounts, bank-liability accounts and the singleton
insurance-fund account. -/
structure Ledger where
  user_accounts : List (Nat × UserAccount)
  dealer_accounts : UserAccount
  bank_liabilities : UserAccount
  insurance_fund_account : Account
  deriving DecidableEq, Repr

def Ledger.new (bank_uid dealer_uid : Nat) : Ledger :=
  { user_accounts := []
    dealer_accounts := UserAccount.new dealer_uid
    bank_liabilities := UserAccount.new bank_uid
    insurance_fund_account :=
      ⟨insuranceFundAccountId, Currency.BTC, 0, AccountType.Internal, AccountClass.Cash⟩ }

/-! ## Message types

Shapes follow the fields that `bank_engine.rs` reads and writes on each
message (the `msgs` crate sources shipped with the repository predate the
engine; the engine's own usage is authoritative). -/

inductive InvoiceResponseError
  | RequestLimitExceeded
  | InvoicingSuspended
  | WithdrawalOnly
  | DatabaseConnectionFailed
  | AccountDoesNotExist
  | DepositLimitExceeded
  | RateNotAvailable
  deriving DecidableEq, Repr

inductive PaymentResponseError
  | InsufficientFunds
  | InsufficientFundsForFees
  | InvoiceAlreadyPaid
  | SelfPayment
  | InvalidAmount
  | InvalidInvoice
  | ZeroAmountInvoice
  | UserAccountNotFound
  | RequestLimitExceeded
  | DatabaseConnectionFailed
  | UserDoesNotExist
  | TransactionFailed
  deriving DecidableEq, Repr

inductive SwapResponseError
  | CurrencyNotAvailable
  | DatabaseConnectionFailed
  | UserAccountNotFound
  | NotEnoughAvailableBalance
  | TransactionFailed
  deriving DecidableEq, Repr

inductive CreateLnurlWithdrawalError
  | InvalidAmount
  | UserAccountNotFound
  | InsufficientFunds
  | FailedToCreateLnUrl
  deriving DecidableEq, Repr

inductive GetLnurlWithdrawalError
  | RequestNotFound
  deriving DecidableEq, Repr

inductive PayLnurlWithdrawalError
  | RequestNotFound
  deriving DecidableEq, Repr

inductive BankError
  | FailedTransaction
  | UserAccountNotFound
  | AccountNotFound
  deriving DecidableEq, Repr

/-- `err.to_string()` used for `Cli::MakeTxResult`. -/
def BankError.describe : BankError → String
  | BankError.FailedTransaction => "FailedTransaction"
  | BankError.UserAccountNotFound => "UserAccountNotFound"
  | BankError.AccountNotFound => "AccountNotFound"

structure InvoiceRequest where
  req_id : Nat
  uid : Nat
  amount : Money
  currency : Currency
  account_id : Option Nat
  target_account_currency : Option Currency
  deriving DecidableEq, Repr

structure InvoiceResponse where
  req_id : Nat
  uid : Nat
  amount : Money
  rate : Option Rate
  payment_request : Option String
  currency : Currency
  target_account_currency : Option Currency
  account_id : Option Nat
  error : Option InvoiceResponseError
  fees : Option Money
  deriving DecidableEq, Repr

structure PaymentRequest where
  req_id : Nat
  uid : Nat
  amount : Option Money
  currency : Currency
  rate : Option Rate
  payment_request : Option String
  receipient : Option String
  fees : Option Money
  deriving DecidableEq, Repr

structure PaymentResponse where
  amount : Option Money
  payment_hash : String
  req_id : Nat
  uid : Nat
  success : Bool
  payment_request : Option String
  currency : Currency
  fees : Option Money
  error : Option PaymentResponseError
  rate : Option Rate
  preimage : Option String
  deriving DecidableEq, Repr

/-- `PaymentResponse::error(...)` constructor. -/
def PaymentResponse.err (e : PaymentResponseError) (req_id uid : Nat)
    (payment_request : Option String) (currency : Currency) (rate : Option Rate) :
    PaymentResponse :=
  { amount := none, payment_hash := "", req_id, uid, success := false,
    payment_request, currency, fees := none, error := some e, rate, preimage := none }

structure SwapRequest where
  req_id : Nat
  uid : Nat
  amount : Money
  from_cur : Currency
  to_cur : Currency
  deriving DecidableEq, Repr

structure SwapResponse where
  req_id : Nat
  uid : Nat
  amount : Money
  from_cur : Currency
  to_cur : Currency
  rate : Option Rate
  success : Bool
  error : Option SwapResponseError
  deriving DecidableEq, Repr

structure GetBalances where
  req_id : Nat
  uid : Nat
  deriving DecidableEq, Repr

structure Balances where
  req_id : Nat
  uid : Nat
  accounts : List (Nat × Account)
  error : Option Unit
  deriving DecidableEq, Repr

structure BankState where
  total_exposures : List (Currency × Rat)
  insurance_fund_account : Account
  fiat_exposures : List (Nat × Account)
  deriving DecidableEq, Repr

inductive HealthStatus
  | Up
  | Down
  deriving DecidableEq, Repr

structure DealerHealth where
  status : HealthStatus
  available_currencies : List Currency
  deriving DecidableEq, Repr

structure FiatDepositRequest where
  req_id : Nat
  uid : Nat
  currency : Currency
  amount : Money
  deriving DecidableEq, Repr

structure FiatDepositResponse where
  req_id : Nat
  uid : Nat
  currency : Currency
  amount : Money
  rate : Option Rate
  fees : Option Money
  error : Option Unit
  deriving DecidableEq, Repr

structure PayInvoice where
  req_id : Nat
  payment_request : String
  deriving DecidableEq, Repr

structure CreateInvoiceRequest where
  req_id : Nat
  amount : Nat
  memo : String
  deriving DecidableEq, Repr

structure CreateInvoiceResponse where
  req_id : Nat
  payment_request : String
  amount : Nat
  deriving DecidableEq, Repr

structure PaymentResult where
  uid : Nat
  currency : Currency
  rate : Rate
  is_success : Bool
  amount : Money
  payment_response : PaymentResponse
  error : Option String
  deriving DecidableEq, Repr

structure Deposit where
  payment_request : String
  deriving DecidableEq, Repr

structure MakeTx where
  outbound_uid : Nat
  outbound_account_id : Nat
  inbound_uid : Nat
  inbound_account_id : Nat
  amount : Rat
  currency : Currency
  deriving DecidableEq, Repr

structure MakeTxResult where
  tx : MakeTx
  result : String
  deriving DecidableEq, Repr

structure CreateLnurlWithdrawalRequest where
  req_id : Nat
  uid : Nat
  amount : Money
  currency : Currency
  rate : Option Rate
  fees : Option Money
  deriving DecidableEq, Repr

structure CreateLnurlWithdrawalResponse where
  req_id : Nat
  lnurl : Option String
  error : Option CreateLnurlWithdrawalError
  deriving DecidableEq, Repr

structure GetLnurlWithdrawalRequest where
  req_id : Nat
  deriving DecidableEq, Repr

structure GetLnurlWithdrawalResponse where
  req_id : Nat
  max_withdrawable : Nat
  min_withdrawable : Nat
  error : Option GetLnurlWithdrawalError
  deriving DecidableEq, Repr

structure PayLnurlWithdrawalRequest where
  req_id : Nat
  payment_request : String
  deriving DecidableEq, Repr

structure PayLnurlWithdrawalResponse where
  req_id : Nat
  error : Option PayLnurlWithdrawalError
  deriving DecidableEq, Repr

inductive Api
  | invoiceRequest (m : InvoiceRequest)
  | invoiceResponse (m : InvoiceResponse)
  | paymentRequest (m : PaymentRequest)
  | paymentResponse (m : PaymentResponse)
  | swapRequest (m : SwapRequest)
  | swapResponse (m : SwapResponse)
  | getBalances (m : GetBalances)
  | balances (m : Balances)
  | quoteRequest (req_id : Nat)
  | quoteResponse (req_id : Nat)
  | availableCurrenciesRequest (req_id : Nat)
  | availableCurrenciesResponse (req_id : Nat)
  | createLnurlWithdrawalRequest (m : CreateLnurlWithdrawalRequest)
  | createLnurlWithdrawalResponse (m : CreateLnurlWithdrawalResponse)
  | getLnurlWithdrawalRequest (m : GetLnurlWithdrawalRequest)
  | getLnurlWithdrawalResponse (m : GetLnurlWithdrawalResponse)
  | payLnurlWithdrawalRequest (m : PayLnurlWithdrawalRequest)
  | payLnurlWithdrawalResponse (m : PayLnurlWithdrawalResponse)
  deriving DecidableEq, Repr

inductive DealerMsg
  | health (m : DealerHealth)
  | bankStateRequest (req_id : Nat)
  | bankState (m : BankState)
  | payInvoice (m : PayInvoice)
  | payInsuranceInvoice (m : PayInvoice)
  | createInvoiceRequest (m : CreateInvoiceRequest)
  | createInsuranceInvoiceRequest (m : CreateInvoiceRequest)
  | createInvoiceResponse (m : CreateInvoiceResponse)
  | fiatDepositRequest (m : FiatDepositRequest)
  | fiatDepositResponse (m : FiatDepositResponse)
  deriving DecidableEq, Repr

inductive BankMsg
  | paymentResult (m : PaymentResult)
  deriving DecidableEq, Repr

inductive CliMsg
  | makeTx (m : MakeTx)
  | makeTxResult (m : MakeTxResult)
  deriving DecidableEq, Repr

inductive Message
  | dealer (m : DealerMsg)
  | api (m : Api)
  | bank (m : BankMsg)
  | deposit (m : Deposit)
  | cli (m : CliMsg)
  deriving DecidableEq, Repr

inductive ServiceIdentity
  | api
  | dealer
  | loopback
  deriving DecidableEq, Repr

/-! ## Store rows and engine state -/

/-- A `transactions` row as appended by `make_tx`. -/
structure Tx where
  txid : String
  outbound_uid : Nat
  inbound_uid : Nat
  created_at : Nat
  outbound_amount : Rat
  inbound_amount : Rat
  outbound_account_id : Nat
  inbound_account_id : Nat
  outbound_currency : Currency
  inbound_currency : Currency
  exchange_rate : Rat
  tx_type : String
  fees : Rat
  deriving DecidableEq, Repr

/-- A `summary_transactions` row as appended by `make_summary_tx`. -/
structure SummaryTx where
  txid : String
  outbound_txid : Option String
  inbound_txid : Option String
  fee_txid : Option String
  outbound_uid : Nat
  inbound_uid : Nat
  created_at : Nat
  outbound_amount : Rat
  inbound_amount : Rat
  outbound_account_id : Nat
  inbound_account_id : Nat
  outbound_currency : Currency
  inbound_currency : Currency
  exchange_rate : Rat
  tx_type : String
  fees : Rat
  reference : Option String
  deriving DecidableEq, Repr

/-- An `invoices` row (fields the engine branches on; currencies are kept
typed — a row whose currency column failed to parse aborts the process and
is outside the state space). -/
structure Invoice where
  payment_request : String
  value : Int
  value_msat : Int
  settled : Bool
  uid : Nat
  account_id : Nat
  owner : Option Nat
  incoming : Bool
  currency : Option Currency
  target_account_currency : Option Currency
  reference : Option String
  deriving DecidableEq, Repr

/-- Result of decoding a BOLT-11 payment request. -/
structure DecodedInvoice where
  amount_msat : Option Nat
  payment_hash : String
  expiry : Nat
  deriving DecidableEq, Repr

/-- External collaborators of one handler invocation: wall-clock time, BOLT-11
decoding, `probe` (best-route fee in sats when a route was found),
`create_invoice` (payment request of the created invoice) and the inline
`pay_invoice` used by the dealer-invoice path. -/
structure Oracle where
  now : Nat
  decode : String → Option DecodedInvoice
  probe : Option Nat
  createInvoice : Option String
  payInvoice : Option Unit

/-- The mutable engine state owned by the single-writer dispatcher.  The
relational store is embedded as the `txs`, `summary_txs`, `invoices` and
`users` tables; `updates` records the `update_account` persistence calls a
handler makes. -/
structure BankEngine where
  ledger : Ledger
  tx_seq : Nat
  txs : List Tx
  summary_txs : List SummaryTx
  invoices : List Invoice
  users : List (Nat × String)
  lnurl_withdrawal_requests : List (Nat × (Nat × PaymentRequest))
  updates : List (Nat × Account)
  available_currencies : List Currency
  withdrawal_only : Bool
  deposit_limits : List (Currency × Rat)
  ln_network_fee_margin : Rat
  withdrawal_rate_limiter : List (Nat × (Nat × Nat))
  deposit_rate_limiter : List (Nat × (Nat × Nat))
  withdrawal_limiter_settings : Nat × Nat
  deposit_limiter_settings : Nat × Nat
  deriving DecidableEq, Repr

/-- What a handler turns over to the outside world: listener calls
`(message, destination)` and spawned Lightning pay tasks. -/
structure SpawnInfo where
  uid : Nat
  req_id : Nat
  currency : Currency
  rate : Rate
  payment_request : String
  amount_in_btc : Money
  reserved : Money
  estimated_fee_in_sats : Int
  amount_in_sats : Nat
  deriving DecidableEq, Repr

inductive Output
  | msg (m : Message) (dest : ServiceIdentity)
  | spawnPay (info : SpawnInfo)
  deriving DecidableEq, Repr

/-- The `Bank::PaymentResult` a spawned pay task posts on failure
(the `Err` arm of the task body in `Api::PaymentRequest`). -/
def spawnFailureResult (i : SpawnInfo) (e : String) : PaymentResult :=
  { uid := i.uid, currency := i.currency, rate := i.rate, is_success := false,
    amount := i.reserved,
    payment_response :=
      { amount := some i.amount_in_btc, payment_hash := "", req_id := i.req_id,
        uid := i.uid, success := false, payment_request := some i.payment_request,
        currency := i.currency, fees := some (Money.from_sats 0),
        error := some PaymentResponseError.InsufficientFundsForFees,
        rate := some i.rate, preimage := none },
    error := some e }

/-- The `Bank::PaymentResult` a spawned pay task posts on success, with the
actually paid fee in sats (the `Ok` arm of the task body). -/
def spawnSuccessResult (i : SpawnInfo) (fee_sats : Nat) (hash pre : String) :
    PaymentResult :=
  { uid := i.uid, currency := i.currency, rate := i.rate, is_success := true,
    amount := i.reserved,
    payment_response :=
      { amount := some i.amount_in_btc, payment_hash := hash, req_id := i.req_id,
        uid := i.uid, success := true, payment_request := some i.payment_request,
        currency := i.currency, fees := some (Money.from_sats (fee_sats : Rat)),
        error := none, rate := some i.rate, preimage := some pre },
    error := none }

/-! ## Engine primitives -/

/-- `BankEngine::is_insurance_fund_depleted` reads the dealer collection's
default BTC account (account type unspecified, hence Internal) and compares
against `Decimal::new(10, SATS_DECIMALS)` = 10 sats; the lazy default-account
creation it may perform is part of the state effect. -/
def is_insurance_fund_depleted (l : Ledger) : Bool × Ledger :=
  let p := l.dealer_accounts.get_default_account Currency.BTC none
  (decide (p.1.balance < 10 / 100000000), { l with dealer_accounts := p.2 })

/-- `update_account`: persistence of one account row, recorded in the call log. -/
def update_account (s : BankEngine) (a : Account) (uid : Nat) : BankEngine :=
  { s with updates := s.updates ++ [(uid, a)] }

/-- `insert_into_ledger` writes a mutated account clone back into the owning
user's collection and panics (`none`) when the user is unknown. -/
def insert_into_ledger (s : BankEngine) (uid : Nat) (aid : Nat) (a : Account) :
    Option BankEngine :=
  match lookupA s.ledger.user_accounts uid with
  | none => none
  | some ua =>
    let ua2 : UserAccount := ⟨ua.owner, insertA ua.accounts aid a⟩
    let led := { s.ledger with user_accounts := insertA s.ledger.user_accounts uid ua2 }
    some { s with ledger := led }

/-- Write one user's collection back into the ledger (the in-place effect of
`get_mut` / `entry().or_insert_with` on `user_accounts`). -/
def setUser (s : BankEngine) (uid : Nat) (ua : UserAccount) : BankEngine :=
  { s with ledger := { s.ledger with user_accounts := insertA s.ledger.user_accounts uid ua } }

def setDealerAccounts (s : BankEngine) (ua : UserAccount) : BankEngine :=
  { s with ledger := { s.ledger with dealer_accounts := ua } }

def setBankLiabilities (s : BankEngine) (ua : UserAccount) : BankEngine :=
  { s with ledger := { s.ledger with bank_liabilities := ua } }

/-- `dealer_accounts.accounts.insert(id, account)` on the engine state. -/
def insertDealerAccount (s : BankEngine) (a : Account) : BankEngine :=
  setDealerAccounts s
    ⟨s.ledger.dealer_accounts.owner, insertA s.ledger.dealer_accounts.accounts a.account_id a⟩

/-- `bank_liabilities.accounts.insert(id, account)` on the engine state. -/
def insertBankLiabilityAccount (s : BankEngine) (a : Account) : BankEngine :=
  setBankLiabilities s
    ⟨s.ledger.bank_liabilities.owner, insertA s.ledger.bank_liabilities.accounts a.account_id a⟩

/-- One rate-limit check: sliding window with counter mutation exactly as in
`check_deposit_request_rate_limit` / `check_withdrawal_request_rate_limit`
(`(request_limit, replenishment_interval)` settings, `now` in ms). -/
def check_rate_limit (limiter : List (Nat × (Nat × Nat))) (settings : Nat × Nat)
    (now uid : Nat) : Bool × List (Nat × (Nat × Nat)) :=
  let e := (lookupA limiter uid).getD (0, now)
  if now - e.2 < settings.2 then
    let c := e.1 + 1
    (decide (c ≤ settings.1), insertA limiter uid (c, e.2))
  else
    (true, insertA limiter uid (0, now))

/-- `BankEngine::make_tx`: same-currency atomic debit/credit with store
append.  Fails on non-positive amount and on a currency mismatch between the
two accounts; on success both by-value account copies are mutated and a
`transactions` row with txid `"<time>-<seq>"` is appended. -/
def make_tx (s : BankEngine) (now : Nat) (outbound_account : Account) (outbound_uid : Nat)
    (inbound_account : Account) (inbound_uid : Nat) (amount : Money) :
    Except BankError (BankEngine × Account × Account × String) :=
  if amount.value ≤ 0 then Except.error BankError.FailedTransaction
  else if outbound_account.currency ≠ inbound_account.currency then
    Except.error BankError.FailedTransaction
  else
    let outbound_amount := amount.value
    let outA := { outbound_account with balance := outbound_account.balance - outbound_amount }
    let inA := { inbound_account with balance := inbound_account.balance + outbound_amount }
    let seq := s.tx_seq + 1
    let txid := toString now ++ "-" ++ toString seq
    let tx_type := if outA.account_type ≠ inA.account_type then "External" else "Internal"
    let tx : Tx :=
      { txid, outbound_uid, inbound_uid, created_at := now,
        outbound_amount, inbound_amount := outbound_amount,
        outbound_account_id := outA.account_id, inbound_account_id := inA.account_id,
        outbound_currency := outA.currency, inbound_currency := inA.currency,
        exchange_rate := 1, tx_type, fees := 0 }
    Except.ok ({ s with tx_seq := seq, txs := s.txs ++ [tx] }, outA, inA, txid)

/-- `BankEngine::make_summary_tx`: cross-currency audit row without balance
mutation; txid is the wall time alone.  The `amount.exchange(&rate).unwrap()`
inside is a panic (`none`) when the rate's base mismatches the amount. -/
def make_summary_tx (s : BankEngine) (now : Nat) (outbound_account : Account)
    (outbound_uid : Nat) (inbound_account : Account) (inbound_uid : Nat) (amount : Money)
    (rate : Option Rate) (fees : Option Money)
    (outbound_txid inbound_txid fee_txid : Option String) (reference : Option String) :
    Option (Except BankError (BankEngine × String)) :=
  if amount.value ≤ 0 then some (Except.error BankError.FailedTransaction)
  else
    let rate := rate.getD ⟨outbound_account.currency, inbound_account.currency, 1⟩
    let fees := fees.getD ⟨inbound_account.currency, 0⟩
    match amount.exchange rate with
    | none => none
    | some inbound_amount =>
      let tx_type :=
        if outbound_account.account_type ≠ inbound_account.account_type then "External"
        else "Internal"
      let reference := some (reference.getD "Payment")
      let txid := toString now
      let tx : SummaryTx :=
        { txid, outbound_txid, inbound_txid, fee_txid, outbound_uid, inbound_uid,
          created_at := now, outbound_amount := amount.value,
          inbound_amount := inbound_amount.value,
          outbound_account_id := outbound_account.account_id,
          inbound_account_id := inbound_account.account_id,
          outbound_currency := outbound_account.currency,
          inbound_currency := inbound_account.currency,
          exchange_rate := rate.value, tx_type, fees := fees.value, reference }
      some (Except.ok ({ s with summary_txs := s.summary_txs ++ [tx] }, txid))

/-- `Invoice::get_by_payment_request` on the embedded store. -/
def findInvoice (invs : List Invoice) (prq : String) : Option Invoice :=
  invs.find? (fun i => i.payment_request == prq)

/-- `invoice.update(...)` keyed by payment request. -/
def updateInvoiceRow (invs : List Invoice) (prq : String) (i2 : Invoice) : List Invoice :=
  invs.map (fun i => if i.payment_request == prq then i2 else i)

/-- `deposit_limits.get(&currency)`. -/
def lookupC (l : List (Currency × Rat)) (c : Currency) : Option Rat :=
  match l with
  | [] => none
  | (c2, v) :: t => if c2 = c then some v else lookupC t c

/-- `User::get_by_username` on the embedded store. -/
def findUserByName (users : List (Nat × String)) (name : String) : Option Nat :=
  match users.find? (fun p => p.2 == name) with
  | some p => some p.1
  | none => none

/-- `BankEngine::get_bank_state`: per-currency exposure totals over all user
accounts, the insurance-fund account and the dealer accounts. -/
def addExposure (l : List (Currency × Rat)) (c : Currency) (v : Rat) :
    List (Currency × Rat) :=
  match l with
  | [] => [(c, v)]
  | (c2, x) :: t => if c2 = c then (c2, x + v) :: t else (c2, x) :: addExposure t c v

def get_bank_state (s : BankEngine) : BankState :=
  { total_exposures :=
      s.ledger.user_accounts.foldl
        (fun acc p => p.2.accounts.foldl (fun acc2 q => addExposure acc2 q.2.currency q.2.balance) acc)
        []
    insurance_fund_account := s.ledger.insurance_fund_account
    fiat_exposures := s.ledger.dealer_accounts.accounts }

/-! ## Handlers -/

/-- `BankEngine::make_internal_tx`: internal transfer to a username.
Panics (`none`) when the recipient or the amount is absent from the request
(`unwrap_or_else(panic ...)` / `.unwrap()`), or when the summary row's
exchange cannot be taken. -/
def make_internal_tx (o : Oracle) (s : BankEngine) (pr : PaymentRequest) :
    Option (BankEngine × List Output) :=
  match pr.receipient with
  | none => none
  | some username =>
  match pr.amount with
  | none => none
  | some amount =>
  let outbound_uid := pr.uid
  let rate : Rate := ⟨pr.currency, pr.currency, 1⟩
  let fees : Money := ⟨pr.currency, 0⟩
  let payment_response : PaymentResponse :=
    { amount := some amount, payment_hash := "", req_id := pr.req_id,
      uid := outbound_uid, success := false, payment_request := none,
      currency := pr.currency, fees := some fees, error := none,
      rate := some rate, preimage := none }
  match findUserByName s.users username with
  | none =>
    let resp := { payment_response with error := some PaymentResponseError.UserDoesNotExist }
    some (s, [Output.msg (Message.api (Api.paymentResponse resp)) ServiceIdentity.api])
  | some inbound_uid =>
  if inbound_uid = outbound_uid then some (s, [])
  else
  match lookupA s.ledger.user_accounts outbound_uid with
  | none => some (s, [])
  | some out_ua =>
  let po := out_ua.get_default_account pr.currency none
  let outbound_account := po.1
  let s := setUser s outbound_uid po.2
  let in_ua := (lookupA s.ledger.user_accounts inbound_uid).getD (UserAccount.new inbound_uid)
  let pi2 := in_ua.get_default_account pr.currency none
  let inbound_account := pi2.1
  let s := setUser s inbound_uid pi2.2
  if outbound_account.balance < amount.value then
    let resp := { payment_response with error := some PaymentResponseError.InsufficientFunds }
    some (s, [Output.msg (Message.api (Api.paymentResponse resp)) ServiceIdentity.api])
  else
  match make_tx s o.now outbound_account outbound_uid inbound_account inbound_uid amount with
  | Except.error _ => some (s, [])
  | Except.ok (s, outbound_account, inbound_account, txid) =>
  match make_summary_tx s o.now outbound_account outbound_uid inbound_account inbound_uid
      amount none none (some txid) (some txid) none (some "InternalTransfer") with
  | none => none
  | some (Except.error _) => some (s, [])
  | some (Except.ok (s, _)) =>
  match insert_into_ledger s inbound_uid inbound_account.account_id inbound_account with
  | none => none
  | some s =>
  match insert_into_ledger s outbound_uid outbound_account.account_id outbound_account with
  | none => none
  | some s =>
  let s := update_account s outbound_account outbound_uid
  let s := update_account s inbound_account inbound_uid
  let resp := { payment_response with success := true }
  some (s, [Output.msg (Message.api (Api.paymentResponse resp)) ServiceIdentity.api])

/-- `BankEngine::handle_dealer_deposit`: deposit settling an invoice owned by
the dealer identity; the memo reference decides internal vs external.  Note
that a failed `make_tx` is only logged — the writeback and the two
`update_account` calls still run. -/
def handle_dealer_deposit (o : Oracle) (s : BankEngine) (d : Deposit) :
    Option (BankEngine × List Output) :=
  match findInvoice s.invoices d.payment_request with
  | none => some (s, [])
  | some invoice =>
  match invoice.reference with
  | none => some (s, [])
  | some r =>
  if r = "KolliderSettlement" ∨ r = "ExternalDeposit" then
    let is_internal := r = "KolliderSettlement"
    let p1 := s.ledger.dealer_accounts.get_default_account Currency.BTC
      (some AccountType.Internal)
    let inbound_dealer_account := p1.1
    let s := setDealerAccounts s p1.2
    let po :=
      if is_internal then
        let p2 := s.ledger.dealer_accounts.get_default_account Currency.BTC
          (some AccountType.External)
        ((p2.1, DEALER_UID), setDealerAccounts s p2.2)
      else
        let p2 := s.ledger.bank_liabilities.get_default_account Currency.BTC
          (some AccountType.External)
        ((p2.1, BANK_UID), setBankLiabilities s p2.2)
    let outbound_account := po.1.1
    let outbound_uid := po.1.2
    let s := po.2
    let value := Money.from_sats (invoice.value : Rat)
    let step :=
      match make_tx s o.now outbound_account outbound_uid inbound_dealer_account
          DEALER_UID value with
      | Except.ok (s2, ob, ib, _) => (s2, ob, ib)
      | Except.error _ => (s, outbound_account, inbound_dealer_account)
    let s := step.1
    let outbound_account := step.2.1
    let inbound_dealer_account := step.2.2
    let s := insertDealerAccount s inbound_dealer_account
    let s := update_account s inbound_dealer_account DEALER_UID
    if is_internal then
      let s := insertDealerAccount s outbound_account
      let s := update_account s outbound_account DEALER_UID
      some (s, [])
    else
      let s := insertBankLiabilityAccount s outbound_account
      let s := update_account s outbound_account BANK_UID
      some (s, [])
  else some (s, [])

/-- `Message::Deposit`: a Lightning payment received on the node settles a
known invoice; dealer invoices are routed to the dealer-deposit handler,
fiat-targeted deposits to the dealer over the bus, and pure BTC deposits are
booked `bank_liabilities → customer`. -/
def handleDeposit (o : Oracle) (s : BankEngine) (d : Deposit) :
    Option (BankEngine × List Output) :=
  match findInvoice s.invoices d.payment_request with
  | none => some (s, [])
  | some invoice =>
  if invoice.uid = DEALER_UID then handle_dealer_deposit o s d
  else
  let value := Money.from_sats (invoice.value : Rat)
  let currency := invoice.currency.getD Currency.BTC
  let target_account_currency := invoice.target_account_currency.getD Currency.BTC
  if currency ≠ Currency.BTC ∨ (currency = Currency.BTC ∧ target_account_currency ≠ Currency.BTC) then
    let c := if currency = Currency.BTC then target_account_currency else currency
    let req : FiatDepositRequest := { uid := invoice.uid, currency := c, req_id := 0, amount := value }
    some (s, [Output.msg (Message.dealer (DealerMsg.fiatDepositRequest req)) ServiceIdentity.dealer])
  else
  let ua := (lookupA s.ledger.user_accounts invoice.uid).getD (UserAccount.new invoice.uid)
  let inbound_uid := ua.owner
  let pi2 := ua.get_default_account currency none
  let inbound_account := pi2.1
  let s := setUser s invoice.uid pi2.2
  let pl := s.ledger.bank_liabilities.get_default_account Currency.BTC (some AccountType.External)
  let liability_account := pl.1
  let s := setBankLiabilities s pl.2
  match make_tx s o.now liability_account BANK_UID inbound_account inbound_uid value with
  | Except.error _ => some (s, [])
  | Except.ok (s, liability_account, inbound_account, txid) =>
  match insert_into_ledger s inbound_uid inbound_account.account_id inbound_account with
  | none => none
  | some s =>
  let s := insertBankLiabilityAccount s liability_account
  let s := update_account s inbound_account inbound_uid
  let s := update_account s liability_account BANK_UID
  match make_summary_tx s o.now liability_account BANK_UID inbound_account inbound_uid
      value none none (some txid) (some txid) none (some "ExternalDeposit") with
  | none => none
  | some (Except.error _) => some (s, [])
  | some (Except.ok (s, _)) => some (s, [])

/-- `Dealer::FiatDepositResponse`: books the two legs of a fiat deposit
(bank liabilities → dealer BTC, dealer fiat → user fiat), persists, sends the
new `BankState` to the dealer and appends the summary row. -/
def handleFiatDepositResponse (o : Oracle) (s : BankEngine) (m : FiatDepositResponse) :
    Option (BankEngine × List Output) :=
  if m.error.isSome then some (s, [])
  else
  match m.rate with
  | none => some (s, [])
  | some rate =>
  let ua := (lookupA s.ledger.user_accounts m.uid).getD (UserAccount.new m.uid)
  let inbound_uid := ua.owner
  let pu := ua.get_default_account m.currency none
  let inbound_account := pu.1
  let s := setUser s m.uid pu.2
  let pf := s.ledger.dealer_accounts.get_default_account m.currency (some AccountType.Internal)
  let dealer_fiat_account := pf.1
  let s := setDealerAccounts s pf.2
  let pb := s.ledger.dealer_accounts.get_default_account Currency.BTC (some AccountType.Internal)
  let dealer_btc_account := pb.1
  let s := setDealerAccounts s pb.2
  let pl := s.ledger.bank_liabilities.get_default_account Currency.BTC (some AccountType.External)
  let liabilities_btc_account := pl.1
  let s := setBankLiabilities s pl.2
  let value := m.amount
  match value.exchange rate with
  | none => none
  | some fiat_value =>
  match make_tx s o.now liabilities_btc_account BANK_UID dealer_btc_account DEALER_UID value with
  | Except.error _ => some (s, [])
  | Except.ok (s, liabilities_btc_account, dealer_btc_account, outbound_txid) =>
  match make_tx s o.now dealer_fiat_account DEALER_UID inbound_account inbound_uid fiat_value with
  | Except.error _ => some (s, [])
  | Except.ok (s, dealer_fiat_account, inbound_account, inbound_txid) =>
  match insert_into_ledger s inbound_uid inbound_account.account_id inbound_account with
  | none => none
  | some s =>
  let s := insertBankLiabilityAccount s liabilities_btc_account
  let s := insertDealerAccount s dealer_btc_account
  let s := insertDealerAccount s dealer_fiat_account
  let s := update_account s inbound_account inbound_uid
  let s := update_account s liabilities_btc_account BANK_UID
  let s := update_account s dealer_btc_account DEALER_UID
  let s := update_account s dealer_fiat_account DEALER_UID
  let outs := [Output.msg (Message.dealer (DealerMsg.bankState (get_bank_state s))) ServiceIdentity.dealer]
  match make_summary_tx s o.now liabilities_btc_account BANK_UID inbound_account inbound_uid
      value (some rate) none (some outbound_txid) (some inbound_txid) none
      (some "ExternalDeposit") with
  | none => none
  | some (Except.error _) => some (s, outs)
  | some (Except.ok (s, _)) => some (s, outs)

/-- `BankEngine::process_dealer_invoice`: the engine pays the dealer-supplied
invoice inline, then books dealer Internal → bank-liability External
(`is_external`, i.e. `Dealer::PayInvoice`) or dealer Internal → dealer
External (`Dealer::PayInsuranceInvoice`).  The invoice amount is
`Decimal::new(msat, 3)` = msat/1000 sats; a zero-amount invoice panics. -/
def process_dealer_invoice (o : Oracle) (s : BankEngine) (pay_invoice : PayInvoice)
    (is_external : Bool) : Option (BankEngine × List Output) :=
  match o.decode pay_invoice.payment_request with
  | none => some (s, [])
  | some decoded =>
  match decoded.amount_msat with
  | none => none
  | some msat =>
  let amount_in_sats : Rat := (msat : Rat) / 1000
  match o.payInvoice with
  | none => some (s, [])
  | some _ =>
  let pio :=
    if is_external then
      let p1 := s.ledger.bank_liabilities.get_default_account Currency.BTC
        (some AccountType.External)
      let s := setBankLiabilities s p1.2
      let p2 := s.ledger.dealer_accounts.get_default_account Currency.BTC
        (some AccountType.Internal)
      ((p2.1, p1.1, BANK_UID), setDealerAccounts s p2.2)
    else
      let p1 := s.ledger.dealer_accounts.get_default_account Currency.BTC
        (some AccountType.External)
      let s := setDealerAccounts s p1.2
      let p2 := s.ledger.dealer_accounts.get_default_account Currency.BTC
        (some AccountType.Internal)
      ((p2.1, p1.1, DEALER_UID), setDealerAccounts s p2.2)
  let outbound_account := pio.1.1
  let inbound_account := pio.1.2.1
  let inbound_uid := pio.1.2.2
  let s := pio.2
  let amount := Money.from_sats amount_in_sats
  match make_tx s o.now outbound_account DEALER_UID inbound_account inbound_uid amount with
  | Except.error _ => some (s, [])
  | Except.ok (s, outbound_account, inbound_account, _) =>
  if is_external then
    let s := update_account s inbound_account BANK_UID
    let s := update_account s outbound_account DEALER_UID
    let s := insertBankLiabilityAccount s inbound_account
    let s := insertDealerAccount s outbound_account
    some (s, [])
  else
    let s := update_account s inbound_account DEALER_UID
    let s := update_account s outbound_account DEALER_UID
    let s := insertDealerAccount s inbound_account
    let s := insertDealerAccount s outbound_account
    some (s, [])

/-- `BankEngine::process_create_invoice_request` invoked with the dealer
identity: issues an invoice owned by the dealer with the caller-fixed memo as
its reference (the memo is the join key of the dealer-deposit handler). -/
def process_create_invoice_request (o : Oracle) (s : BankEngine)
    (req : CreateInvoiceRequest) : Option (BankEngine × List Output) :=
  let pa := s.ledger.dealer_accounts.get_default_account Currency.BTC
    (some AccountType.Internal)
  let account_id := pa.1.account_id
  let s := setDealerAccounts s pa.2
  match o.createInvoice with
  | none => some (s, [])
  | some payment_request =>
  let invoice : Invoice :=
    { payment_request, value := (req.amount : Int), value_msat := (req.amount : Int) * 1000,
      settled := false, uid := DEALER_UID, account_id, owner := some DEALER_UID,
      incoming := true, currency := none, target_account_currency := none,
      reference := some req.memo }
  let s := { s with invoices := s.invoices ++ [invoice] }
  let resp : CreateInvoiceResponse :=
    { req_id := req.req_id, payment_request, amount := req.amount }
  some (s, [Output.msg (Message.dealer (DealerMsg.createInvoiceResponse resp)) ServiceIdentity.dealer])

/-- `Api::InvoiceRequest` (deposit intent): rate limit, insurance, user-entry
creation, withdrawal-only mode, account resolution, per-currency deposit
limit, fiat forwarding, BTC invoice creation.  A currency without a
configured deposit limit panics (`none`), as does a negative amount at the
sats conversion. -/
def handleInvoiceRequest (o : Oracle) (s : BankEngine) (m : InvoiceRequest) :
    Option (BankEngine × List Output) :=
  let respond := fun (e : Option InvoiceResponseError) (account_id : Option Nat)
      (payment_request : Option String) (s2 : BankEngine) =>
    let resp : InvoiceResponse :=
      { req_id := m.req_id, uid := m.uid, amount := m.amount, rate := none,
        payment_request, currency := m.currency,
        target_account_currency := m.target_account_currency, account_id,
        error := e, fees := none }
    some (s2, [Output.msg (Message.api (Api.invoiceResponse resp)) ServiceIdentity.api])
  let pl := check_rate_limit s.deposit_rate_limiter s.deposit_limiter_settings o.now m.uid
  let s := { s with deposit_rate_limiter := pl.2 }
  if pl.1 = false then
    respond (some InvoiceResponseError.RequestLimitExceeded) none none s
  else
  let pd := is_insurance_fund_depleted s.ledger
  let s := { s with ledger := pd.2 }
  if pd.1 then respond (some InvoiceResponseError.InvoicingSuspended) none none s
  else
  let user_account := (lookupA s.ledger.user_accounts m.uid).getD (UserAccount.new m.uid)
  let s := setUser s m.uid user_account
  if s.withdrawal_only then respond (some InvoiceResponseError.WithdrawalOnly) none none s
  else
  let amount := m.amount
  let currency := m.currency
  let resolved :=
    match m.account_id with
    | some account_id =>
      match lookupA user_account.accounts account_id with
      | some acc => Except.ok (acc, s)
      | none =>
        Except.error (Account.mk 0 m.currency 0 AccountType.Internal AccountClass.Cash)
    | none =>
      let p2 := user_account.get_default_account m.currency none
      Except.ok (p2.1, setUser s m.uid p2.2)
  match resolved with
  | Except.error dflt =>
    respond (some InvoiceResponseError.AccountDoesNotExist) (some dflt.account_id) none s
  | Except.ok (target_account, s) =>
  match lookupC s.deposit_limits currency with
  | none => none
  | some deposit_limit =>
  if target_account.balance + amount.value > deposit_limit then
    respond (some InvoiceResponseError.DepositLimitExceeded) (some target_account.account_id) none s
  else
  if currency ≠ Currency.BTC then
    some (s, [Output.msg (Message.api (Api.invoiceRequest m)) ServiceIdentity.dealer])
  else
  match amount.try_sats with
  | none => none
  | some n =>
  if n < 0 then none
  else
  match o.createInvoice with
  | none => some (s, [])
  | some payment_request =>
  let invoice : Invoice :=
    { payment_request, value := n, value_msat := n * 1000, settled := false,
      uid := m.uid, account_id := target_account.account_id, owner := none,
      incoming := true, currency := some m.currency,
      target_account_currency := m.target_account_currency, reference := none }
  let s := { s with invoices := s.invoices ++ [invoice] }
  respond none (some target_account.account_id) (some payment_request) s

/-- `Api::InvoiceResponse` (second half of a fiat deposit): the dealer echoes
the request with a rate; the engine converts to sats, re-checks the deposit
limit against the BTC target account and creates the Lightning invoice. -/
def handleInvoiceResponse (o : Oracle) (s : BankEngine) (m : InvoiceResponse) :
    Option (BankEngine × List Output) :=
  let respond := fun (amount : Money) (rate : Option Rate) (fees : Option Money)
      (e : Option InvoiceResponseError) (account_id : Option Nat)
      (payment_request : Option String) (s2 : BankEngine) =>
    let resp : InvoiceResponse :=
      { req_id := m.req_id, uid := m.uid, amount, rate, payment_request,
        currency := m.currency, target_account_currency := m.target_account_currency,
        account_id, error := e, fees }
    some (s2, [Output.msg (Message.api (Api.invoiceResponse resp)) ServiceIdentity.api])
  match m.rate with
  | none => respond m.amount m.rate m.fees (some InvoiceResponseError.RateNotAvailable)
      m.account_id m.payment_request s
  | some rate =>
  if rate.value = 0 then none
  else
  let amount_in_btc := m.amount.value / rate.value
  let money := Money.from_btc amount_in_btc
  match money.try_sats with
  | none => none
  | some n0 =>
  let n := roundAwayFromZero (n0 : Rat)
  if n < 0 then none
  else
  let user_account := (lookupA s.ledger.user_accounts m.uid).getD (UserAccount.new m.uid)
  let s := setUser s m.uid user_account
  let resolved :=
    match m.account_id with
    | some account_id =>
      match lookupA user_account.accounts account_id with
      | some acc => Except.ok (acc, s)
      | none =>
        Except.error (Account.mk 0 Currency.BTC 0 AccountType.Internal AccountClass.Cash)
    | none =>
      let p2 := user_account.get_default_account Currency.BTC none
      Except.ok (p2.1, setUser s m.uid p2.2)
  match resolved with
  | Except.error dflt =>
    respond m.amount none none (some InvoiceResponseError.AccountDoesNotExist)
      (some dflt.account_id) none s
  | Except.ok (target_account, s) =>
  match lookupC s.deposit_limits m.currency with
  | none => none
  | some deposit_limit =>
  if target_account.balance + m.amount.value > deposit_limit then
    respond money none none (some InvoiceResponseError.DepositLimitExceeded)
      (some target_account.account_id) none s
  else
  match o.createInvoice with
  | none => some (s, [])
  | some payment_request =>
  let invoice : Invoice :=
    { payment_request, value := n, value_msat := n * 1000, settled := false,
      uid := m.uid, account_id := target_account.account_id, owner := none,
      incoming := true, currency := some m.currency, target_account_currency := none,
      reference := none }
  let s := { s with invoices := s.invoices ++ [invoice] }
  respond m.amount m.rate m.fees none (some target_account.account_id)
    (some payment_request) s

/-- The reservation stage of `Api::PaymentRequest` for an invoice leaving the
platform (`invoice.owner.is_none()`): debit the customer before spawning the
pay task — two legs through the dealer for a fiat outbound account, one leg
to the bank-liability BTC External account for BTC — then spawn. -/
def reservePayment (o : Oracle) (s : BankEngine) (uid : Nat) (currency : Currency)
    (req_id : Nat) (payment_request : String) (outbound_account : Account) (rate : Rate)
    (amount_in_btc estimated_fee : Money)
    (outbound_amount_in_btc_plus_max_fees : Money)
    (outbound_amount_in_outbound_currency_plus_max_fee : Money)
    (invoice_amount_sats : Nat) (payment_response : PaymentResponse) :
    Option (BankEngine × List Output) :=
  let plb := s.ledger.bank_liabilities.get_default_account Currency.BTC
    (some AccountType.External)
  let bank_liability_account := plb.1
  let s := setBankLiabilities s plb.2
  let mkInfo := fun (s2 : BankEngine) =>
    let info : SpawnInfo :=
      { uid, req_id, currency, rate, payment_request,
        amount_in_btc, reserved := outbound_amount_in_btc_plus_max_fees,
        estimated_fee_in_sats := (estimated_fee.try_sats).getD 0,
        amount_in_sats := invoice_amount_sats }
    some (s2, [Output.spawnPay info])
  if currency ≠ Currency.BTC then
    let pf := s.ledger.dealer_accounts.get_default_account currency
      (some AccountType.Internal)
    let dealer_fiat_account := pf.1
    let s := setDealerAccounts s pf.2
    match make_tx s o.now outbound_account uid dealer_fiat_account DEALER_UID
        outbound_amount_in_outbound_currency_plus_max_fee with
    | Except.error _ => some (s, [])
    | Except.ok (s, outbound_account, dealer_fiat_account, outbound_txid) =>
    let pb := s.ledger.dealer_accounts.get_default_account Currency.BTC
      (some AccountType.Internal)
    let dealer_btc_account := pb.1
    let s := setDealerAccounts s pb.2
    match make_tx s o.now dealer_btc_account DEALER_UID bank_liability_account BANK_UID
        outbound_amount_in_btc_plus_max_fees with
    | Except.error _ => some (s, [])
    | Except.ok (s, dealer_btc_account, bank_liability_account, inbound_txid) =>
    match insert_into_ledger s uid outbound_account.account_id outbound_account with
    | none => none
    | some s =>
    let s := insertBankLiabilityAccount s bank_liability_account
    let s := insertDealerAccount s dealer_fiat_account
    let s := insertDealerAccount s dealer_btc_account
    let s := update_account s outbound_account uid
    let s := update_account s bank_liability_account BANK_UID
    let s := update_account s dealer_btc_account DEALER_UID
    let s := update_account s dealer_fiat_account DEALER_UID
    match make_summary_tx s o.now outbound_account uid bank_liability_account BANK_UID
        outbound_amount_in_outbound_currency_plus_max_fee (some rate) none
        (some outbound_txid) (some inbound_txid) none (some "ExternalPayment") with
    | none => none
    | some (Except.error _) => some (s, [])
    | some (Except.ok (s, _)) => mkInfo s
  else
    match make_tx s o.now outbound_account uid bank_liability_account BANK_UID
        outbound_amount_in_outbound_currency_plus_max_fee with
    | Except.error _ =>
      let resp := { payment_response with error := some PaymentResponseError.TransactionFailed }
      some (s, [Output.msg (Message.api (Api.paymentResponse resp)) ServiceIdentity.api])
    | Except.ok (s, outbound_account, bank_liability_account, txid) =>
    let s := insertBankLiabilityAccount s bank_liability_account
    match insert_into_ledger s uid outbound_account.account_id outbound_account with
    | none => none
    | some s =>
    let s := update_account s outbound_account uid
    let s := update_account s bank_liability_account BANK_UID
    match make_summary_tx s o.now outbound_account uid bank_liability_account BANK_UID
        outbound_amount_in_btc_plus_max_fees none none (some txid) (some txid) none
        (some "ExternalPayment") with
    | none => none
    | some r =>
    let s := match r with | Except.ok (s2, _) => s2 | Except.error _ => s
    mkInfo s

/-- The `msg.amount`/`msg.rate` rewrites `Api::PaymentRequest` performs after
decoding the BOLT-11: the amount becomes the invoice amount in BTC, and a unit
BTC rate is attached for BTC requests. -/
def pr_decorated (m : PaymentRequest) (invoice_amount_sats : Nat) : PaymentRequest :=
  let m2 := { m with amount := some (Money.from_sats (invoice_amount_sats : Rat)) }
  if m2.currency = Currency.BTC then
    { m2 with rate := some ⟨Currency.BTC, Currency.BTC, 1⟩ }
  else m2

/-- The invoice row `Api::PaymentRequest` reads from the store, inserting a
fresh outgoing row when the payment request is unknown. -/
def storedInvoice (s : BankEngine) (m : PaymentRequest) (uid : Nat)
    (payment_request : String) (invoice_amount_millisats invoice_amount_sats : Nat) :
    Invoice × BankEngine :=
  match findInvoice s.invoices payment_request with
  | some inv => (inv, s)
  | none =>
    let inv : Invoice :=
      { payment_request, value := (invoice_amount_sats : Int),
        value_msat := (invoice_amount_millisats : Int), settled := false, uid,
        account_id := 0, owner := none, incoming := false,
        currency := some m.currency, target_account_currency := none, reference := none }
    (inv, { s with invoices := s.invoices ++ [inv] })

/-- Fee estimation of `Api::PaymentRequest`: a successful non-empty probe
yields the best route's fee, otherwise the margin ceiling
`round_dp(amount * ln_network_fee_margin, 8, AwayFromZero)`. -/
def estimated_fee_value (o : Oracle) (margin : Rat) (amount_in_btc : Rat) : Rat :=
  match o.probe with
  | some best_route_fees => (best_route_fees : Rat) / SATS_IN_BITCOIN
  | none => roundDpAway 8 (amount_in_btc * margin)

/-- The generic `PaymentResponse` template prepared by `Api::PaymentRequest`
(over the decorated message). -/
def pr_payment_response (m : PaymentRequest) (payment_request : String) : PaymentResponse :=
  { amount := m.amount, payment_hash := "", req_id := m.req_id, uid := m.uid,
    success := false, payment_request := some payment_request,
    currency := m.currency, fees := some (m.fees.getD (Money.from_sats 0)),
    rate := some (m.rate.getD ⟨Currency.BTC, Currency.BTC, 1⟩),
    error := none, preimage := none }

/-- The remainder of `Api::PaymentRequest` once the BOLT-11 is decoded:
fiat quoting, invoice bookkeeping, self-payment/settled checks, fee
estimation, the funds check, and the reservation or internal-transfer path. -/
def handlePaymentDecoded (o : Oracle) (s : BankEngine) (m : PaymentRequest) (uid : Nat)
    (outbound_account : Account) (payment_request : String)
    (invoice_amount_millisats invoice_amount_sats : Nat) :
    Option (BankEngine × List Output) :=
  if m.currency ≠ Currency.BTC ∧ m.rate = none then
    some (s, [Output.msg (Message.api (Api.paymentRequest
      (pr_decorated m invoice_amount_sats))) ServiceIdentity.dealer])
  else
  let m := pr_decorated m invoice_amount_sats
  let pinv := storedInvoice s m uid payment_request invoice_amount_millisats invoice_amount_sats
  let invoice := pinv.1
  let s := pinv.2
  let amount_in_btc := Money.from_sats (invoice_amount_sats : Rat)
  let rate := m.rate.getD ⟨Currency.BTC, Currency.BTC, 1⟩
  let payment_response := pr_payment_response m payment_request
  let respondWith := fun (e : PaymentResponseError) (s2 : BankEngine) =>
    let resp := { payment_response with error := some e }
    some (s2, [Output.msg (Message.api (Api.paymentResponse resp)) ServiceIdentity.api])
  if invoice.owner = some uid then respondWith PaymentResponseError.SelfPayment s
  else
  if invoice.settled then respondWith PaymentResponseError.InvoiceAlreadyPaid s
  else
  let estimated_fee := Money.from_btc
    (estimated_fee_value o s.ln_network_fee_margin amount_in_btc.value)
  let outbound_amount_in_btc_plus_max_fees :=
    Money.from_btc (amount_in_btc.value + estimated_fee.value)
  match outbound_amount_in_btc_plus_max_fees.exchange rate with
  | none => none
  | some outbound_amount_in_outbound_currency_plus_max_fee =>
  if outbound_account.balance < outbound_amount_in_outbound_currency_plus_max_fee.value then
    respondWith PaymentResponseError.InsufficientFundsForFees s
  else
  match invoice.owner with
  | none =>
    reservePayment o s uid m.currency m.req_id payment_request outbound_account rate
      amount_in_btc estimated_fee outbound_amount_in_btc_plus_max_fees
      outbound_amount_in_outbound_currency_plus_max_fee invoice_amount_sats payment_response
  | some owner_id =>
    match lookupA s.users owner_id with
    | none =>
      let resp := PaymentResponse.err PaymentResponseError.DatabaseConnectionFailed m.req_id
        uid (some payment_request) m.currency none
      some (s, [Output.msg (Message.api (Api.paymentResponse resp)) ServiceIdentity.api])
    | some owner_username =>
      make_internal_tx o s { m with receipient := some owner_username }

/-- `Api::PaymentRequest` (withdrawal intent): rate limiting, account
resolution, amount validation, internal-transfer path, BOLT-11 decoding,
fiat quoting, invoice bookkeeping, fee estimation, reservation booking and
pay-task spawning.  Panics (`none`): a request without a `payment_request`
string on the external path, a reservation-exchange base mismatch, and the
summary-row exchange mismatch of the fiat branch. -/
def handlePaymentRequest (o : Oracle) (s : BankEngine) (m : PaymentRequest) :
    Option (BankEngine × List Output) :=
  let uid := m.uid
  let errOut := fun (e : PaymentResponseError) (s2 : BankEngine) =>
    let resp := PaymentResponse.err e m.req_id uid m.payment_request m.currency none
    some (s2, [Output.msg (Message.api (Api.paymentResponse resp)) ServiceIdentity.api])
  let pl := check_rate_limit s.withdrawal_rate_limiter s.withdrawal_limiter_settings o.now uid
  let s := { s with withdrawal_rate_limiter := pl.2 }
  if pl.1 = false then errOut PaymentResponseError.RequestLimitExceeded s
  else
  match lookupA s.ledger.user_accounts uid with
  | none => errOut PaymentResponseError.UserAccountNotFound s
  | some ua =>
  let po := ua.get_default_account m.currency none
  let outbound_account := po.1
  let s := setUser s uid po.2
  let pd := is_insurance_fund_depleted s.ledger
  let s := { s with ledger := pd.2 }
  if m.amount.isSome ∧ (m.amount.getD ⟨m.currency, 0⟩).value ≤ 0 then
    errOut PaymentResponseError.InvalidAmount s
  else
  if m.receipient.isSome then make_internal_tx o s m
  else
  match m.payment_request with
  | none => none
  | some payment_request =>
  match o.decode payment_request with
  | none => errOut PaymentResponseError.InvalidInvoice s
  | some decoded =>
  match decoded.amount_msat with
  | none => errOut PaymentResponseError.ZeroAmountInvoice s
  | some invoice_amount_millisats =>
  handlePaymentDecoded o s m uid outbound_account payment_request
    invoice_amount_millisats (invoice_amount_millisats / 1000)

/-- `Api::SwapRequest`: dropped while the insurance fund is depleted,
otherwise forwarded to the dealer. -/
def handleSwapRequest (s : BankEngine) (m : SwapRequest) :
    Option (BankEngine × List Output) :=
  let pd := is_insurance_fund_depleted s.ledger
  let s := { s with ledger := pd.2 }
  if pd.1 then some (s, [])
  else some (s, [Output.msg (Message.api (Api.swapRequest m)) ServiceIdentity.dealer])

/-- A `SwapResponse` clone with `success := false` and the given error. -/
def swapErr (r : SwapResponse) (e : SwapResponseError) : SwapResponse :=
  { r with success := false, error := some e }

/-- `Api::SwapResponse`: settles a dealer-quoted swap with two same-currency
legs and persists the four touched accounts. -/
def handleSwapResponse (o : Oracle) (s : BankEngine) (m : SwapResponse) :
    Option (BankEngine × List Output) :=
  let fwd := fun (r : SwapResponse) (s2 : BankEngine) =>
    some (s2, [Output.msg (Message.api (Api.swapResponse r)) ServiceIdentity.api])
  if m.error.isSome ∨ m.success = false then fwd m s
  else
  let swap_response := m
  if (s.available_currencies.contains m.to_cur) = false then
    fwd (swapErr swap_response SwapResponseError.CurrencyNotAvailable) s
  else
  let uid := m.uid
  let swap_amount := m.amount
  match m.rate with
  | none =>
    fwd (swapErr swap_response SwapResponseError.CurrencyNotAvailable) s
  | some rate =>
  match lookupA s.ledger.user_accounts m.uid with
  | none =>
    fwd (swapErr swap_response SwapResponseError.UserAccountNotFound) s
  | some ua =>
  let p1 := ua.get_default_account m.from_cur none
  let outbound_account := p1.1
  let p2 := p1.2.get_default_account m.to_cur none
  let inbound_account := p2.1
  let s := setUser s m.uid p2.2
  let pd1 := s.ledger.dealer_accounts.get_default_account m.to_cur (some AccountType.Internal)
  let outbound_dealer_account := pd1.1
  let s := setDealerAccounts s pd1.2
  let pd2 := s.ledger.dealer_accounts.get_default_account m.from_cur (some AccountType.Internal)
  let inbound_dealer_account := pd2.1
  let s := setDealerAccounts s pd2.2
  if outbound_account.balance < swap_amount.value then
    fwd (swapErr m SwapResponseError.NotEnoughAvailableBalance) s
  else
  match make_tx s o.now outbound_account uid inbound_dealer_account BANK_UID m.amount with
  | Except.error _ =>
    fwd (swapErr swap_response SwapResponseError.TransactionFailed) s
  | Except.ok (s, outbound_account, inbound_dealer_account, outbound_txid) =>
  let value := m.amount
  match value.exchange rate with
  | none => none
  | some inbound_amount =>
  match make_tx s o.now outbound_dealer_account BANK_UID inbound_account uid inbound_amount with
  | Except.error _ =>
    fwd (swapErr swap_response SwapResponseError.TransactionFailed) s
  | Except.ok (s, outbound_dealer_account, inbound_account, inbound_txid) =>
  match insert_into_ledger s uid outbound_account.account_id outbound_account with
  | none => none
  | some s =>
  match insert_into_ledger s uid inbound_account.account_id inbound_account with
  | none => none
  | some s =>
  let s := insertDealerAccount s outbound_dealer_account
  let s := insertDealerAccount s inbound_dealer_account
  let s := update_account s outbound_account uid
  let s := update_account s inbound_account uid
  let s := update_account s outbound_dealer_account uid
  let s := update_account s inbound_dealer_account uid
  let outs :=
    [Output.msg (Message.api (Api.swapResponse swap_response)) ServiceIdentity.api,
     Output.msg (Message.dealer (DealerMsg.bankState (get_bank_state s))) ServiceIdentity.dealer]
  match make_summary_tx s o.now outbound_account uid inbound_account uid value (some rate)
      none (some outbound_txid) (some inbound_txid) none (some "Swap") with
  | none => none
  | some (Except.error _) => some (s, outs)
  | some (Except.ok (s, _)) => some (s, outs)

/-- `Api::GetBalances`: reads the user's accounts — creating the user's
(empty) ledger entry when the uid was unknown — and responds with them. -/
def handleGetBalances (s : BankEngine) (m : GetBalances) :
    Option (BankEngine × List Output) :=
  let user_account := (lookupA s.ledger.user_accounts m.uid).getD (UserAccount.new m.uid)
  let s := setUser s m.uid user_account
  let balances : Balances :=
    { req_id := m.req_id, uid := m.uid, accounts := user_account.accounts, error := none }
  let dest := if m.uid = DEALER_UID then ServiceIdentity.dealer else ServiceIdentity.api
  some (s, [Output.msg (Message.api (Api.balances balances)) dest])

/-- `Api::CreateLnurlWithdrawalRequest`: validates amount and balance, encodes
an LNURL string and remembers the `PaymentRequest` template keyed by req id.
The depleted-insurance check only logs (its lazy account creation is kept). -/
def handleCreateLnurlWithdrawalRequest (o : Oracle) (s : BankEngine)
    (m : CreateLnurlWithdrawalRequest) : Option (BankEngine × List Output) :=
  let pd := is_insurance_fund_depleted s.ledger
  let s := { s with ledger := pd.2 }
  let respond := fun (e : Option CreateLnurlWithdrawalError) (lnurl : Option String)
      (s2 : BankEngine) =>
    let resp : CreateLnurlWithdrawalResponse := { req_id := m.req_id, lnurl, error := e }
    some (s2, [Output.msg (Message.api (Api.createLnurlWithdrawalResponse resp)) ServiceIdentity.api])
  if m.amount.value ≤ 0 then respond (some CreateLnurlWithdrawalError.InvalidAmount) none s
  else
  match lookupA s.ledger.user_accounts m.uid with
  | none => respond (some CreateLnurlWithdrawalError.UserAccountNotFound) none s
  | some ua =>
  let p1 := ua.get_default_account m.currency none
  let outbound_account := p1.1
  let s := setUser s m.uid p1.2
  if m.currency ≠ Currency.BTC ∧ m.rate = none then
    some (s, [Output.msg (Message.api (Api.createLnurlWithdrawalRequest m)) ServiceIdentity.dealer])
  else
  if outbound_account.balance < m.amount.value then
    respond (some CreateLnurlWithdrawalError.InsufficientFunds) none s
  else
  let payment_request : PaymentRequest :=
    { uid := m.uid, req_id := m.req_id, amount := some m.amount, currency := m.currency,
      rate := m.rate, payment_request := some "", receipient := none, fees := m.fees }
  let reqs2 := insertA s.lnurl_withdrawal_requests payment_request.req_id (o.now, payment_request)
  let s := { s with lnurl_withdrawal_requests := reqs2 }
  respond none (some "lnurl1encoded") s

/-- `Api::GetLnurlWithdrawalRequest`: single-use lookup — the template is
removed whenever it is found, and `max_withdrawable` is computed from it. -/
def handleGetLnurlWithdrawalRequest (s : BankEngine) (m : GetLnurlWithdrawalRequest) :
    Option (BankEngine × List Output) :=
  let respond := fun (mw : Nat) (e : Option GetLnurlWithdrawalError) (s2 : BankEngine) =>
    let resp : GetLnurlWithdrawalResponse :=
      { req_id := m.req_id, max_withdrawable := mw, min_withdrawable := 1, error := e }
    some (s2, [Output.msg (Message.api (Api.getLnurlWithdrawalResponse resp)) ServiceIdentity.api])
  match removeA s.lnurl_withdrawal_requests m.req_id with
  | none => respond 0 (some GetLnurlWithdrawalError.RequestNotFound) s
  | some (e, rest) =>
  let payment_request := e.2
  let s := { s with lnurl_withdrawal_requests := rest }
  match payment_request.amount with
  | none => respond 0 (some GetLnurlWithdrawalError.RequestNotFound) s
  | some a =>
  let ax :=
    match payment_request.rate with
    | some r => a.exchange r
    | none => some a
  match ax with
  | none => none
  | some a2 =>
  match a2.try_sats with
  | none => none
  | some sats =>
  if sats < 0 then respond 0 (some GetLnurlWithdrawalError.RequestNotFound) s
  else respond sats.toNat none s

/-- `Api::PayLnurlWithdrawalRequest`: attaches the wallet-supplied BOLT-11 to
the remembered template (in place — the template is not removed) and loops the
template back as a normal `Api::PaymentRequest`. -/
def handlePayLnurlWithdrawalRequest (s : BankEngine) (m : PayLnurlWithdrawalRequest) :
    Option (BankEngine × List Output) :=
  match lookupA s.lnurl_withdrawal_requests m.req_id with
  | some e =>
    let template := { e.2 with payment_request := some m.payment_request }
    let reqs2 := insertA s.lnurl_withdrawal_requests m.req_id (e.1, template)
    let s := { s with lnurl_withdrawal_requests := reqs2 }
    some (s, [Output.msg (Message.api (Api.paymentRequest template)) ServiceIdentity.loopback])
  | none =>
    let resp : PayLnurlWithdrawalResponse :=
      { req_id := m.req_id, error := some PayLnurlWithdrawalError.RequestNotFound }
    some (s, [Output.msg (Message.api (Api.payLnurlWithdrawalResponse resp)) ServiceIdentity.api])

/-- `Bank::PaymentResult`: reconciliation of a rejoined pay task.  On success
the excess reserve `R - A - f` flows bank-liability → dealer BTC (skipped when
zero, a negative excess fails the `assert!`), the invoice is settled and the
success response goes to the Api.  On failure the full reservation is
refunded to the customer (two legs for fiat). -/
def handlePaymentResult (o : Oracle) (s : BankEngine) (res : PaymentResult) :
    Option (BankEngine × List Output) :=
  if res.amount.value ≤ 0 then none
  else
  let uid := res.uid
  let plb := s.ledger.bank_liabilities.get_default_account Currency.BTC
    (some AccountType.External)
  let btc_liabilities_account := plb.1
  let s := setBankLiabilities s plb.2
  match lookupA s.ledger.user_accounts uid with
  | none => some (s, [])
  | some ua =>
  let pu := ua.get_default_account res.currency none
  let inbound_account := pu.1
  let s := setUser s uid pu.2
  let payment_response := res.payment_response
  let pd := s.ledger.dealer_accounts.get_default_account Currency.BTC
    (some AccountType.Internal)
  let dealer_btc_account := pd.1
  let s := setDealerAccounts s pd.2
  let tail := fun (resp : PaymentResponse) (s2 : BankEngine) =>
    some (s2,
      [Output.msg (Message.dealer (DealerMsg.bankState (get_bank_state s2))) ServiceIdentity.dealer,
       Output.msg (Message.api (Api.paymentResponse resp)) ServiceIdentity.api])
  if res.is_success then
    match payment_response.fees with
    | none => none
    | some fees_payed_in_btc =>
    match payment_response.amount with
    | none => none
    | some payment_amount =>
    let excess_fees_in_btc :=
      res.amount.value - (payment_amount.value + fees_payed_in_btc.value)
    let excess_fees : Money := ⟨Currency.BTC, excess_fees_in_btc⟩
    if excess_fees_in_btc < 0 then none
    else
    let booked :=
      if 0 < excess_fees_in_btc then
        match make_tx s o.now btc_liabilities_account BANK_UID dealer_btc_account
            DEALER_UID excess_fees with
        | Except.error _ => none
        | Except.ok (s, btc_liabilities_account, dealer_btc_account, _) =>
          let s := insertBankLiabilityAccount s btc_liabilities_account
          let s := insertDealerAccount s dealer_btc_account
          let s := update_account s dealer_btc_account DEALER_UID
          let s := update_account s btc_liabilities_account BANK_UID
          some s
      else some s
    match booked with
    | none => some (s, [])
    | some s =>
    let payment_response := { payment_response with success := true }
    match payment_response.payment_request with
    | none => none
    | some pr =>
    match findInvoice s.invoices pr with
    | none => some (s, [])
    | some invoice =>
    let s := { s with invoices := updateInvoiceRow s.invoices pr { invoice with settled := true } }
    tail payment_response s
  else
    let refund := res.amount
    let rate := res.rate
    match refund.exchange rate with
    | none => none
    | some refund_exchanged =>
    if res.currency ≠ Currency.BTC then
      let pd2 := s.ledger.dealer_accounts.get_default_account Currency.BTC
        (some AccountType.Internal)
      let dealer_btc_account := pd2.1
      let s := setDealerAccounts s pd2.2
      let pf := s.ledger.dealer_accounts.get_default_account res.currency
        (some AccountType.Internal)
      let dealer_fiat_account := pf.1
      let s := setDealerAccounts s pf.2
      match make_tx s o.now btc_liabilities_account BANK_UID dealer_btc_account uid refund with
      | Except.error _ => some (s, [])
      | Except.ok (s, btc_liabilities_account, dealer_btc_account, outbound_txid) =>
      match make_tx s o.now dealer_fiat_account DEALER_UID inbound_account uid
          refund_exchanged with
      | Except.error _ => some (s, [])
      | Except.ok (s, dealer_fiat_account, inbound_account, inbound_txid) =>
      let s := insertBankLiabilityAccount s btc_liabilities_account
      let s := insertDealerAccount s dealer_btc_account
      let s := insertDealerAccount s dealer_fiat_account
      match insert_into_ledger s uid inbound_account.account_id inbound_account with
      | none => none
      | some s =>
      let s := update_account s inbound_account res.uid
      let s := update_account s btc_liabilities_account BANK_UID
      let s := update_account s dealer_btc_account DEALER_UID
      let s := update_account s dealer_fiat_account DEALER_UID
      match make_summary_tx s o.now btc_liabilities_account BANK_UID inbound_account uid
          refund (some rate) none (some outbound_txid) (some inbound_txid) none
          (some "PaymentRefund") with
      | none => none
      | some (Except.error _) => some (s, [])
      | some (Except.ok (s, _)) => tail payment_response s
    else
      match make_tx s o.now btc_liabilities_account BANK_UID inbound_account uid refund with
      | Except.error _ => some (s, [])
      | Except.ok (s, btc_liabilities_account, inbound_account, txid) =>
      let s := insertBankLiabilityAccount s btc_liabilities_account
      match insert_into_ledger s uid inbound_account.account_id inbound_account with
      | none => none
      | some s =>
      let s := update_account s inbound_account res.uid
      let s := update_account s btc_liabilities_account BANK_UID
      match make_summary_tx s o.now btc_liabilities_account BANK_UID inbound_account uid
          refund (some rate) none (some txid) (some txid) none (some "PaymentRefund") with
      | none => none
      | some (Except.error _) => some (s, [])
      | some (Except.ok (s, _)) => tail payment_response s

/-- `BankEngine::process_make_tx` (the `Cli::MakeTx` operator booking):
rejects negative amounts, identical endpoints, insurance-fund bookings whose
other leg is not the bank-liability external account, and currency
mismatches; otherwise books via `make_tx`, persists and writes back. -/
def process_make_tx (o : Oracle) (s : BankEngine) (mt : MakeTx) :
    BankEngine × Option BankError :=
  if mt.amount < 0 then (s, some BankError.FailedTransaction)
  else if mt.outbound_uid = mt.inbound_uid ∧ mt.outbound_account_id = mt.inbound_account_id then
    (s, some BankError.FailedTransaction)
  else
  let is_inbound_insurance_account :=
    mt.inbound_uid = DEALER_UID ∧
      mt.inbound_account_id = s.ledger.insurance_fund_account.account_id
  let is_outbound_insurance_account :=
    mt.outbound_uid = DEALER_UID ∧
      mt.outbound_account_id = s.ledger.insurance_fund_account.account_id
  let pe1 := s.ledger.bank_liabilities.get_default_account Currency.BTC
    (some AccountType.External)
  let s := setBankLiabilities s pe1.2
  let is_inbound_external_account :=
    mt.inbound_uid = BANK_UID ∧ mt.inbound_account_id = pe1.1.account_id
  let pe2 := s.ledger.bank_liabilities.get_default_account Currency.BTC
    (some AccountType.External)
  let s := setBankLiabilities s pe2.2
  let is_outbound_external_account :=
    mt.outbound_uid = BANK_UID ∧ mt.outbound_account_id = pe2.1.account_id
  if (is_inbound_insurance_account ∧ ¬ is_outbound_external_account) ∨
     (is_outbound_insurance_account ∧ ¬ is_inbound_external_account) then
    (s, some BankError.FailedTransaction)
  else
  let resolveOut :
      Except BankError (Account × BankEngine) :=
    if is_outbound_external_account then
      let p := s.ledger.bank_liabilities.get_default_account Currency.BTC
        (some AccountType.External)
      Except.ok (p.1, setBankLiabilities s p.2)
    else if is_outbound_insurance_account then
      Except.ok (s.ledger.insurance_fund_account, s)
    else
      match lookupA s.ledger.user_accounts mt.outbound_uid with
      | none => Except.error BankError.UserAccountNotFound
      | some ua =>
        match lookupA ua.accounts mt.outbound_account_id with
        | none => Except.error BankError.AccountNotFound
        | some a => Except.ok (a, s)
  match resolveOut with
  | Except.error e => (s, some e)
  | Except.ok (outbound_account, s) =>
  let resolveIn :
      Except BankError (Account × BankEngine) :=
    if is_inbound_external_account then
      let p := s.ledger.bank_liabilities.get_default_account Currency.BTC
        (some AccountType.External)
      Except.ok (p.1, setBankLiabilities s p.2)
    else if is_inbound_insurance_account then
      Except.ok (s.ledger.insurance_fund_account, s)
    else
      match lookupA s.ledger.user_accounts mt.inbound_uid with
      | none => Except.error BankError.UserAccountNotFound
      | some ua =>
        match lookupA ua.accounts mt.inbound_account_id with
        | none => Except.error BankError.AccountNotFound
        | some a => Except.ok (a, s)
  match resolveIn with
  | Except.error e => (s, some e)
  | Except.ok (inbound_account, s) =>
  if outbound_account.currency ≠ mt.currency ∨
     outbound_account.currency ≠ inbound_account.currency then
    (s, some BankError.FailedTransaction)
  else
  let amount : Money := ⟨mt.currency, mt.amount⟩
  match make_tx s o.now outbound_account mt.outbound_uid inbound_account mt.inbound_uid
      amount with
  | Except.error e => (s, some e)
  | Except.ok (s, outbound_account, inbound_account, _) =>
  let s := update_account s outbound_account mt.outbound_uid
  let s := update_account s inbound_account mt.inbound_uid
  let s :=
    if is_outbound_external_account then insertBankLiabilityAccount s outbound_account
    else if is_outbound_insurance_account then
      { s with ledger := { s.ledger with insurance_fund_account := outbound_account } }
    else
      match insert_into_ledger s mt.outbound_uid mt.outbound_account_id outbound_account with
      | some s2 => s2
      | none => s
  let s :=
    if is_inbound_external_account then insertBankLiabilityAccount s inbound_account
    else if is_inbound_insurance_account then
      { s with ledger := { s.ledger with insurance_fund_account := inbound_account } }
    else
      match insert_into_ledger s mt.inbound_uid mt.inbound_account_id inbound_account with
      | some s2 => s2
      | none => s
  (s, none)

/-- `Dealer::Health`: refreshes `available_currencies`, clearing them when the
dealer is down or (short-circuit: only checked when the dealer is up) the
insurance fund is depleted. -/
def handleDealerHealth (s : BankEngine) (h : DealerHealth) :
    Option (BankEngine × List Output) :=
  let s := { s with available_currencies := h.available_currencies }
  if h.status = HealthStatus.Down then
    some ({ s with available_currencies := [] }, [])
  else
    let pd := is_insurance_fund_depleted s.ledger
    let s := { s with ledger := pd.2 }
    if pd.1 then some ({ s with available_currencies := [] }, [])
    else some (s, [])

/-- `BankEngine::process_msg`: the dispatcher.  `none` models a handler panic;
unknown/response-only variants fall through to the wildcard arm. -/
def process_msg (o : Oracle) (s : BankEngine) (msg : Message) :
    Option (BankEngine × List Output) :=
  match msg with
  | Message.dealer dm =>
    match dm with
    | DealerMsg.health h => handleDealerHealth s h
    | DealerMsg.bankStateRequest _ =>
      some (s, [Output.msg (Message.dealer (DealerMsg.bankState (get_bank_state s)))
        ServiceIdentity.dealer])
    | DealerMsg.payInvoice p => process_dealer_invoice o s p false
    | DealerMsg.payInsuranceInvoice p => process_dealer_invoice o s p true
    | DealerMsg.createInvoiceRequest req =>
      process_create_invoice_request o s { req with memo := "KolliderSettlement" }
    | DealerMsg.createInsuranceInvoiceRequest req =>
      process_create_invoice_request o s { req with memo := "ExternalDeposit" }
    | DealerMsg.fiatDepositResponse m => handleFiatDepositResponse o s m
    | _ => some (s, [])
  | Message.deposit d => handleDeposit o s d
  | Message.api am =>
    match am with
    | Api.invoiceRequest m => handleInvoiceRequest o s m
    | Api.invoiceResponse m => handleInvoiceResponse o s m
    | Api.paymentRequest m => handlePaymentRequest o s m
    | Api.swapRequest m => handleSwapRequest s m
    | Api.swapResponse m => handleSwapResponse o s m
    | Api.getBalances m => handleGetBalances s m
    | Api.quoteRequest r =>
      some (s, [Output.msg (Message.api (Api.quoteRequest r)) ServiceIdentity.dealer])
    | Api.quoteResponse r =>
      some (s, [Output.msg (Message.api (Api.quoteResponse r)) ServiceIdentity.api])
    | Api.availableCurrenciesRequest r =>
      some (s, [Output.msg (Message.api (Api.availableCurrenciesRequest r)) ServiceIdentity.dealer])
    | Api.availableCurrenciesResponse r =>
      some (s, [Output.msg (Message.api (Api.availableCurrenciesResponse r)) ServiceIdentity.api])
    | Api.createLnurlWithdrawalRequest m => handleCreateLnurlWithdrawalRequest o s m
    | Api.getLnurlWithdrawalRequest m => handleGetLnurlWithdrawalRequest s m
    | Api.payLnurlWithdrawalRequest m => handlePayLnurlWithdrawalRequest s m
    | _ => some (s, [])
  | Message.bank bm =>
    match bm with
    | BankMsg.paymentResult res => handlePaymentResult o s res
  | Message.cli cm =>
    match cm with
    | CliMsg.makeTx mt =>
      let result := process_make_tx o s mt
      let s := result.1
      let str :=
        match result.2 with
        | none => "Successful"
        | some e => e.describe
      let r : MakeTxResult := { tx := mt, result := str }
      some (s, [Output.msg (Message.cli (CliMsg.makeTxResult r)) ServiceIdentity.api])
    | CliMsg.makeTxResult _ => some (s, [])

/-- Run a sequence of messages (each with the oracle of its moment),
accumulating all listener calls and spawned tasks. -/
def processSeq (l : List (Oracle × Message)) (s : BankEngine) :
    Option (BankEngine × List Output) :=
  match l with
  | [] => some (s, [])
  | (o, m) :: t =>
    match process_msg o s m with
    | none => none
    | some (s2, outs) =>
      match processSeq t s2 with
      | none => none
      | some (s3, outs2) => some (s3, outs ++ outs2)

/-! ## The customer non-negativity invariant and basic lemmas -/

/-- Every account of the collection has a non-negative balance. -/
def AccNonneg (ua : UserAccount) : Prop := ∀ p ∈ ua.accounts, 0 ≤ p.2.balance

/-- Customer accounts (users other than the reserved bank and dealer
identities) never go below zero. -/
def InvL (l : List (Nat × UserAccount)) : Prop :=
  ∀ p ∈ l, p.1 ≠ BANK_UID → p.1 ≠ DEALER_UID → AccNonneg p.2

def Inv (s : BankEngine) : Prop := InvL s.ledger.user_accounts

/-- Structural well-formedness: each user collection's `owner` field is its
ledger key (guaranteed by construction in the Rust engine, where a
`UserAccount` is only ever created via `UserAccount::new(uid)` at key `uid`). -/
def OwnersOk (l : List (Nat × UserAccount)) : Prop := ∀ p ∈ l, p.2.owner = p.1

/-- A reachable-shape state: well-formed owners plus the customer
non-negativity invariant. -/
def Good (s : BankEngine) : Prop :=
  OwnersOk s.ledger.user_accounts ∧ InvL s.ledger.user_accounts

instance (ua : UserAccount) : Decidable (AccNonneg ua) := by
  unfold AccNonneg; infer_instance

instance (l : List (Nat × UserAccount)) : Decidable (InvL l) := by
  unfold InvL; infer_instance

instance (s : BankEngine) : Decidable (Inv s) := by
  unfold Inv; infer_instance

instance (l : List (Nat × UserAccount)) : Decidable (OwnersOk l) := by
  unfold OwnersOk; infer_instance

instance (s : BankEngine) : Decidable (Good s) := by
  unfold Good; infer_instance

/-- Whether a message arrives on the CLI listener. -/
def Message.isCli : Message → Bool
  | Message.cli _ => true
  | _ => false

/-! ## Observation helpers over handler results -/

/-- The balance a user's default account of a currency shows in a state. -/
def userBalance (s : BankEngine) (uid : Nat) (c : Currency) : Rat :=
  ((((lookupA s.ledger.user_accounts uid).getD
    (UserAccount.new uid)).get_default_account c none).1).balance

/-- The bank-liability BTC External account a state resolves. -/
def liabBtcAccount (s : BankEngine) : Account :=
  (s.ledger.bank_liabilities.get_default_account Currency.BTC
    (some AccountType.External)).1

/-- The dealer BTC Internal account a state resolves. -/
def dealerBtcAccount (s : BankEngine) : Account :=
  (s.ledger.dealer_accounts.get_default_account Currency.BTC
    (some AccountType.Internal)).1

/-- The error of the single `InvoiceResponse` a handler run emits, if any. -/
def invoiceError (r : Option (BankEngine × List Output)) :
    Option InvoiceResponseError :=
  match r with
  | some (_, [Output.msg (Message.api (Api.invoiceResponse resp)) _]) => resp.error
  | _ => none

/-! ## Concrete fixtures (used by the scenario theorems below) -/

def mkAcct (id : Nat) (c : Currency) (b : Rat) : Account :=
  ⟨id, c, b, AccountType.Internal, AccountClass.Cash⟩

def testOracle : Oracle :=
  { now := 1700000, decode := fun _ => none, probe := none,
    createInvoice := none, payInvoice := none }

def baseState : BankEngine :=
  { ledger := Ledger.new BANK_UID DEALER_UID
    tx_seq := 0, txs := [], summary_txs := [], invoices := [], users := []
    lnurl_withdrawal_requests := [], updates := []
    available_currencies := [Currency.BTC]
    withdrawal_only := false
    deposit_limits := [(Currency.BTC, 1), (Currency.USD, 10000)]
    ln_network_fee_margin := 1/200
    withdrawal_rate_limiter := [], deposit_rate_limiter := []
    withdrawal_limiter_settings := (10, 1000), deposit_limiter_settings := (10, 1000) }

def u1 : UserAccount := ⟨1, [(11, mkAcct 11 Currency.BTC (1/1000))]⟩
def u7 : UserAccount := ⟨7, [(711, mkAcct 711 Currency.BTC 0)]⟩
def u8 : UserAccount := ⟨8, [(811, mkAcct 811 Currency.BTC 0)]⟩
def richDealer : UserAccount := ⟨DEALER_UID, [(5, mkAcct 5 Currency.BTC 1)]⟩

def c1_s0 : BankEngine :=
  { baseState with ledger := { baseState.ledger with user_accounts := [(7, u7), (8, u8)] } }
def c1_mt : MakeTx := ⟨7, 711, 8, 811, 5, Currency.BTC⟩
def c1_msg : Message := Message.cli (CliMsg.makeTx c1_mt)
def c1_s1 : BankEngine := ((process_msg testOracle c1_s0 c1_msg).getD (c1_s0, [])).1
def c1w_l : List (Oracle × Message) :=
  [(testOracle, Message.api (Api.getBalances ⟨1, 7⟩)),
   (testOracle, Message.api (Api.getBalances ⟨2, 9⟩))]
def c1w_s2 : BankEngine := ((processSeq c1w_l c1_s0).getD (c1_s0, [])).1
def c1w_outs : List Output := ((processSeq c1w_l c1_s0).getD (c1_s0, [])).2

/-- Reduced-form rational constants (kept in constructor form so that kernel
evaluation of comparisons does not have to normalise). -/
def qHalf : Rat := ⟨1, 2, by norm_num, by norm_num⟩
def qQuarter : Rat := ⟨1, 4, by norm_num, by norm_num⟩

def c2_out : Account := mkAcct 11 Currency.BTC qHalf
def c2_in : Account := mkAcct 21 Currency.BTC 0
def c2_inUsd : Account := mkAcct 31 Currency.USD 5
def c2_res : BankEngine × Account × Account × String :=
  (make_tx baseState 7 c2_out 1 c2_in 2 ⟨Currency.BTC, qQuarter⟩).toOption.getD
    (baseState, c2_out, c2_in, "")

def c3_inv : Invoice :=
  { payment_request := "pr0", value := 0, value_msat := 0, settled := false,
    uid := DEALER_UID, account_id := 0, owner := none, incoming := true,
    currency := some Currency.BTC, target_account_currency := none,
    reference := some "KolliderSettlement" }
def c3_s0 : BankEngine := { baseState with invoices := [c3_inv] }
def c3_dep : Deposit := ⟨"pr0"⟩
def c3_s1 : BankEngine := ((handle_dealer_deposit testOracle c3_s0 c3_dep).getD (c3_s0, [])).1

def c4_led1 : Ledger :=
  { Ledger.new BANK_UID DEALER_UID with insurance_fund_account :=
      ⟨insuranceFundAccountId, Currency.BTC, 1, AccountType.Internal, AccountClass.Cash⟩ }
def c4_led2 : Ledger := { Ledger.new BANK_UID DEALER_UID with dealer_accounts := richDealer }

def c8_s : BankEngine :=
  { baseState with ledger :=
      { baseState.ledger with user_accounts := [(1, u1)], dealer_accounts := richDealer } }
def c8_msg1 : Message := Message.api (Api.paymentRequest
  { req_id := 1, uid := 1, amount := none, currency := Currency.BTC, rate := none,
    payment_request := none, receipient := some "bob", fees := none })
def c8_msg2 : Message := Message.api (Api.paymentRequest
  { req_id := 2, uid := 1, amount := some ⟨Currency.BTC, 1⟩, currency := Currency.BTC,
    rate := none, payment_request := none, receipient := none, fees := none })
def c8_msg3 : Message := Message.api (Api.invoiceRequest
  { req_id := 3, uid := 1, amount := ⟨Currency.EUR, 1⟩, currency := Currency.EUR,
    account_id := none, target_account_currency := none })
def c8_msg4 : Message := Message.api (Api.paymentRequest
  { req_id := 4, uid := 99, amount := none, currency := Currency.BTC, rate := none,
    payment_request := some "x", receipient := none, fees := none })
def c8_s4 : BankEngine := ((process_msg testOracle c8_s c8_msg4).getD (c8_s, [])).1

def c9_m : GetBalances := ⟨9, 7⟩
def c9_s1 : BankEngine := ((handleGetBalances baseState c9_m).getD (baseState, [])).1
def c9k_s : BankEngine :=
  { baseState with ledger := { baseState.ledger with user_accounts := [(1, u1)] } }
def c9k_m : GetBalances := ⟨10, 1⟩

def c10_t : PaymentRequest :=
  { req_id := 5, uid := 1, amount := none, currency := Currency.BTC,
    rate := none, payment_request := some "", receipient := none, fees := none }
def c10_s : BankEngine :=
  let led := { baseState.ledger with user_accounts := [(1, u1)] }
  { baseState with ledger := led, lnurl_withdrawal_requests := [(5, (1700000, c10_t))] }
def c10_m : PayLnurlWithdrawalRequest := ⟨5, "lnbc1000"⟩
def c10_g : GetLnurlWithdrawalRequest := ⟨5⟩
def c10_g_s3 : BankEngine :=
  ((handleGetLnurlWithdrawalRequest c10_s c10_g).getD (c10_s, [])).1
def c10_g_outs : List Output :=
  ((handleGetLnurlWithdrawalRequest c10_s c10_g).getD (c10_s, [])).2

def c4_m : InvoiceRequest :=
  { req_id := 40, uid := 1, amount := ⟨Currency.BTC, 1⟩, currency := Currency.BTC,
    account_id := none, target_account_currency := none }
def c4_r : SwapRequest :=
  { req_id := 41, uid := 1, amount := ⟨Currency.USD, 100⟩,
    from_cur := Currency.USD, to_cur := Currency.BTC }

def c7_m : InvoiceRequest :=
  { req_id := 70, uid := 1, amount := ⟨Currency.BTC, 1⟩, currency := Currency.BTC,
    account_id := none, target_account_currency := none }

def c6_resp : PaymentResponse :=
  { amount := some ⟨Currency.BTC, 2⟩, payment_hash := "h", req_id := 6, uid := 1,
    success := false, payment_request := some "pr6", currency := Currency.BTC,
    fees := some ⟨Currency.BTC, 1⟩, error := none, rate := none, preimage := none }
def c6_res : PaymentResult :=
  { uid := 1, currency := Currency.BTC, rate := ⟨Currency.BTC, Currency.BTC, 1⟩,
    is_success := true, amount := ⟨Currency.BTC, 4⟩, payment_response := c6_resp,
    error := none }
def c6_inv : Invoice :=
  { payment_request := "pr6", value := 400000000, value_msat := 400000000000,
    settled := false, uid := 1, account_id := 11, owner := none, incoming := false,
    currency := some Currency.BTC, target_account_currency := none, reference := none }
def c6_s : BankEngine :=
  let led := { baseState.ledger with user_accounts := [(1, u1)] }
  { baseState with ledger := led, invoices := [c6_inv] }
def c6_s2 : BankEngine :=
  ((handlePaymentResult testOracle c6_s c6_res).getD (c6_s, [])).1
def c6_outs : List Output :=
  ((handlePaymentResult testOracle c6_s c6_res).getD (c6_s, [])).2

def c5oracle : Oracle :=
  { now := 1700000,
    decode := fun p => if p == "lnbc5000" then some ⟨some 5000000, "h", 3600⟩ else none,
    probe := some 25, createInvoice := none, payInvoice := none }
def c5req : PaymentRequest :=
  { req_id := 2, uid := 1, amount := none, currency := Currency.BTC, rate := none,
    payment_request := some "lnbc5000", receipient := none, fees := none }
def c5state (b : Rat) : BankEngine :=
  let led := { baseState.ledger with
    user_accounts := [(1, ⟨1, [(11, mkAcct 11 Currency.BTC b)]⟩)] }
  { baseState with ledger := led }
def c5info : SpawnInfo :=
  { uid := 1, req_id := 2, currency := Currency.BTC,
    rate := ⟨Currency.BTC, Currency.BTC, 1⟩, payment_request := "lnbc5000",
    amount_in_btc := ⟨Currency.BTC, 1/20000⟩, reserved := ⟨Currency.BTC, 201/4000000⟩,
    estimated_fee_in_sats := 25, amount_in_sats := 5000 }

def c5w_u : UserAccount := ⟨1, [(11, mkAcct 11 Currency.BTC 1)]⟩
def c5w_run : Option (BankEngine × List Output) :=
  handlePaymentRequest c5oracle (c5state 1) c5req
def c5w_s1 : BankEngine := (c5w_run.getD (c5state 1, [])).1
def c5w_run2 : Option (BankEngine × List Output) :=
  handlePaymentResult c5oracle c5w_s1 (spawnFailureResult c5info "err")
def c5w_s2 : BankEngine := (c5w_run2.getD (c5w_s1, [])).1
def c5w_outs2 : List Output := (c5w_run2.getD (c5w_s1, [])).2

theorem lookupA_mem {α : Type} {l : List (Nat × α)} {k : Nat} {v : α}
    (h : lookupA l k = some v) : (k, v) ∈ l := by
  induction l with
  | nil => simp [lookupA] at h
  | cons hd t ih =>
    obtain ⟨k2, w⟩ := hd
    by_cases hk : k2 = k
    · subst hk
      simp [lookupA] at h
      subst h
      exact List.mem_cons_self _ _
    · simp [lookupA, hk] at h
      exact List.mem_cons_of_mem _ (ih h)

theorem mem_insertA {α : Type} {l : List (Nat × α)} {k : Nat} {v : α} {q : Nat × α}
    (h : q ∈ insertA l k v) : q = (k, v) ∨ q ∈ l := by
  induction l with
  | nil => simp [insertA] at h; simp [h]
  | cons hd t ih =>
    obtain ⟨k2, w⟩ := hd
    by_cases hk : k2 = k
    · subst hk
      simp [insertA] at h
      rcases h with h | h
      · exact Or.inl h
      · exact Or.inr (List.mem_cons_of_mem _ h)
    · simp [insertA, hk] at h
      rcases h with h | h
      · exact Or.inr (by simp [h])
      · rcases ih h with h2 | h2
        · exact Or.inl h2
        · exact Or.inr (List.mem_cons_of_mem _ h2)

theorem lookupA_insertA_self {α : Type} (l : List (Nat × α)) (k : Nat) (v : α) :
    lookupA (insertA l k v) k = some v := by
  induction l with
  | nil => simp [insertA, lookupA]
  | cons hd t ih =>
    obtain ⟨k2, w⟩ := hd
    by_cases hk : k2 = k
    · subst hk; simp [insertA, lookupA]
    · simp [insertA, lookupA, hk, ih]

theorem AccNonneg_new (uid : Nat) : AccNonneg (UserAccount.new uid) := by
  intro p hp; simp [UserAccount.new] at hp

theorem AccNonneg_insert {ua : UserAccount} {w aid : Nat} {a : Account}
    (h : AccNonneg ua) (ha : 0 ≤ a.balance) :
    AccNonneg ⟨w, insertA ua.accounts aid a⟩ := by
  intro p hp
  rcases mem_insertA hp with h2 | h2
  · subst h2; exact ha
  · exact h p h2

theorem InvL_insert {l : List (Nat × UserAccount)} {k : Nat} {ua : UserAccount}
    (h : InvL l) (hu : k ≠ BANK_UID → k ≠ DEALER_UID → AccNonneg ua) :
    InvL (insertA l k ua) := by
  intro p hp h1 h2
  rcases mem_insertA hp with h3 | h3
  · subst h3; exact hu h1 h2
  · exact h p h3 h1 h2

theorem InvL_lookup {l : List (Nat × UserAccount)} {uid : Nat} {ua : UserAccount}
    (h : InvL l) (hl : lookupA l uid = some ua)
    (h1 : uid ≠ BANK_UID) (h2 : uid ≠ DEALER_UID) : AccNonneg ua :=
  h (uid, ua) (lookupA_mem hl) h1 h2

/-- The collection returned by a `lookupA … |>.getD (UserAccount.new uid)`
read is non-negative for customer uids. -/
theorem AccNonneg_lookupD {l : List (Nat × UserAccount)} {uid : Nat}
    (h : InvL l) (h1 : uid ≠ BANK_UID) (h2 : uid ≠ DEALER_UID) :
    AccNonneg ((lookupA l uid).getD (UserAccount.new uid)) := by
  cases hl : lookupA l uid with
  | none => simpa using AccNonneg_new uid
  | some ua => simpa using InvL_lookup h hl h1 h2

/-- `get_default_account` preserves collection non-negativity, returns an
account of the requested currency, requested type and zero-or-existing
balance. -/
theorem get_default_account_spec (ua : UserAccount) (c : Currency)
    (t? : Option AccountType) (h : AccNonneg ua) :
    AccNonneg (ua.get_default_account c t?).2 ∧
      0 ≤ (ua.get_default_account c t?).1.balance ∧
      (ua.get_default_account c t?).1.currency = c := by
  unfold UserAccount.get_default_account
  dsimp only
  split
  next p hf =>
    have hmem := List.mem_of_find?_eq_some hf
    have hpred := List.find?_some hf
    simp only [Bool.and_eq_true, decide_eq_true_eq] at hpred
    exact ⟨h, h p hmem, hpred.1⟩
  next hf =>
    refine ⟨?_, le_rfl, rfl⟩
    exact AccNonneg_insert (w := ua.owner) h (a :=
      ⟨defaultAccountId ua.owner c (t?.getD AccountType.Internal), c, 0,
        t?.getD AccountType.Internal, AccountClass.Cash⟩) le_rfl

theorem OwnersOk_insert {l : List (Nat × UserAccount)} {k : Nat} {ua : UserAccount}
    (h : OwnersOk l) (ho : ua.owner = k) : OwnersOk (insertA l k ua) := by
  intro p hp
  rcases mem_insertA hp with h2 | h2
  · subst h2; exact ho
  · exact h p h2

theorem OwnersOk_lookup {l : List (Nat × UserAccount)} {k : Nat} {ua : UserAccount}
    (h : OwnersOk l) (hl : lookupA l k = some ua) : ua.owner = k :=
  h (k, ua) (lookupA_mem hl)

theorem owner_lookupD {l : List (Nat × UserAccount)} {uid : Nat} (h : OwnersOk l) :
    ((lookupA l uid).getD (UserAccount.new uid)).owner = uid := by
  cases hl : lookupA l uid with
  | none => rfl
  | some ua => simpa using OwnersOk_lookup h hl

theorem get_default_account_owner (ua : UserAccount) (c : Currency)
    (t? : Option AccountType) : (ua.get_default_account c t?).2.owner = ua.owner := by
  unfold UserAccount.get_default_account
  dsimp only
  split <;> rfl

theorem Good_setUser {s : BankEngine} {uid : Nat} {ua : UserAccount}
    (h : Good s) (ho : ua.owner = uid)
    (hu : uid ≠ BANK_UID → uid ≠ DEALER_UID → AccNonneg ua) :
    Good (setUser s uid ua) :=
  ⟨OwnersOk_insert h.1 ho, InvL_insert h.2 hu⟩

theorem Good_insert_into_ledger {s s2 : BankEngine} {uid aid : Nat} {a : Account}
    (h : Good s) (ha : uid ≠ BANK_UID → uid ≠ DEALER_UID → 0 ≤ a.balance)
    (he : insert_into_ledger s uid aid a = some s2) : Good s2 := by
  unfold insert_into_ledger at he
  cases hl : lookupA s.ledger.user_accounts uid with
  | none => rw [hl] at he; simp at he
  | some ua =>
    rw [hl] at he
    simp only [Option.some.injEq] at he
    subst he
    refine ⟨OwnersOk_insert h.1 (by simpa using OwnersOk_lookup h.1 hl), InvL_insert h.2 (fun h1 h2 => ?_)⟩
    exact AccNonneg_insert (InvL_lookup h.2 hl h1 h2) (ha h1 h2)

/-- `make_tx` success: account fields, balances, and the engine state are
related as stated. -/
theorem make_tx_ok {s s2 : BankEngine} {now : Nat} {oa ia oa2 ia2 : Account}
    {ouid iuid : Nat} {amt : Money} {txid : String}
    (h : make_tx s now oa ouid ia iuid amt = Except.ok (s2, oa2, ia2, txid)) :
    0 < amt.value ∧ oa.currency = ia.currency ∧
      oa2 = { oa with balance := oa.balance - amt.value } ∧
      ia2 = { ia with balance := ia.balance + amt.value } ∧
      s2.ledger = s.ledger ∧ s2.updates = s.updates ∧
      s2.invoices = s.invoices ∧ s2.summary_txs = s.summary_txs ∧
      s2.txs = s.txs ++ [Tx.mk (toString now ++ "-" ++ toString (s.tx_seq + 1)) ouid iuid
        now amt.value amt.value oa.account_id ia.account_id oa.currency ia.currency 1
        (if oa.account_type ≠ ia.account_type then "External" else "Internal") 0] ∧
      s2.tx_seq = s.tx_seq + 1 ∧
      s2.lnurl_withdrawal_requests = s.lnurl_withdrawal_requests := by
  unfold make_tx at h
  by_cases h1 : amt.value ≤ 0
  · simp [h1] at h
  · by_cases h2 : oa.currency = ia.currency
    · simp only [h1, if_false, h2, ne_eq, not_true_eq_false, if_neg, ite_false,
        not_not, if_true, not_false_eq_true, ite_true, Except.ok.injEq, Prod.mk.injEq] at h
      refine ⟨by linarith [not_le.mp h1], h2, ?_⟩
      obtain ⟨hs, ho, hi, ht⟩ := h
      subst hs ho hi ht
      simp [h2]
    · simp [h1, h2] at h

/-- `make_tx` failure leaves everything untouched (the result is an error). -/
theorem make_tx_error {s : BankEngine} {now : Nat} {oa ia : Account}
    {ouid iuid : Nat} {amt : Money} {e : BankError}
    (h : make_tx s now oa ouid ia iuid amt = Except.error e) :
    amt.value ≤ 0 ∨ oa.currency ≠ ia.currency := by
  unfold make_tx at h
  by_cases h1 : amt.value ≤ 0
  · exact Or.inl h1
  · by_cases h2 : oa.currency = ia.currency
    · simp [h1, h2] at h
    · exact Or.inr h2

/-- `make_summary_tx` success only appends a summary row. -/
theorem make_summary_tx_ok {s s2 : BankEngine} {now : Nat} {oa ia : Account}
    {ouid iuid : Nat} {amt : Money} {rate : Option Rate} {fees : Option Money}
    {ot it ft : Option String} {r : Option String} {txid : String}
    (h : make_summary_tx s now oa ouid ia iuid amt rate fees ot it ft r =
      some (Except.ok (s2, txid))) :
    s2.ledger = s.ledger ∧ s2.updates = s.updates ∧ s2.txs = s.txs ∧
      s2.invoices = s.invoices ∧ s2.tx_seq = s.tx_seq ∧
      s2.lnurl_withdrawal_requests = s.lnurl_withdrawal_requests := by
  unfold make_summary_tx at h
  by_cases h1 : amt.value ≤ 0
  · simp [h1] at h
  · simp only [h1, ite_false] at h
    cases hx : amt.exchange ((rate.getD ⟨oa.currency, ia.currency, 1⟩)) with
    | none => rw [hx] at h; simp at h
    | some v =>
      rw [hx] at h
      simp only [Option.some.injEq, Except.ok.injEq, Prod.mk.injEq] at h
      obtain ⟨hs, _⟩ := h
      subst hs
      simp

/-! ## Invariant preservation per handler -/

theorem Good_of_ua_eq {s s2 : BankEngine}
    (h : s2.ledger.user_accounts = s.ledger.user_accounts) (hi : Good s) : Good s2 := by
  unfold Good OwnersOk InvL
  rw [h]
  exact hi

theorem ua_update_account (s : BankEngine) (a : Account) (uid : Nat) :
    (update_account s a uid).ledger.user_accounts = s.ledger.user_accounts := rfl

theorem ua_insertDealerAccount (s : BankEngine) (a : Account) :
    (insertDealerAccount s a).ledger.user_accounts = s.ledger.user_accounts := rfl

theorem ua_insertBankLiabilityAccount (s : BankEngine) (a : Account) :
    (insertBankLiabilityAccount s a).ledger.user_accounts = s.ledger.user_accounts := rfl

theorem ua_setDealerAccounts (s : BankEngine) (ua : UserAccount) :
    (setDealerAccounts s ua).ledger.user_accounts = s.ledger.user_accounts := rfl

theorem ua_setBankLiabilities (s : BankEngine) (ua : UserAccount) :
    (setBankLiabilities s ua).ledger.user_accounts = s.ledger.user_accounts := rfl

theorem make_tx_user_accounts {s s2 : BankEngine} {now : Nat} {oa ia oa2 ia2 : Account}
    {ouid iuid : Nat} {amt : Money} {txid : String}
    (h : make_tx s now oa ouid ia iuid amt = Except.ok (s2, oa2, ia2, txid)) :
    s2.ledger.user_accounts = s.ledger.user_accounts := by
  rw [(make_tx_ok h).2.2.2.2.1]

theorem make_summary_tx_user_accounts {s s2 : BankEngine} {now : Nat} {oa ia : Account}
    {ouid iuid : Nat} {amt : Money} {rate : Option Rate} {fees : Option Money}
    {ot it ft : Option String} {r : Option String} {txid : String}
    (h : make_summary_tx s now oa ouid ia iuid amt rate fees ot it ft r =
      some (Except.ok (s2, txid))) :
    s2.ledger.user_accounts = s.ledger.user_accounts := by
  rw [(make_summary_tx_ok h).1]

theorem Good_handleDealerHealth {s s2 : BankEngine} {h : DealerHealth} {outs : List Output}
    (hi : Good s) (he : handleDealerHealth s h = some (s2, outs)) : Good s2 := by
  unfold handleDealerHealth at he
  dsimp only at he
  split at he
  · simp only [Option.some.injEq, Prod.mk.injEq] at he
    exact he.1 ▸ hi
  · split at he <;>
    · simp only [Option.some.injEq, Prod.mk.injEq] at he
      exact he.1 ▸ hi

theorem Good_handleSwapRequest {s s2 : BankEngine} {m : SwapRequest} {outs : List Output}
    (hi : Good s) (he : handleSwapRequest s m = some (s2, outs)) : Good s2 := by
  unfold handleSwapRequest at he
  dsimp only at he
  split at he <;>
  · simp only [Option.some.injEq, Prod.mk.injEq] at he
    exact he.1 ▸ hi

theorem Good_handleGetBalances {s s2 : BankEngine} {m : GetBalances} {outs : List Output}
    (hi : Good s) (he : handleGetBalances s m = some (s2, outs)) : Good s2 := by
  unfold handleGetBalances at he
  dsimp only at he
  simp only [Option.some.injEq, Prod.mk.injEq] at he
  refine he.1 ▸ Good_setUser hi (owner_lookupD hi.1) (fun h1 h2 => ?_)
  exact AccNonneg_lookupD hi.2 h1 h2

theorem Good_handleCreateLnurlWithdrawalRequest {o : Oracle} {s s2 : BankEngine}
    {m : CreateLnurlWithdrawalRequest} {outs : List Output}
    (hi : Good s) (he : handleCreateLnurlWithdrawalRequest o s m = some (s2, outs)) :
    Good s2 := by
  unfold handleCreateLnurlWithdrawalRequest at he
  dsimp only at he
  split at he
  · simp only [Option.some.injEq, Prod.mk.injEq] at he
    exact he.1 ▸ hi
  · split at he
    · simp only [Option.some.injEq, Prod.mk.injEq] at he
      exact he.1 ▸ hi
    next ua hua =>
      split at he
      · simp only [Option.some.injEq, Prod.mk.injEq] at he
        refine he.1 ▸ Good_setUser hi
          ((get_default_account_owner ua m.currency none).trans (OwnersOk_lookup hi.1 hua))
          (fun h1 h2 => ?_)
        exact (get_default_account_spec ua m.currency none (InvL_lookup hi.2 hua h1 h2)).1
      · split at he <;>
        · simp only [Option.some.injEq, Prod.mk.injEq] at he
          refine he.1 ▸ Good_setUser hi
            ((get_default_account_owner ua m.currency none).trans (OwnersOk_lookup hi.1 hua))
            (fun h1 h2 => ?_)
          exact (get_default_account_spec ua m.currency none (InvL_lookup hi.2 hua h1 h2)).1

theorem Good_handleGetLnurlWithdrawalRequest {s s2 : BankEngine}
    {m : GetLnurlWithdrawalRequest} {outs : List Output}
    (hi : Good s) (he : handleGetLnurlWithdrawalRequest s m = some (s2, outs)) :
    Good s2 := by
  unfold handleGetLnurlWithdrawalRequest at he
  dsimp only at he
  repeat' split at he
  all_goals first
  | (simp only [Option.some.injEq, Prod.mk.injEq] at he; exact he.1 ▸ hi)
  | exact absurd he (by simp)

theorem Good_handlePayLnurlWithdrawalRequest {s s2 : BankEngine}
    {m : PayLnurlWithdrawalRequest} {outs : List Output}
    (hi : Good s) (he : handlePayLnurlWithdrawalRequest s m = some (s2, outs)) :
    Good s2 := by
  unfold handlePayLnurlWithdrawalRequest at he
  dsimp only at he
  split at he <;>
  · simp only [Option.some.injEq, Prod.mk.injEq] at he
    exact he.1 ▸ hi

theorem Good_process_create_invoice_request {o : Oracle} {s s2 : BankEngine}
    {req : CreateInvoiceRequest} {outs : List Output}
    (hi : Good s) (he : process_create_invoice_request o s req = some (s2, outs)) :
    Good s2 := by
  unfold process_create_invoice_request at he
  dsimp only at he
  split at he <;>
  · simp only [Option.some.injEq, Prod.mk.injEq] at he
    exact he.1 ▸ hi

theorem Good_process_dealer_invoice {o : Oracle} {s s2 : BankEngine}
    {p : PayInvoice} {b : Bool} {outs : List Output}
    (hi : Good s) (he : process_dealer_invoice o s p b = some (s2, outs)) :
    Good s2 := by
  unfold process_dealer_invoice at he
  dsimp only at he
  repeat' split at he
  all_goals first
  | exact Option.noConfusion he
  | (simp only [Option.some.injEq, Prod.mk.injEq] at he
     obtain ⟨h1, h2⟩ := he
     subst h1
     first
     | exact hi
     | (refine Good_of_ua_eq ?_ hi
        simp only [ua_update_account, ua_insertDealerAccount, ua_insertBankLiabilityAccount,
          ua_setDealerAccounts, ua_setBankLiabilities]
        first
        | rfl
        | (rw [make_tx_user_accounts (by assumption)]
           first
           | rfl
           | (cases b <;> rfl))))

theorem Good_handle_dealer_deposit {o : Oracle} {s s2 : BankEngine}
    {d : Deposit} {outs : List Output}
    (hi : Good s) (he : handle_dealer_deposit o s d = some (s2, outs)) :
    Good s2 := by
  unfold handle_dealer_deposit at he
  dsimp only at he
  repeat' split at he
  all_goals first
  | exact Option.noConfusion he
  | (simp only [Option.some.injEq, Prod.mk.injEq] at he
     obtain ⟨h1, h2⟩ := he
     subst h1
     first
     | exact hi
     | (refine Good_of_ua_eq ?_ hi
        simp only [ua_update_account, ua_insertDealerAccount, ua_insertBankLiabilityAccount,
          ua_setDealerAccounts, ua_setBankLiabilities]
        first
        | rfl
        | (rw [make_tx_user_accounts (by assumption)]
           rfl)))

theorem Good_handleDeposit {o : Oracle} {s s2 : BankEngine} {d : Deposit} {outs : List Output}
    (hi : Good s) (he : handleDeposit o s d = some (s2, outs)) : Good s2 := by
  unfold handleDeposit at he
  dsimp only at he
  split at he
  next hfind =>
    simp only [Option.some.injEq, Prod.mk.injEq] at he
    obtain ⟨h1, _⟩ := he; subst h1; exact hi
  next invoice hfind =>
    split at he
    next hdealer => exact Good_handle_dealer_deposit hi he
    next hdealer =>
      split at he
      next hfiat =>
        simp only [Option.some.injEq, Prod.mk.injEq] at he
        obtain ⟨h1, _⟩ := he; subst h1; exact hi
      next hfiat =>
        have hGood1 : Good (setUser s invoice.uid
            (((lookupA s.ledger.user_accounts invoice.uid).getD
                (UserAccount.new invoice.uid)).get_default_account
              (invoice.currency.getD Currency.BTC) none).2) := by
          refine Good_setUser hi
            ((get_default_account_owner _ _ none).trans (owner_lookupD hi.1)) (fun h1 h2 => ?_)
          exact (get_default_account_spec _ _ none (AccNonneg_lookupD hi.2 h1 h2)).1
        split at he
        next herr =>
          simp only [Option.some.injEq, Prod.mk.injEq] at he
          obtain ⟨h1, _⟩ := he; subst h1
          exact hGood1
        next s3 la2 ia2 txid hmk =>
          have hGood3 : Good s3 :=
            Good_of_ua_eq (by rw [make_tx_user_accounts hmk]; rfl) hGood1
          have hmkf := make_tx_ok hmk
          have howner : ((lookupA s.ledger.user_accounts invoice.uid).getD
              (UserAccount.new invoice.uid)).owner = invoice.uid := owner_lookupD hi.1
          have hbal : invoice.uid ≠ BANK_UID → invoice.uid ≠ DEALER_UID →
              0 ≤ ia2.balance := by
            intro h1 h2
            rw [hmkf.2.2.2.1]
            have h0 : 0 ≤ (((lookupA s.ledger.user_accounts invoice.uid).getD
                (UserAccount.new invoice.uid)).get_default_account
                  (invoice.currency.getD Currency.BTC) none).1.balance :=
              (get_default_account_spec _ _ none (AccNonneg_lookupD hi.2 h1 h2)).2.1
            have h3 := hmkf.1
            dsimp only
            linarith
          rw [howner] at he
          split at he
          next hins => exact Option.noConfusion he
          next s4 hins =>
            have hGood4 : Good s4 := Good_insert_into_ledger hGood3 hbal hins
            split at he
            next hsum => exact Option.noConfusion he
            next e hsum =>
              simp only [Option.some.injEq, Prod.mk.injEq] at he
              obtain ⟨h1, _⟩ := he; subst h1
              exact Good_of_ua_eq rfl hGood4
            next s5 txid2 hsum =>
              simp only [Option.some.injEq, Prod.mk.injEq] at he
              obtain ⟨h1, _⟩ := he; subst h1
              refine Good_of_ua_eq ?_ hGood4
              rw [make_summary_tx_user_accounts hsum]
              rfl

theorem Good_handleFiatDepositResponse {o : Oracle} {s s2 : BankEngine}
    {m : FiatDepositResponse} {outs : List Output}
    (hi : Good s) (he : handleFiatDepositResponse o s m = some (s2, outs)) : Good s2 := by
  unfold handleFiatDepositResponse at he
  dsimp only at he
  split at he
  · simp only [Option.some.injEq, Prod.mk.injEq] at he
    obtain ⟨h1, _⟩ := he; subst h1; exact hi
  · split at he
    next hrate =>
      simp only [Option.some.injEq, Prod.mk.injEq] at he
      obtain ⟨h1, _⟩ := he; subst h1; exact hi
    next rate hrate =>
      have hGood1 : Good (setUser s m.uid
          (((lookupA s.ledger.user_accounts m.uid).getD
              (UserAccount.new m.uid)).get_default_account m.currency none).2) := by
        refine Good_setUser hi
          ((get_default_account_owner _ _ none).trans (owner_lookupD hi.1)) (fun h1 h2 => ?_)
        exact (get_default_account_spec _ _ none (AccNonneg_lookupD hi.2 h1 h2)).1
      have howner : ((lookupA s.ledger.user_accounts m.uid).getD
          (UserAccount.new m.uid)).owner = m.uid := owner_lookupD hi.1
      rw [howner] at he
      split at he
      next hex => exact Option.noConfusion he
      next fiat_value hex =>
        split at he
        next herr =>
          simp only [Option.some.injEq, Prod.mk.injEq] at he
          obtain ⟨h1, _⟩ := he; subst h1
          exact Good_of_ua_eq rfl hGood1
        next s3 la2 db2 txid1 hmk1 =>
          have hGood3 : Good s3 :=
            Good_of_ua_eq (by rw [make_tx_user_accounts hmk1] <;> rfl) hGood1
          split at he
          next herr =>
            simp only [Option.some.injEq, Prod.mk.injEq] at he
            obtain ⟨h1, _⟩ := he; subst h1
            exact Good_of_ua_eq rfl hGood3
          next s4 df2 ia2 txid2 hmk2 =>
            have hGood4 : Good s4 :=
              Good_of_ua_eq (by rw [make_tx_user_accounts hmk2] <;> rfl) hGood3
            have hmkf2 := make_tx_ok hmk2
            have hbal : m.uid ≠ BANK_UID → m.uid ≠ DEALER_UID → 0 ≤ ia2.balance := by
              intro h1 h2
              rw [hmkf2.2.2.2.1]
              have h0 : 0 ≤ (((lookupA s.ledger.user_accounts m.uid).getD
                  (UserAccount.new m.uid)).get_default_account m.currency none).1.balance :=
                (get_default_account_spec _ _ none (AccNonneg_lookupD hi.2 h1 h2)).2.1
              have h3 := hmkf2.1
              dsimp only
              linarith
            split at he
            next hins => exact Option.noConfusion he
            next s5 hins =>
              have hGood5 : Good s5 := Good_insert_into_ledger hGood4 hbal hins
              split at he
              next hsum => exact Option.noConfusion he
              next e hsum =>
                simp only [Option.some.injEq, Prod.mk.injEq] at he
                obtain ⟨h1, _⟩ := he; subst h1
                exact Good_of_ua_eq rfl hGood5
              next s6 txid3 hsum =>
                simp only [Option.some.injEq, Prod.mk.injEq] at he
                obtain ⟨h1, _⟩ := he; subst h1
                refine Good_of_ua_eq ?_ hGood5
                rw [make_summary_tx_user_accounts hsum]
                rfl

theorem Good_make_internal_tx {o : Oracle} {s s2 : BankEngine}
    {pr : PaymentRequest} {outs : List Output}
    (hi : Good s) (he : make_internal_tx o s pr = some (s2, outs)) : Good s2 := by
  unfold make_internal_tx at he
  dsimp only at he
  split at he
  next => exact Option.noConfusion he
  next username hrec =>
  split at he
  next => exact Option.noConfusion he
  next amount hamt =>
  split at he
  next hname =>
    simp only [Option.some.injEq, Prod.mk.injEq] at he
    obtain ⟨h1, _⟩ := he; subst h1; exact hi
  next inbound_uid hname =>
  split at he
  next hself =>
    simp only [Option.some.injEq, Prod.mk.injEq] at he
    obtain ⟨h1, _⟩ := he; subst h1; exact hi
  next hself =>
  split at he
  next hout =>
    simp only [Option.some.injEq, Prod.mk.injEq] at he
    obtain ⟨h1, _⟩ := he; subst h1; exact hi
  next out_ua hout =>
  have hGoodA : Good (setUser s pr.uid (out_ua.get_default_account pr.currency none).2) := by
    refine Good_setUser hi
      ((get_default_account_owner _ _ none).trans (OwnersOk_lookup hi.1 hout))
      (fun h1 h2 => ?_)
    exact (get_default_account_spec _ _ none (InvL_lookup hi.2 hout h1 h2)).1
  set sA := setUser s pr.uid (out_ua.get_default_account pr.currency none).2 with hsA
  have hGoodB : Good (setUser sA inbound_uid
      (((lookupA sA.ledger.user_accounts inbound_uid).getD
          (UserAccount.new inbound_uid)).get_default_account pr.currency none).2) := by
    refine Good_setUser hGoodA
      ((get_default_account_owner _ _ none).trans (owner_lookupD hGoodA.1)) (fun h1 h2 => ?_)
    exact (get_default_account_spec _ _ none (AccNonneg_lookupD hGoodA.2 h1 h2)).1
  split at he
  next hbal =>
    simp only [Option.some.injEq, Prod.mk.injEq] at he
    obtain ⟨h1, _⟩ := he; subst h1
    exact hGoodB
  next hbal =>
  split at he
  next herr =>
    simp only [Option.some.injEq, Prod.mk.injEq] at he
    obtain ⟨h1, _⟩ := he; subst h1
    exact hGoodB
  next s3 oa2 ia2 txid hmk =>
  have hGood3 : Good s3 :=
    Good_of_ua_eq (by rw [make_tx_user_accounts hmk] <;> rfl) hGoodB
  have hmkf := make_tx_ok hmk
  split at he
  next hsum => exact Option.noConfusion he
  next e hsum =>
    simp only [Option.some.injEq, Prod.mk.injEq] at he
    obtain ⟨h1, _⟩ := he; subst h1
    exact hGood3
  next s4 txid2 hsum =>
  have hGood4 : Good s4 :=
    Good_of_ua_eq (by rw [make_summary_tx_user_accounts hsum] <;> rfl) hGood3
  split at he
  next hins => exact Option.noConfusion he
  next s5 hins =>
  have hbal2 : inbound_uid ≠ BANK_UID → inbound_uid ≠ DEALER_UID → 0 ≤ ia2.balance := by
    intro h1 h2
    rw [hmkf.2.2.2.1]
    have h0 : 0 ≤ (((lookupA sA.ledger.user_accounts inbound_uid).getD
        (UserAccount.new inbound_uid)).get_default_account pr.currency none).1.balance :=
      (get_default_account_spec _ _ none (AccNonneg_lookupD hGoodA.2 h1 h2)).2.1
    have h3 := hmkf.1
    dsimp only
    linarith
  have hGood5 : Good s5 := Good_insert_into_ledger hGood4 hbal2 hins
  split at he
  next hins2 => exact Option.noConfusion he
  next s6 hins2 =>
  have hbal3 : pr.uid ≠ BANK_UID → pr.uid ≠ DEALER_UID → 0 ≤ oa2.balance := by
    intro h1 h2
    rw [hmkf.2.2.1]
    dsimp only
    have h4 := not_lt.mp hbal
    linarith
  have hGood6 : Good s6 := Good_insert_into_ledger hGood5 hbal3 hins2
  simp only [Option.some.injEq, Prod.mk.injEq] at he
  obtain ⟨h1, _⟩ := he; subst h1
  exact Good_of_ua_eq rfl hGood6

theorem Good_setUser_lookupD {s : BankEngine} {uid : Nat} (hi : Good s) :
    Good (setUser s uid ((lookupA s.ledger.user_accounts uid).getD (UserAccount.new uid))) :=
  Good_setUser hi (owner_lookupD hi.1) (fun h1 h2 => AccNonneg_lookupD hi.2 h1 h2)

theorem Good_setUser_gdefault {s : BankEngine} {uid : Nat} {c : Currency}
    {t? : Option AccountType} (hi : Good s) :
    Good (setUser s uid (((lookupA s.ledger.user_accounts uid).getD
      (UserAccount.new uid)).get_default_account c t?).2) :=
  Good_setUser hi ((get_default_account_owner _ _ _).trans (owner_lookupD hi.1))
    (fun h1 h2 => (get_default_account_spec _ _ _ (AccNonneg_lookupD hi.2 h1 h2)).1)

theorem Good_setUser_gdefault2 {s : BankEngine} {uid : Nat} {c : Currency}
    {t? : Option AccountType} (hi : Good s) :
    Good (setUser (setUser s uid ((lookupA s.ledger.user_accounts uid).getD
        (UserAccount.new uid))) uid
      (((lookupA s.ledger.user_accounts uid).getD
        (UserAccount.new uid)).get_default_account c t?).2) :=
  Good_setUser (Good_setUser_lookupD hi)
    ((get_default_account_owner _ _ _).trans (owner_lookupD hi.1))
    (fun h1 h2 => (get_default_account_spec _ _ _ (AccNonneg_lookupD hi.2 h1 h2)).1)

theorem Good_setUser_gdefault_found {s : BankEngine} {uid : Nat} {ua : UserAccount}
    {c : Currency} {t? : Option AccountType}
    (hi : Good s) (hl : lookupA s.ledger.user_accounts uid = some ua) :
    Good (setUser s uid (ua.get_default_account c t?).2) :=
  Good_setUser hi ((get_default_account_owner _ _ _).trans (OwnersOk_lookup hi.1 hl))
    (fun h1 h2 => (get_default_account_spec _ _ _ (InvL_lookup hi.2 hl h1 h2)).1)

theorem Good_handleInvoiceRequest {o : Oracle} {s s2 : BankEngine}
    {m : InvoiceRequest} {outs : List Output}
    (hi : Good s) (he : handleInvoiceRequest o s m = some (s2, outs)) : Good s2 := by
  unfold handleInvoiceRequest at he
  dsimp only at he
  split at he
  · simp only [Option.some.injEq, Prod.mk.injEq] at he
    obtain ⟨h1, _⟩ := he; subst h1
    exact Good_of_ua_eq rfl hi
  split at he
  · simp only [Option.some.injEq, Prod.mk.injEq] at he
    obtain ⟨h1, _⟩ := he; subst h1
    exact Good_of_ua_eq rfl hi
  split at he
  · simp only [Option.some.injEq, Prod.mk.injEq] at he
    obtain ⟨h1, _⟩ := he; subst h1
    exact Good_setUser_lookupD (Good_of_ua_eq rfl hi)
  split at he
  next dflt hres =>
    simp only [Option.some.injEq, Prod.mk.injEq] at he
    obtain ⟨h1, _⟩ := he; subst h1
    exact Good_setUser_lookupD (Good_of_ua_eq rfl hi)
  next target_account sY hres =>
    have hGoodY : Good sY := by
      split at hres
      · split at hres
        · simp only [Except.ok.injEq, Prod.mk.injEq] at hres
          obtain ⟨_, h4⟩ := hres; subst h4
          exact Good_setUser_lookupD (Good_of_ua_eq rfl hi)
        · exact absurd hres (by simp)
      · simp only [Except.ok.injEq, Prod.mk.injEq] at hres
        obtain ⟨_, h4⟩ := hres; subst h4
        exact Good_setUser_gdefault2 (Good_of_ua_eq rfl hi)
    clear hres
    repeat' split at he
    all_goals first
    | exact Option.noConfusion he
    | (simp only [Option.some.injEq, Prod.mk.injEq] at he
       obtain ⟨h1, h2⟩ := he
       subst h1
       first
       | exact hGoodY
       | exact Good_of_ua_eq rfl hGoodY)

theorem Good_handleInvoiceResponse {o : Oracle} {s s2 : BankEngine}
    {m : InvoiceResponse} {outs : List Output}
    (hi : Good s) (he : handleInvoiceResponse o s m = some (s2, outs)) : Good s2 := by
  unfold handleInvoiceResponse at he
  dsimp only at he
  split at he
  · simp only [Option.some.injEq, Prod.mk.injEq] at he
    obtain ⟨h1, _⟩ := he; subst h1
    exact hi
  next rate hrate =>
  split at he
  · exact Option.noConfusion he
  split at he
  · exact Option.noConfusion he
  next n0 hsats =>
  split at he
  · exact Option.noConfusion he
  split at he
  next dflt hres =>
    simp only [Option.some.injEq, Prod.mk.injEq] at he
    obtain ⟨h1, _⟩ := he; subst h1
    exact Good_setUser_lookupD hi
  next target_account sY hres =>
    have hGoodY : Good sY := by
      split at hres
      · split at hres
        · simp only [Except.ok.injEq, Prod.mk.injEq] at hres
          obtain ⟨_, h4⟩ := hres; subst h4
          exact Good_setUser_lookupD hi
        · exact absurd hres (by simp)
      · simp only [Except.ok.injEq, Prod.mk.injEq] at hres
        obtain ⟨_, h4⟩ := hres; subst h4
        exact Good_setUser_gdefault2 hi
    clear hres
    repeat' split at he
    all_goals first
    | exact Option.noConfusion he
    | (simp only [Option.some.injEq, Prod.mk.injEq] at he
       obtain ⟨h1, h2⟩ := he
       subst h1
       first
       | exact hGoodY
       | exact Good_of_ua_eq rfl hGoodY)

theorem Good_handleSwapResponse {o : Oracle} {s s2 : BankEngine}
    {m : SwapResponse} {outs : List Output}
    (hi : Good s) (he : handleSwapResponse o s m = some (s2, outs)) : Good s2 := by
  unfold handleSwapResponse at he
  dsimp only at he
  split at he
  · simp only [Option.some.injEq, Prod.mk.injEq] at he
    obtain ⟨h1, _⟩ := he; subst h1; exact hi
  split at he
  · simp only [Option.some.injEq, Prod.mk.injEq] at he
    obtain ⟨h1, _⟩ := he; subst h1; exact hi
  split at he
  next hrate =>
    simp only [Option.some.injEq, Prod.mk.injEq] at he
    obtain ⟨h1, _⟩ := he; subst h1; exact hi
  next rate hrate =>
  split at he
  next hua =>
    simp only [Option.some.injEq, Prod.mk.injEq] at he
    obtain ⟨h1, _⟩ := he; subst h1; exact hi
  next ua hua =>
  have hGoodC : Good (setUser s m.uid
      ((ua.get_default_account m.from_cur none).2.get_default_account m.to_cur none).2) := by
    refine Good_setUser hi ?_ (fun h1 h2 => ?_)
    · exact (get_default_account_owner _ _ _).trans
        ((get_default_account_owner _ _ _).trans (OwnersOk_lookup hi.1 hua))
    · exact (get_default_account_spec _ _ none
        (get_default_account_spec _ _ none (InvL_lookup hi.2 hua h1 h2)).1).1
  split at he
  next hbal =>
    simp only [Option.some.injEq, Prod.mk.injEq] at he
    obtain ⟨h1, _⟩ := he; subst h1
    exact Good_of_ua_eq rfl hGoodC
  next hbal =>
  split at he
  next herr =>
    simp only [Option.some.injEq, Prod.mk.injEq] at he
    obtain ⟨h1, _⟩ := he; subst h1
    exact Good_of_ua_eq rfl hGoodC
  next s3 oa2 ida2 txid1 hmk1 =>
  have hGood3 : Good s3 :=
    Good_of_ua_eq (by rw [make_tx_user_accounts hmk1] <;> rfl) hGoodC
  have hmkf1 := make_tx_ok hmk1
  split at he
  next hex => exact Option.noConfusion he
  next inbound_amount hex =>
  split at he
  next herr =>
    simp only [Option.some.injEq, Prod.mk.injEq] at he
    obtain ⟨h1, _⟩ := he; subst h1
    exact Good_of_ua_eq rfl hGood3
  next s4 oda2 ia2 txid2 hmk2 =>
  have hGood4 : Good s4 :=
    Good_of_ua_eq (by rw [make_tx_user_accounts hmk2] <;> rfl) hGood3
  have hmkf2 := make_tx_ok hmk2
  split at he
  next hins1 => exact Option.noConfusion he
  next s5 hins1 =>
  have hbal1 : m.uid ≠ BANK_UID → m.uid ≠ DEALER_UID → 0 ≤ oa2.balance := by
    intro h1 h2
    rw [hmkf1.2.2.1]
    dsimp only
    have h4 := not_lt.mp hbal
    linarith
  have hGood5 : Good s5 := Good_insert_into_ledger hGood4 hbal1 hins1
  split at he
  next hins2 => exact Option.noConfusion he
  next s6 hins2 =>
  have hbal2 : m.uid ≠ BANK_UID → m.uid ≠ DEALER_UID → 0 ≤ ia2.balance := by
    intro h1 h2
    rw [hmkf2.2.2.2.1]
    have h0 : 0 ≤ ((ua.get_default_account m.from_cur none).2.get_default_account
        m.to_cur none).1.balance :=
      (get_default_account_spec _ _ none
        (get_default_account_spec _ _ none (InvL_lookup hi.2 hua h1 h2)).1).2.1
    have h3 := hmkf2.1
    dsimp only
    linarith
  have hGood6 : Good s6 := Good_insert_into_ledger hGood5 hbal2 hins2
  repeat' split at he
  all_goals first
  | exact Option.noConfusion he
  | (simp only [Option.some.injEq, Prod.mk.injEq] at he
     obtain ⟨h1, h2⟩ := he
     subst h1
     first
     | exact Good_of_ua_eq rfl hGood6
     | (refine Good_of_ua_eq ?_ hGood6
        try simp only [ua_update_account, ua_insertDealerAccount, ua_insertBankLiabilityAccount]
        rw [make_summary_tx_user_accounts (by assumption)] <;> rfl))

theorem Good_handlePaymentResult {o : Oracle} {s s2 : BankEngine}
    {res : PaymentResult} {outs : List Output}
    (hi : Good s) (he : handlePaymentResult o s res = some (s2, outs)) : Good s2 := by
  unfold handlePaymentResult at he
  dsimp only at he
  split at he
  · exact Option.noConfusion he
  next hamt =>
  split at he
  next hua =>
    simp only [Option.some.injEq, Prod.mk.injEq] at he
    obtain ⟨h1, _⟩ := he; subst h1
    exact Good_of_ua_eq rfl hi
  next ua hua =>
  have hGoodA : Good (setUser (setBankLiabilities s
      (s.ledger.bank_liabilities.get_default_account Currency.BTC
        (some AccountType.External)).2) res.uid
      (ua.get_default_account res.currency none).2) :=
    Good_setUser_gdefault_found (Good_of_ua_eq rfl hi) hua
  split at he
  next hsucc =>
    split at he
    · exact Option.noConfusion he
    next fees_payed hfees =>
    split at he
    · exact Option.noConfusion he
    next payment_amount hpa =>
    split at he
    · exact Option.noConfusion he
    next hexcess =>
    split at he
    next hbooked =>
      simp only [Option.some.injEq, Prod.mk.injEq] at he
      obtain ⟨h1, _⟩ := he; subst h1
      exact Good_of_ua_eq rfl hGoodA
    next sB hbooked =>
    have hGoodB : Good sB := by
      split at hbooked
      · split at hbooked
        · exact Option.noConfusion hbooked
        next s3 la2 db2 txid hmk =>
          simp only [Option.some.injEq] at hbooked
          subst hbooked
          refine Good_of_ua_eq ?_ (Good_of_ua_eq rfl hGoodA)
          simp only [ua_update_account, ua_insertDealerAccount, ua_insertBankLiabilityAccount]
          rw [make_tx_user_accounts hmk] <;> rfl
      · simp only [Option.some.injEq] at hbooked
        subst hbooked
        exact Good_of_ua_eq rfl hGoodA
    clear hbooked
    repeat' split at he
    all_goals first
    | exact Option.noConfusion he
    | (simp only [Option.some.injEq, Prod.mk.injEq] at he
       obtain ⟨h1, h2⟩ := he
       subst h1
       first
       | exact hGoodB
       | exact Good_of_ua_eq rfl hGoodB)
  next hsucc =>
    split at he
    · exact Option.noConfusion he
    next refund_exchanged hex =>
    split at he
    next hfiat =>
      split at he
      next herr =>
        simp only [Option.some.injEq, Prod.mk.injEq] at he
        obtain ⟨h1, _⟩ := he; subst h1
        exact Good_of_ua_eq rfl hGoodA
      next s3 la2 db2 txid1 hmk1 =>
      have hGood3 : Good s3 :=
        Good_of_ua_eq (by rw [make_tx_user_accounts hmk1] <;> rfl) hGoodA
      split at he
      next herr =>
        simp only [Option.some.injEq, Prod.mk.injEq] at he
        obtain ⟨h1, _⟩ := he; subst h1
        exact Good_of_ua_eq rfl hGood3
      next s4 df2 ia2 txid2 hmk2 =>
      have hGood4 : Good s4 :=
        Good_of_ua_eq (by rw [make_tx_user_accounts hmk2] <;> rfl) hGood3
      have hmkf2 := make_tx_ok hmk2
      split at he
      next hins => exact Option.noConfusion he
      next s5 hins =>
      have hbal : res.uid ≠ BANK_UID → res.uid ≠ DEALER_UID → 0 ≤ ia2.balance := by
        intro h1 h2
        rw [hmkf2.2.2.2.1]
        have h0 : 0 ≤ (ua.get_default_account res.currency none).1.balance :=
          (get_default_account_spec _ _ none (InvL_lookup hi.2 hua h1 h2)).2.1
        have h3 := hmkf2.1
        dsimp only
        linarith
      have hGood5 : Good s5 := by
        refine Good_insert_into_ledger ?_ hbal hins
        exact Good_of_ua_eq rfl hGood4
      repeat' split at he
      all_goals first
      | exact Option.noConfusion he
      | (simp only [Option.some.injEq, Prod.mk.injEq] at he
         obtain ⟨h1, h2⟩ := he
         subst h1
         first
         | exact Good_of_ua_eq rfl hGood5
         | (refine Good_of_ua_eq ?_ hGood5
            try simp only [ua_update_account, ua_insertDealerAccount, ua_insertBankLiabilityAccount]
            rw [make_summary_tx_user_accounts (by assumption)] <;> rfl))
    next hbtc =>
      split at he
      next herr =>
        simp only [Option.some.injEq, Prod.mk.injEq] at he
        obtain ⟨h1, _⟩ := he; subst h1
        exact Good_of_ua_eq rfl hGoodA
      next s3 la2 ia2 txid1 hmk1 =>
      have hGood3 : Good s3 :=
        Good_of_ua_eq (by rw [make_tx_user_accounts hmk1] <;> rfl) hGoodA
      have hmkf1 := make_tx_ok hmk1
      split at he
      next hins => exact Option.noConfusion he
      next s5 hins =>
      have hbal : res.uid ≠ BANK_UID → res.uid ≠ DEALER_UID → 0 ≤ ia2.balance := by
        intro h1 h2
        rw [hmkf1.2.2.2.1]
        have h0 : 0 ≤ (ua.get_default_account res.currency none).1.balance :=
          (get_default_account_spec _ _ none (InvL_lookup hi.2 hua h1 h2)).2.1
        have h3 := hmkf1.1
        dsimp only
        linarith
      have hGood5 : Good s5 := by
        refine Good_insert_into_ledger ?_ hbal hins
        exact Good_of_ua_eq rfl hGood3
      repeat' split at he
      all_goals first
      | exact Option.noConfusion he
      | (simp only [Option.some.injEq, Prod.mk.injEq] at he
         obtain ⟨h1, h2⟩ := he
         subst h1
         first
         | exact Good_of_ua_eq rfl hGood5
         | (refine Good_of_ua_eq ?_ hGood5
            try simp only [ua_update_account, ua_insertDealerAccount, ua_insertBankLiabilityAccount]
            rw [make_summary_tx_user_accounts (by assumption)] <;> rfl))

theorem Good_reservePayment {o : Oracle} {s s2 : BankEngine} {uid : Nat}
    {currency : Currency} {req_id : Nat} {payment_request : String}
    {outbound_account : Account} {rate : Rate} {amount_in_btc estimated_fee : Money}
    {tot totOut : Money} {invoice_amount_sats : Nat} {payment_response : PaymentResponse}
    {outs : List Output}
    (hi : Good s) (hbal : totOut.value ≤ outbound_account.balance)
    (he : reservePayment o s uid currency req_id payment_request outbound_account rate
      amount_in_btc estimated_fee tot totOut invoice_amount_sats payment_response =
      some (s2, outs)) : Good s2 := by
  unfold reservePayment at he
  dsimp only at he
  split at he
  next hfiat =>
    split at he
    next herr =>
      simp only [Option.some.injEq, Prod.mk.injEq] at he
      obtain ⟨h1, _⟩ := he; subst h1
      exact Good_of_ua_eq rfl hi
    next s3 oa2 df2 txid1 hmk1 =>
    have hGood3 : Good s3 :=
      Good_of_ua_eq (by rw [make_tx_user_accounts hmk1] <;> rfl) hi
    have hmkf1 := make_tx_ok hmk1
    split at he
    next herr =>
      simp only [Option.some.injEq, Prod.mk.injEq] at he
      obtain ⟨h1, _⟩ := he; subst h1
      exact Good_of_ua_eq rfl hGood3
    next s4 db2 bl2 txid2 hmk2 =>
    have hGood4 : Good s4 :=
      Good_of_ua_eq (by rw [make_tx_user_accounts hmk2] <;> rfl) hGood3
    split at he
    next hins => exact Option.noConfusion he
    next s5 hins =>
    have hbal1 : uid ≠ BANK_UID → uid ≠ DEALER_UID → 0 ≤ oa2.balance := by
      intro h1 h2
      rw [hmkf1.2.2.1]
      dsimp only
      linarith
    have hGood5 : Good s5 := Good_insert_into_ledger hGood4 hbal1 hins
    repeat' split at he
    all_goals first
    | exact Option.noConfusion he
    | (simp only [Option.some.injEq, Prod.mk.injEq] at he
       obtain ⟨h1, h2⟩ := he
       subst h1
       first
       | exact Good_of_ua_eq rfl hGood5
       | (refine Good_of_ua_eq ?_ hGood5
          try simp only [ua_update_account, ua_insertDealerAccount, ua_insertBankLiabilityAccount]
          rw [make_summary_tx_user_accounts (by assumption)] <;> rfl))
  next hbtc =>
    split at he
    next herr =>
      simp only [Option.some.injEq, Prod.mk.injEq] at he
      obtain ⟨h1, _⟩ := he; subst h1
      exact Good_of_ua_eq rfl hi
    next s3 oa2 bl2 txid1 hmk1 =>
    have hGood3 : Good s3 :=
      Good_of_ua_eq (by rw [make_tx_user_accounts hmk1] <;> rfl) hi
    have hmkf1 := make_tx_ok hmk1
    split at he
    next hins => exact Option.noConfusion he
    next s5 hins =>
    have hbal1 : uid ≠ BANK_UID → uid ≠ DEALER_UID → 0 ≤ oa2.balance := by
      intro h1 h2
      rw [hmkf1.2.2.1]
      dsimp only
      linarith
    have hGood5 : Good s5 := by
      refine Good_insert_into_ledger ?_ hbal1 hins
      exact Good_of_ua_eq rfl hGood3
    repeat' split at he
    all_goals first
    | exact Option.noConfusion he
    | (simp only [Option.some.injEq, Prod.mk.injEq] at he
       obtain ⟨h1, h2⟩ := he
       subst h1
       first
       | exact Good_of_ua_eq rfl hGood5
       | (refine Good_of_ua_eq ?_ hGood5
          try simp only [ua_update_account, ua_insertDealerAccount, ua_insertBankLiabilityAccount]
          rw [make_summary_tx_user_accounts (by assumption)] <;> rfl))

theorem storedInvoice_user_accounts (s : BankEngine) (m : PaymentRequest) (uid : Nat)
    (payment_request : String) (msats sats : Nat) :
    ((storedInvoice s m uid payment_request msats sats).2).ledger.user_accounts =
      s.ledger.user_accounts := by
  unfold storedInvoice
  split <;> rfl

theorem Good_handlePaymentDecoded {o : Oracle} {s s2 : BankEngine}
    {m : PaymentRequest} {uid : Nat} {outbound_account : Account}
    {payment_request : String} {msats sats : Nat} {outs : List Output}
    (hi : Good s)
    (he : handlePaymentDecoded o s m uid outbound_account payment_request msats sats =
      some (s2, outs)) : Good s2 := by
  unfold handlePaymentDecoded at he
  dsimp only at he
  have hGoodS : Good (storedInvoice s (pr_decorated m sats) uid payment_request msats sats).2 :=
    Good_of_ua_eq (storedInvoice_user_accounts s (pr_decorated m sats) uid payment_request msats sats) hi
  split at he
  · simp only [Option.some.injEq, Prod.mk.injEq] at he
    obtain ⟨h1, _⟩ := he; subst h1
    exact hi
  split at he
  · simp only [Option.some.injEq, Prod.mk.injEq] at he
    obtain ⟨h1, _⟩ := he; subst h1
    exact Good_of_ua_eq rfl hGoodS
  split at he
  · simp only [Option.some.injEq, Prod.mk.injEq] at he
    obtain ⟨h1, _⟩ := he; subst h1
    exact Good_of_ua_eq rfl hGoodS
  split at he
  · exact Option.noConfusion he
  next totOut hex =>
  split at he
  next hfunds =>
    simp only [Option.some.injEq, Prod.mk.injEq] at he
    obtain ⟨h1, _⟩ := he; subst h1
    exact Good_of_ua_eq rfl hGoodS
  next hfunds =>
  split at he
  next howner =>
    refine Good_reservePayment ?_ (le_of_not_lt hfunds) he
    exact hGoodS
  next owner_id howner =>
    split at he
    next husers =>
      simp only [Option.some.injEq, Prod.mk.injEq] at he
      obtain ⟨h1, _⟩ := he; subst h1
      exact Good_of_ua_eq rfl hGoodS
    next owner_username husers =>
      refine Good_make_internal_tx ?_ he
      exact hGoodS

theorem Good_handlePaymentRequest {o : Oracle} {s s2 : BankEngine}
    {m : PaymentRequest} {outs : List Output}
    (hi : Good s) (he : handlePaymentRequest o s m = some (s2, outs)) : Good s2 := by
  unfold handlePaymentRequest at he
  dsimp only at he
  split at he
  · simp only [Option.some.injEq, Prod.mk.injEq] at he
    obtain ⟨h1, _⟩ := he; subst h1
    exact Good_of_ua_eq rfl hi
  split at he
  next hua =>
    simp only [Option.some.injEq, Prod.mk.injEq] at he
    obtain ⟨h1, _⟩ := he; subst h1
    exact Good_of_ua_eq rfl hi
  next ua hua =>
  have hGoodA : Good (setUser ({ s with withdrawal_rate_limiter :=
      (check_rate_limit s.withdrawal_rate_limiter s.withdrawal_limiter_settings o.now m.uid).2 })
      m.uid (ua.get_default_account m.currency none).2) :=
    Good_setUser_gdefault_found (Good_of_ua_eq rfl hi) hua
  split at he
  · simp only [Option.some.injEq, Prod.mk.injEq] at he
    obtain ⟨h1, _⟩ := he; subst h1
    exact Good_of_ua_eq rfl hGoodA
  split at he
  · refine Good_make_internal_tx ?_ he
    exact Good_of_ua_eq rfl hGoodA
  split at he
  · exact Option.noConfusion he
  next payment_request hpr =>
  split at he
  · simp only [Option.some.injEq, Prod.mk.injEq] at he
    obtain ⟨h1, _⟩ := he; subst h1
    exact Good_of_ua_eq rfl hGoodA
  next decoded hdec =>
  split at he
  · simp only [Option.some.injEq, Prod.mk.injEq] at he
    obtain ⟨h1, _⟩ := he; subst h1
    exact Good_of_ua_eq rfl hGoodA
  next msat hmsat =>
  refine Good_handlePaymentDecoded ?_ he
  exact Good_of_ua_eq rfl hGoodA

theorem Good_process_msg {o : Oracle} {s s2 : BankEngine} {msg : Message}
    {outs : List Output}
    (hi : Good s) (hnc : msg.isCli = false)
    (he : process_msg o s msg = some (s2, outs)) : Good s2 := by
  cases msg with
  | dealer dm =>
    cases dm with
    | health h => exact Good_handleDealerHealth hi he
    | bankStateRequest r =>
      simp only [process_msg, Option.some.injEq, Prod.mk.injEq] at he
      obtain ⟨h1, _⟩ := he; subst h1; exact hi
    | payInvoice p => exact Good_process_dealer_invoice hi he
    | payInsuranceInvoice p => exact Good_process_dealer_invoice hi he
    | createInvoiceRequest req => exact Good_process_create_invoice_request hi he
    | createInsuranceInvoiceRequest req => exact Good_process_create_invoice_request hi he
    | fiatDepositResponse m => exact Good_handleFiatDepositResponse hi he
    | bankState b =>
      simp only [process_msg, Option.some.injEq, Prod.mk.injEq] at he
      obtain ⟨h1, _⟩ := he; subst h1; exact hi
    | createInvoiceResponse r =>
      simp only [process_msg, Option.some.injEq, Prod.mk.injEq] at he
      obtain ⟨h1, _⟩ := he; subst h1; exact hi
    | fiatDepositRequest r =>
      simp only [process_msg, Option.some.injEq, Prod.mk.injEq] at he
      obtain ⟨h1, _⟩ := he; subst h1; exact hi
  | deposit d => exact Good_handleDeposit hi he
  | api am =>
    cases am with
    | invoiceRequest m => exact Good_handleInvoiceRequest hi he
    | invoiceResponse m => exact Good_handleInvoiceResponse hi he
    | paymentRequest m => exact Good_handlePaymentRequest hi he
    | swapRequest m => exact Good_handleSwapRequest hi he
    | swapResponse m => exact Good_handleSwapResponse hi he
    | getBalances m => exact Good_handleGetBalances hi he
    | quoteRequest r =>
      simp only [process_msg, Option.some.injEq, Prod.mk.injEq] at he
      obtain ⟨h1, _⟩ := he; subst h1; exact hi
    | quoteResponse r =>
      simp only [process_msg, Option.some.injEq, Prod.mk.injEq] at he
      obtain ⟨h1, _⟩ := he; subst h1; exact hi
    | availableCurrenciesRequest r =>
      simp only [process_msg, Option.some.injEq, Prod.mk.injEq] at he
      obtain ⟨h1, _⟩ := he; subst h1; exact hi
    | availableCurrenciesResponse r =>
      simp only [process_msg, Option.some.injEq, Prod.mk.injEq] at he
      obtain ⟨h1, _⟩ := he; subst h1; exact hi
    | createLnurlWithdrawalRequest m => exact Good_handleCreateLnurlWithdrawalRequest hi he
    | getLnurlWithdrawalRequest m => exact Good_handleGetLnurlWithdrawalRequest hi he
    | payLnurlWithdrawalRequest m => exact Good_handlePayLnurlWithdrawalRequest hi he
    | balances b =>
      simp only [process_msg, Option.some.injEq, Prod.mk.injEq] at he
      obtain ⟨h1, _⟩ := he; subst h1; exact hi
    | paymentResponse r =>
      simp only [process_msg, Option.some.injEq, Prod.mk.injEq] at he
      obtain ⟨h1, _⟩ := he; subst h1; exact hi
    | createLnurlWithdrawalResponse r =>
      simp only [process_msg, Option.some.injEq, Prod.mk.injEq] at he
      obtain ⟨h1, _⟩ := he; subst h1; exact hi
    | getLnurlWithdrawalResponse r =>
      simp only [process_msg, Option.some.injEq, Prod.mk.injEq] at he
      obtain ⟨h1, _⟩ := he; subst h1; exact hi
    | payLnurlWithdrawalResponse r =>
      simp only [process_msg, Option.some.injEq, Prod.mk.injEq] at he
      obtain ⟨h1, _⟩ := he; subst h1; exact hi
  | bank bm =>
    cases bm with
    | paymentResult res => exact Good_handlePaymentResult hi he
  | cli cm => exact absurd hnc (by simp [Message.isCli])

theorem Good_processSeq {l : List (Oracle × Message)} {s s2 : BankEngine}
    {outs : List Output}
    (hi : Good s) (hnc : ∀ p ∈ l, (p.2).isCli = false)
    (he : processSeq l s = some (s2, outs)) : Good s2 := by
  induction l generalizing s outs with
  | nil =>
    simp only [processSeq, Option.some.injEq, Prod.mk.injEq] at he
    obtain ⟨h1, _⟩ := he; subst h1; exact hi
  | cons p t ih =>
    obtain ⟨o, m⟩ := p
    unfold processSeq at he
    split at he
    · exact Option.noConfusion he
    next s3 outs1 hstep =>
    split at he
    · exact Option.noConfusion he
    next s4 outs2 hrest =>
    simp only [Option.some.injEq, Prod.mk.injEq] at he
    obtain ⟨h1, _⟩ := he; subst h1
    have hGood3 : Good s3 :=
      Good_process_msg hi (hnc (o, m) (List.mem_cons_self _ _)) hstep
    exact ih hGood3 (fun q hq => hnc q (List.mem_cons_of_mem _ hq)) hrest

/-! ## Assoc-list support lemmas for the frame and LNURL claims -/

theorem insertA_self {α : Type} {l : List (Nat × α)} {k : Nat} {v : α}
    (h : lookupA l k = some v) : insertA l k v = l := by
  induction l with
  | nil => simp [lookupA] at h
  | cons p t ih =>
    obtain ⟨k2, w⟩ := p
    unfold lookupA at h
    unfold insertA
    by_cases hk : k2 = k
    · rw [if_pos hk] at h ⊢
      simp only [Option.some.injEq] at h
      rw [hk, h]
    · rw [if_neg hk] at h ⊢
      rw [ih h]

theorem removeA_none {α : Type} {l : List (Nat × α)} {k : Nat}
    (h : removeA l k = none) : lookupA l k = none := by
  induction l with
  | nil => rfl
  | cons p t ih =>
    obtain ⟨k2, w⟩ := p
    unfold removeA at h
    unfold lookupA
    by_cases hk : k2 = k
    · rw [if_pos hk] at h; exact Option.noConfusion h
    · rw [if_neg hk] at h ⊢
      cases hr : removeA t k with
      | none => exact ih hr
      | some p2 => rw [hr] at h; exact Option.noConfusion h

/-- C2: `make_tx` fails on non-positive amounts and on a currency mismatch,
and on success debits the outbound copy and credits the inbound copy by
exactly the requested value. -/
theorem C2_make_tx_contract (s : BankEngine) (now : Nat) (outb : Account)
    (ouid : Nat) (inb : Account) (iuid : Nat) (amount : Money) :
    (amount.value ≤ 0 →
      make_tx s now outb ouid inb iuid amount = Except.error BankError.FailedTransaction) ∧
    (outb.currency ≠ inb.currency →
      make_tx s now outb ouid inb iuid amount = Except.error BankError.FailedTransaction) ∧
    (∀ s2 oa2 ia2 txid,
      make_tx s now outb ouid inb iuid amount = Except.ok (s2, oa2, ia2, txid) →
      oa2.balance = outb.balance - amount.value ∧
      ia2.balance = inb.balance + amount.value) := by
  refine ⟨fun h1 => ?_, fun h2 => ?_, fun s2 oa2 ia2 txid h => ?_⟩
  · unfold make_tx; rw [if_pos h1]
  · unfold make_tx
    rcases le_or_lt amount.value 0 with h1 | h1
    · rw [if_pos h1]
    · rw [if_neg (not_le.mpr h1), if_pos h2]
  · have hf := make_tx_ok h
    exact ⟨by rw [hf.2.2.1], by rw [hf.2.2.2.1]⟩

theorem C2_make_tx_contract_witness :
    make_tx baseState 7 c2_out 1 c2_in 2 ⟨Currency.BTC, -1⟩ =
      Except.error BankError.FailedTransaction ∧
    make_tx baseState 7 c2_out 1 c2_inUsd 3 ⟨Currency.BTC, qQuarter⟩ =
      Except.error BankError.FailedTransaction ∧
    (c2_res.2.1.balance = c2_out.balance - qQuarter ∧
     c2_res.2.2.1.balance = c2_in.balance + qQuarter) :=
  ⟨(C2_make_tx_contract baseState 7 c2_out 1 c2_in 2 ⟨Currency.BTC, -1⟩).1 (by decide),
   (C2_make_tx_contract baseState 7 c2_out 1 c2_inUsd 3 ⟨Currency.BTC, qQuarter⟩).2.1 (by decide),
   (C2_make_tx_contract baseState 7 c2_out 1 c2_in 2 ⟨Currency.BTC, qQuarter⟩).2.2
     c2_res.1 c2_res.2.1 c2_res.2.2.1 c2_res.2.2.2 (by rfl)⟩

/-- C9 (counterexample): `Api::GetBalances` for an unknown uid inserts a fresh
empty user entry into the ledger, so the handler is not mutation-free. -/
theorem C9_get_balances_creates_user :
    lookupA baseState.ledger.user_accounts 7 = none ∧
    (handleGetBalances baseState c9_m).isSome = true ∧
    lookupA c9_s1.ledger.user_accounts 7 = some (UserAccount.new 7) := by decide

/-- C9 (amended): for a uid that already has a ledger entry, `Api::GetBalances`
leaves the engine state unchanged and only emits the `Balances` response. -/
theorem C9_get_balances_known_uid_pure {s : BankEngine} {m : GetBalances}
    {ua : UserAccount} (h : lookupA s.ledger.user_accounts m.uid = some ua) :
    handleGetBalances s m = some (s,
      [Output.msg (Message.api (Api.balances
        { req_id := m.req_id, uid := m.uid, accounts := ua.accounts, error := none }))
        (if m.uid = DEALER_UID then ServiceIdentity.dealer else ServiceIdentity.api)]) := by
  unfold handleGetBalances
  rw [h]
  dsimp only [Option.getD]
  unfold setUser
  rw [insertA_self h]

theorem C9_get_balances_known_uid_pure_witness :
    handleGetBalances c9k_s c9k_m = some (c9k_s,
      [Output.msg (Message.api (Api.balances
        { req_id := 10, uid := 1, accounts := u1.accounts, error := none }))
        (if (1 : Nat) = DEALER_UID then ServiceIdentity.dealer else ServiceIdentity.api)]) :=
  C9_get_balances_known_uid_pure (by rfl)

/-- C10: a remembered LNURL withdrawal template survives
`Api::PayLnurlWithdrawalRequest` (only its `payment_request` field is set and
a loopback `Api::PaymentRequest` is emitted), while
`Api::GetLnurlWithdrawalRequest` removes it. -/
theorem C10_lnurl_pay_retains_template {s : BankEngine} {m : PayLnurlWithdrawalRequest}
    {e : Nat × PaymentRequest}
    (h : lookupA s.lnurl_withdrawal_requests m.req_id = some e) :
    (∃ s2,
      handlePayLnurlWithdrawalRequest s m = some (s2,
        [Output.msg (Message.api (Api.paymentRequest
          { e.2 with payment_request := some m.payment_request })) ServiceIdentity.loopback]) ∧
      lookupA s2.lnurl_withdrawal_requests m.req_id =
        some (e.1, { e.2 with payment_request := some m.payment_request })) ∧
    (∀ (g : GetLnurlWithdrawalRequest) (s3 : BankEngine) (outs : List Output),
      g.req_id = m.req_id →
      handleGetLnurlWithdrawalRequest s g = some (s3, outs) →
      ∃ v, removeA s.lnurl_withdrawal_requests m.req_id =
        some (v, s3.lnurl_withdrawal_requests)) := by
  constructor
  · have heq : handlePayLnurlWithdrawalRequest s m = some ({ s with lnurl_withdrawal_requests := insertA s.lnurl_withdrawal_requests m.req_id (e.1, { e.2 with payment_request := some m.payment_request }) }, [Output.msg (Message.api (Api.paymentRequest { e.2 with payment_request := some m.payment_request })) ServiceIdentity.loopback]) := by
      unfold handlePayLnurlWithdrawalRequest
      rw [h]
    exact ⟨_, heq, lookupA_insertA_self _ _ _⟩
  · intro g s3 outs hg he
    unfold handleGetLnurlWithdrawalRequest at he
    rw [hg] at he
    dsimp only at he
    split at he
    next hrem =>
      rw [removeA_none hrem] at h
      exact Option.noConfusion h
    next e2 rest hrem =>
      refine ⟨e2, ?_⟩
      rw [hrem]
      repeat' split at he
      all_goals first
      | exact Option.noConfusion he
      | (simp only [Option.some.injEq, Prod.mk.injEq] at he
         obtain ⟨h1, _⟩ := he
         subst h1
         rfl)

theorem C10_lnurl_pay_retains_template_witness :
    (∃ s2,
      handlePayLnurlWithdrawalRequest c10_s c10_m = some (s2,
        [Output.msg (Message.api (Api.paymentRequest
          { c10_t with payment_request := some "lnbc1000" })) ServiceIdentity.loopback]) ∧
      lookupA s2.lnurl_withdrawal_requests 5 =
        some (1700000, { c10_t with payment_request := some "lnbc1000" })) ∧
    (∃ v, removeA c10_s.lnurl_withdrawal_requests 5 =
      some (v, c10_g_s3.lnurl_withdrawal_requests)) :=
  ⟨(@C10_lnurl_pay_retains_template c10_s c10_m (1700000, c10_t) (by rfl)).1,
   (@C10_lnurl_pay_retains_template c10_s c10_m (1700000, c10_t) (by rfl)).2
     c10_g c10_g_s3 c10_g_outs rfl (by rfl)⟩

/-- C1 (counterexample): an operator `Cli::MakeTx` booking away from a customer
account with zero balance completes "Successful" and leaves the customer at a
negative balance — `process_make_tx` never checks the outbound balance. -/
theorem C1_cli_maketx_negative_balance :
    Good c1_s0 ∧ (process_msg testOracle c1_s0 c1_msg).isSome = true ∧ ¬ Inv c1_s1 := by
  refine ⟨by decide, ?_, ?_⟩
  · norm_num [process_msg, process_make_tx, make_tx, c1_s0, c1_msg, c1_mt, baseState,
      testOracle, u7, u8, mkAcct, Ledger.new, UserAccount.new, BANK_UID, DEALER_UID,
      insuranceFundAccountId, UserAccount.get_default_account, defaultAccountId,
      Currency.idx, AccountType.idx, lookupA, insertA, update_account, insert_into_ledger,
      insertBankLiabilityAccount, setBankLiabilities, BankError.describe]
  · norm_num [Inv, InvL, c1_s1, process_msg, process_make_tx, make_tx, c1_s0, c1_msg, c1_mt,
      baseState, testOracle, u7, u8, mkAcct, Ledger.new, UserAccount.new, BANK_UID, DEALER_UID,
      insuranceFundAccountId, UserAccount.get_default_account, defaultAccountId,
      Currency.idx, AccountType.idx, lookupA, insertA, update_account, insert_into_ledger,
      insertBankLiabilityAccount, setBankLiabilities, BankError.describe]
    decide

/-- C1 (amended): along every panic-free run of non-CLI messages from a state
whose customer balances are non-negative (and whose ledger keys are
consistent), customer balances stay non-negative after every handler. -/
theorem C1_customer_balances_nonneg {l : List (Oracle × Message)} {s s2 : BankEngine}
    {outs : List Output}
    (hg : Good s) (hnc : ∀ p ∈ l, (p.2).isCli = false)
    (he : processSeq l s = some (s2, outs)) : Inv s2 :=
  (Good_processSeq hg hnc he).2

theorem C1_customer_balances_nonneg_witness : Inv c1w_s2 :=
  @C1_customer_balances_nonneg c1w_l c1_s0 c1w_s2 c1w_outs (by decide) (by decide) (by rfl)

/-- C3 (code bug): `handle_dealer_deposit` with an invoice of value 0 makes
`make_tx` fail (`FailedTransaction`), yet the handler neither aborts nor rolls
back: no transaction row is stored (`txs = []`), but both dealer-account
writebacks and both `update_account` persistence calls still happen. -/
theorem C3_dealer_deposit_persists_after_failed_make_tx :
    handle_dealer_deposit testOracle c3_s0 c3_dep = some (c3_s1, []) ∧
    c3_s1.txs = [] ∧
    c3_s1.updates.length = 2 ∧
    (∀ p ∈ c3_s1.updates, p.1 = DEALER_UID) ∧
    c3_s1.ledger.dealer_accounts.accounts.length = 2 := by
  refine ⟨by rfl, ?_, ?_, ?_, ?_⟩
  all_goals norm_num [c3_s1, handle_dealer_deposit, findInvoice, c3_s0, c3_dep, c3_inv, baseState,
    testOracle, mkAcct, Ledger.new, UserAccount.new, BANK_UID, DEALER_UID,
    insuranceFundAccountId, UserAccount.get_default_account, defaultAccountId,
    Currency.idx, AccountType.idx, lookupA, insertA, update_account, insert_into_ledger,
    insertDealerAccount, insertBankLiabilityAccount, setDealerAccounts, setBankLiabilities,
    Money.from_sats, SATS_IN_BITCOIN, make_tx]
  all_goals try decide

/-- C4 (counterexample): the depleted-insurance predicate ignores
`insurance_fund_account` — a ledger with 1 BTC in the insurance fund but an
empty dealer BTC account counts as depleted, and a ledger with an exhausted
insurance fund but a funded dealer BTC account does not. -/
theorem C4_depleted_reads_dealer_not_insurance :
    ((is_insurance_fund_depleted c4_led1).1 = true ∧
      ¬ (c4_led1.insurance_fund_account.balance < 10 / 100000000)) ∧
    ((is_insurance_fund_depleted c4_led2).1 = false ∧
      c4_led2.insurance_fund_account.balance < 10 / 100000000) := by
  norm_num [is_insurance_fund_depleted, c4_led1, c4_led2, richDealer, mkAcct, Ledger.new,
    UserAccount.new, BANK_UID, DEALER_UID, insuranceFundAccountId,
    UserAccount.get_default_account, defaultAccountId, Currency.idx, AccountType.idx]

/-- C4 (amended): `is_insurance_fund_depleted` is the 10-sat test on the
dealer's default BTC account, and while it holds every `Api::InvoiceRequest`
that passes the rate limit is answered `InvoicingSuspended` and every
`Api::SwapRequest` is dropped instead of being forwarded to the dealer. -/
theorem C4_depleted_gates_invoicing_and_swaps (l : Ledger) (o : Oracle) (s : BankEngine)
    (m : InvoiceRequest) (r : SwapRequest) :
    ((is_insurance_fund_depleted l).1 = true ↔
      (l.dealer_accounts.get_default_account Currency.BTC none).1.balance < 10 / 100000000) ∧
    ((is_insurance_fund_depleted s.ledger).1 = true →
      (check_rate_limit s.deposit_rate_limiter s.deposit_limiter_settings o.now m.uid).1 = true →
      ∃ s2, handleInvoiceRequest o s m = some (s2,
        [Output.msg (Message.api (Api.invoiceResponse
          { req_id := m.req_id, uid := m.uid, amount := m.amount, rate := none,
            payment_request := none, currency := m.currency,
            target_account_currency := m.target_account_currency, account_id := none,
            error := some InvoiceResponseError.InvoicingSuspended, fees := none }))
          ServiceIdentity.api])) ∧
    ((is_insurance_fund_depleted s.ledger).1 = true →
      ∃ s2, handleSwapRequest s r = some (s2, [])) := by
  refine ⟨?_, fun hdep hrl => ?_, fun hdep => ?_⟩
  · unfold is_insurance_fund_depleted
    simp
  · unfold handleInvoiceRequest
    dsimp only
    rw [if_neg (by simp [hrl]), if_pos hdep]
    exact ⟨_, rfl⟩
  · unfold handleSwapRequest
    dsimp only
    rw [if_pos hdep]
    exact ⟨_, rfl⟩

theorem C4_depleted_gates_witness :
    ((is_insurance_fund_depleted c4_led1).1 = true ↔
      (c4_led1.dealer_accounts.get_default_account Currency.BTC none).1.balance
        < 10 / 100000000) ∧
    (∃ s2, handleInvoiceRequest testOracle baseState c4_m = some (s2,
      [Output.msg (Message.api (Api.invoiceResponse
        { req_id := c4_m.req_id, uid := c4_m.uid, amount := c4_m.amount, rate := none,
          payment_request := none, currency := c4_m.currency,
          target_account_currency := c4_m.target_account_currency, account_id := none,
          error := some InvoiceResponseError.InvoicingSuspended, fees := none }))
        ServiceIdentity.api])) ∧
    (∃ s2, handleSwapRequest baseState c4_r = some (s2, [])) :=
  ⟨(C4_depleted_gates_invoicing_and_swaps c4_led1 testOracle baseState c4_m c4_r).1,
   (C4_depleted_gates_invoicing_and_swaps c4_led1 testOracle baseState c4_m c4_r).2.1
     (by norm_num [is_insurance_fund_depleted, baseState, Ledger.new, UserAccount.new,
       DEALER_UID, UserAccount.get_default_account, defaultAccountId, Currency.idx,
       AccountType.idx])
     (by rfl),
   (C4_depleted_gates_invoicing_and_swaps c4_led1 testOracle baseState c4_m c4_r).2.2
     (by norm_num [is_insurance_fund_depleted, baseState, Ledger.new, UserAccount.new,
       DEALER_UID, UserAccount.get_default_account, defaultAccountId, Currency.idx,
       AccountType.idx])⟩

/-- C8 (counterexample): an `Api::PaymentRequest` with a recipient username but
no amount reaches `make_internal_tx`, whose `msg.amount.unwrap()` panics — the
dispatcher does not return normally. -/
theorem C8_recipient_without_amount_panics :
    process_msg testOracle c8_s c8_msg1 = none := by rfl

/-- C8 (amended): `process_msg` panics rather than responding on specific
malformed inputs — an external payment without a `payment_request` string and
an `Api::InvoiceRequest` for a currency with no configured deposit limit — while
well-formed failures are answered with an error response to the caller. -/
theorem C8_panics_and_error_responses :
    process_msg testOracle c8_s c8_msg2 = none ∧
    process_msg testOracle c8_s c8_msg3 = none ∧
    process_msg testOracle c8_s c8_msg4 = some (c8_s4,
      [Output.msg (Message.api (Api.paymentResponse
        (PaymentResponse.err PaymentResponseError.UserAccountNotFound 4 99 (some "x")
          Currency.BTC none))) ServiceIdentity.api]) := by
  refine ⟨by rfl, ?_, by rfl⟩
  norm_num [process_msg, handleInvoiceRequest, c8_msg3, c8_s, baseState, u1, richDealer,
    mkAcct, Ledger.new, UserAccount.new, BANK_UID, DEALER_UID, insuranceFundAccountId,
    UserAccount.get_default_account, defaultAccountId, Currency.idx, AccountType.idx,
    lookupA, insertA, lookupC, check_rate_limit, is_insurance_fund_depleted, setUser,
    qHalf, qQuarter, testOracle]
  decide

/-- C7: past the rate-limit, insurance, withdrawal-only and account-resolution
steps (default-account path), `Api::InvoiceRequest` is refused with
`DepositLimitExceeded` exactly when the target balance plus the requested
amount strictly exceeds the configured limit; equality proceeds. -/
theorem C7_deposit_limit_strict {o : Oracle} {s : BankEngine} {m : InvoiceRequest} {L : Rat}
    (hrl : (check_rate_limit s.deposit_rate_limiter s.deposit_limiter_settings
      o.now m.uid).1 = true)
    (hdep : (is_insurance_fund_depleted s.ledger).1 = false)
    (hwo : s.withdrawal_only = false)
    (hai : m.account_id = none)
    (hlim : lookupC s.deposit_limits m.currency = some L) :
    (invoiceError (handleInvoiceRequest o s m) =
        some InvoiceResponseError.DepositLimitExceeded ↔
      L < (((lookupA s.ledger.user_accounts m.uid).getD
          (UserAccount.new m.uid)).get_default_account m.currency none).1.balance
        + m.amount.value) := by
  unfold handleInvoiceRequest
  dsimp only
  rw [if_neg (by simp [hrl])]
  rw [if_neg (by simp [hdep])]
  dsimp only [is_insurance_fund_depleted, setUser]
  rw [if_neg (by simp [hwo])]
  rw [hai]
  dsimp only
  rw [hlim]
  dsimp only
  by_cases hgt : L < (((lookupA s.ledger.user_accounts m.uid).getD
      (UserAccount.new m.uid)).get_default_account m.currency none).1.balance + m.amount.value
  · rw [if_pos hgt]
    simp [invoiceError, hgt]
  · rw [if_neg hgt]
    repeat' split
    all_goals simp [invoiceError, hgt]

theorem C7_deposit_limit_strict_witness :
    invoiceError (handleInvoiceRequest testOracle c8_s c7_m) =
        some InvoiceResponseError.DepositLimitExceeded ↔
      (1 : Rat) < (((lookupA c8_s.ledger.user_accounts c7_m.uid).getD
          (UserAccount.new c7_m.uid)).get_default_account c7_m.currency none).1.balance
        + c7_m.amount.value :=
  C7_deposit_limit_strict (by rfl)
    (by norm_num [is_insurance_fund_depleted, c8_s, baseState, richDealer, mkAcct,
      Ledger.new, UserAccount.new, DEALER_UID, UserAccount.get_default_account,
      defaultAccountId, Currency.idx, AccountType.idx])
    (by rfl) (by rfl) (by rfl)

theorem get_default_account_currency (ua : UserAccount) (c : Currency)
    (t? : Option AccountType) : (ua.get_default_account c t?).1.currency = c := by
  unfold UserAccount.get_default_account
  dsimp only
  split
  next p hf =>
    have hpred := List.find?_some hf
    simp only [Bool.and_eq_true, decide_eq_true_eq] at hpred
    exact hpred.1
  next => rfl

theorem findInvoice_updateInvoiceRow {invs : List Invoice} {prq : String} {inv : Invoice}
    (h : findInvoice invs prq = some inv) (i2 : Invoice)
    (h2 : i2.payment_request = inv.payment_request) :
    findInvoice (updateInvoiceRow invs prq i2) prq = some i2 := by
  induction invs with
  | nil => simp [findInvoice] at h
  | cons i t ih =>
    unfold findInvoice at h ⊢
    unfold updateInvoiceRow at ih ⊢
    by_cases hp : (i.payment_request == prq) = true
    · rw [List.find?_cons, hp] at h
      simp only [Option.some.injEq] at h
      subst h
      have hp2 : (i2.payment_request == prq) = true := by
        rw [h2]; exact hp
      simp only [List.map]
      rw [if_pos hp, List.find?_cons, hp2]
    · have hp0 : (i.payment_request == prq) = false := by
        simpa using hp
      rw [List.find?_cons, hp0] at h
      simp only [List.map]
      rw [if_neg (by simp [hp0]), List.find?_cons, hp0]
      exact ih h

/-- C6: a successful `Bank::PaymentResult` books exactly `R - A - f`
(reserved minus payment amount minus actual fee) from the bank-liability BTC
External account to the dealer BTC Internal account — and books nothing when
the excess is zero — marks the invoice settled, and answers the Api with a
`success := true` response carrying the actual fee. -/
theorem C6_success_excess_settlement {o : Oracle} {s s2 : BankEngine}
    {res : PaymentResult} {outs : List Output} {f A : Money} {prq : String}
    {inv : Invoice} {ua : UserAccount}
    (h0 : 0 < res.amount.value)
    (hua : lookupA s.ledger.user_accounts res.uid = some ua)
    (hsucc : res.is_success = true)
    (hf : res.payment_response.fees = some f)
    (hA : res.payment_response.amount = some A)
    (hprq : res.payment_response.payment_request = some prq)
    (hinv : findInvoice s.invoices prq = some inv)
    (he : handlePaymentResult o s res = some (s2, outs)) :
    (0 < res.amount.value - (A.value + f.value) →
      (∃ tx, s2.txs = s.txs ++ [tx] ∧ tx.outbound_uid = BANK_UID ∧
        tx.inbound_uid = DEALER_UID ∧
        tx.outbound_amount = res.amount.value - (A.value + f.value) ∧
        tx.outbound_currency = Currency.BTC) ∧
      s2.updates = s.updates ++
        [(DEALER_UID, { dealerBtcAccount s with balance :=
            (dealerBtcAccount s).balance + (res.amount.value - (A.value + f.value)) }),
         (BANK_UID, { liabBtcAccount s with balance :=
            (liabBtcAccount s).balance - (res.amount.value - (A.value + f.value)) })]) ∧
    (res.amount.value - (A.value + f.value) = 0 →
      s2.txs = s.txs ∧ s2.updates = s.updates) ∧
    findInvoice s2.invoices prq = some { inv with settled := true } ∧
    outs = [Output.msg (Message.dealer (DealerMsg.bankState (get_bank_state s2)))
        ServiceIdentity.dealer,
      Output.msg (Message.api (Api.paymentResponse
        { res.payment_response with success := true })) ServiceIdentity.api] := by
  unfold handlePaymentResult at he
  dsimp only [setBankLiabilities, setUser, setDealerAccounts] at he
  rw [if_neg (not_le.mpr h0)] at he
  rw [hua] at he
  dsimp only at he
  rw [if_pos hsucc] at he
  rw [hf] at he
  dsimp only at he
  rw [hA] at he
  dsimp only at he
  rcases lt_trichotomy 0 (res.amount.value - (A.value + f.value)) with hpos | hzero | hneg
  · rw [if_neg (by linarith)] at he
    rw [if_pos hpos] at he
    split at he
    next hbooked =>
      split at hbooked
      next e herr =>
        rcases make_tx_error herr with hc | hc
        · exact absurd hc (by dsimp only; linarith)
        · exact absurd ((get_default_account_currency _ _ _).trans
            (get_default_account_currency _ _ _).symm) hc
      next s3 l2 d2 txid hmk => exact Option.noConfusion hbooked
    next sB hbooked =>
      split at hbooked
      next e herr => exact Option.noConfusion hbooked
      next s3 l2 d2 txid hmk =>
        simp only [Option.some.injEq] at hbooked
        subst hbooked
        have hmkf := make_tx_ok hmk
        dsimp only [update_account, insertDealerAccount, insertBankLiabilityAccount,
          setBankLiabilities, setDealerAccounts] at he
        rw [hprq] at he
        dsimp only at he
        rw [hmkf.2.2.2.2.2.2.1] at he
        dsimp only at he
        rw [hinv] at he
        dsimp only at he
        simp only [Option.some.injEq, Prod.mk.injEq] at he
        obtain ⟨h1, h2⟩ := he
        subst h1
        subst h2
        refine ⟨fun _ => ?_, fun hz => absurd hz (by linarith), ?_, ?_⟩
        · have htxs := hmkf.2.2.2.2.2.2.2.2.1
          dsimp only at htxs
          refine ⟨⟨_, htxs, rfl, rfl, rfl, get_default_account_currency _ _ _⟩, ?_⟩
          dsimp only
          rw [hmkf.2.2.2.2.2.1, hmkf.2.2.1, hmkf.2.2.2.1]
          simp [dealerBtcAccount, liabBtcAccount]
        · dsimp only
          exact findInvoice_updateInvoiceRow hinv _ rfl
        · rw [← hf, ← hA, ← hprq]
  · rw [if_neg (by linarith)] at he
    rw [if_neg (by linarith)] at he
    dsimp only at he
    rw [hprq] at he
    dsimp only at he
    rw [hinv] at he
    dsimp only at he
    simp only [Option.some.injEq, Prod.mk.injEq] at he
    obtain ⟨h1, h2⟩ := he
    subst h1
    subst h2
    refine ⟨fun hp => absurd hp (by linarith), fun _ => ⟨?_, ?_⟩, ?_, ?_⟩
    · rfl
    · rfl
    · dsimp only
      exact findInvoice_updateInvoiceRow hinv _ rfl
    · rw [← hf, ← hA, ← hprq]
  · rw [if_pos (by linarith)] at he
    exact Option.noConfusion he

theorem C6_success_excess_settlement_witness :
    (0 < c6_res.amount.value - (((⟨Currency.BTC, 2⟩ : Money)).value
        + ((⟨Currency.BTC, 1⟩ : Money)).value) →
      (∃ tx, c6_s2.txs = c6_s.txs ++ [tx] ∧ tx.outbound_uid = BANK_UID ∧
        tx.inbound_uid = DEALER_UID ∧
        tx.outbound_amount = c6_res.amount.value - (((⟨Currency.BTC, 2⟩ : Money)).value
          + ((⟨Currency.BTC, 1⟩ : Money)).value) ∧
        tx.outbound_currency = Currency.BTC) ∧
      c6_s2.updates = c6_s.updates ++
        [(DEALER_UID, { dealerBtcAccount c6_s with balance :=
            (dealerBtcAccount c6_s).balance + (c6_res.amount.value
              - (((⟨Currency.BTC, 2⟩ : Money)).value + ((⟨Currency.BTC, 1⟩ : Money)).value)) }),
         (BANK_UID, { liabBtcAccount c6_s with balance :=
            (liabBtcAccount c6_s).balance - (c6_res.amount.value
              - (((⟨Currency.BTC, 2⟩ : Money)).value + ((⟨Currency.BTC, 1⟩ : Money)).value)) })]) ∧
    (c6_res.amount.value - (((⟨Currency.BTC, 2⟩ : Money)).value
        + ((⟨Currency.BTC, 1⟩ : Money)).value) = 0 →
      c6_s2.txs = c6_s.txs ∧ c6_s2.updates = c6_s.updates) ∧
    findInvoice c6_s2.invoices "pr6" = some { c6_inv with settled := true } ∧
    c6_outs = [Output.msg (Message.dealer (DealerMsg.bankState (get_bank_state c6_s2)))
        ServiceIdentity.dealer,
      Output.msg (Message.api (Api.paymentResponse
        { c6_res.payment_response with success := true })) ServiceIdentity.api] :=
  @C6_success_excess_settlement testOracle c6_s c6_s2 c6_res c6_outs ⟨Currency.BTC, 1⟩
    ⟨Currency.BTC, 2⟩ "pr6" c6_inv u1 (by decide) (by rfl) (by rfl) (by rfl) (by rfl)
    (by rfl) (by rfl)
    (by norm_num [handlePaymentResult, c6_s2, c6_outs, c6_s, c6_res, c6_resp, c6_inv,
      baseState, u1, mkAcct, Ledger.new, UserAccount.new, BANK_UID, DEALER_UID,
      insuranceFundAccountId, UserAccount.get_default_account, defaultAccountId,
      Currency.idx, AccountType.idx, lookupA, insertA, update_account, insert_into_ledger,
      insertDealerAccount, insertBankLiabilityAccount, setBankLiabilities, setUser,
      setDealerAccounts, make_tx, findInvoice, updateInvoiceRow, get_bank_state,
      addExposure, testOracle, qHalf, qQuarter])

theorem insert_into_ledger_spec {s s2 : BankEngine} {uid aid : Nat} {a : Account}
    (h : insert_into_ledger s uid aid a = some s2) :
    ∃ ua0, lookupA s.ledger.user_accounts uid = some ua0 ∧
      s2 = setUser s uid ⟨ua0.owner, insertA ua0.accounts aid a⟩ := by
  unfold insert_into_ledger at h
  split at h
  · exact Option.noConfusion h
  next ua0 hl =>
    simp only [Option.some.injEq] at h
    exact ⟨ua0, hl, h.symm⟩

/-- `find?` over an `insertA` that replaces a found entry: when the collection
keys agree with the stored `account_id`s, inserting a matching account at the
found entry's `account_id` makes `find?` return the inserted entry. -/
theorem find?_insertA_found {l : List (Nat × Account)} {P : Nat × Account → Bool}
    {q : Nat × Account} {b : Account}
    (h : l.find? P = some q)
    (hkeys : ∀ p ∈ l, p.2.account_id = p.1)
    (hb : P (q.2.account_id, b) = true) :
    (insertA l q.2.account_id b).find? P = some (q.2.account_id, b) := by
  induction l with
  | nil => simp [List.find?] at h
  | cons p0 t ih =>
    obtain ⟨k, a⟩ := p0
    by_cases hp : P (k, a) = true
    · rw [List.find?_cons, hp] at h
      simp only [Option.some.injEq] at h
      subst h
      dsimp only at hb ⊢
      have hk : a.account_id = k := hkeys (k, a) (List.mem_cons_self _ _)
      unfold insertA
      rw [if_pos hk.symm, List.find?_cons, hb]
    · have hp0 : P (k, a) = false := by simpa using hp
      rw [List.find?_cons, hp0] at h
      unfold insertA
      by_cases hkq : k = q.2.account_id
      · rw [if_pos hkq, List.find?_cons, hb]
      · rw [if_neg hkq, List.find?_cons, hp0]
        exact ih h fun p hp2 => hkeys p (List.mem_cons_of_mem _ hp2)

/-- `find?` over an `insertA` into a collection with no match: the inserted
matching entry is found. -/
theorem find?_insertA_none {l : List (Nat × Account)} {P : Nat × Account → Bool}
    {k : Nat} {b : Account}
    (h : l.find? P = none) (hb : P (k, b) = true) :
    (insertA l k b).find? P = some (k, b) := by
  induction l with
  | nil =>
    unfold insertA
    rw [List.find?_cons, hb]
  | cons p0 t ih =>
    obtain ⟨k2, a⟩ := p0
    by_cases hp : P (k2, a) = true
    · rw [List.find?_cons, hp] at h
      simp at h
    · have hp0 : P (k2, a) = false := by simpa using hp
      rw [List.find?_cons, hp0] at h
      unfold insertA
      by_cases hkq : k2 = k
      · rw [if_pos hkq, List.find?_cons, hb]
      · rw [if_neg hkq, List.find?_cons, hp0]
        exact ih h

/-- Two `insertA`s at the same key collapse to the last one. -/
theorem insertA_insertA {α : Type} (l : List (Nat × α)) (k : Nat) (v w : α) :
    insertA (insertA l k v) k w = insertA l k w := by
  induction l with
  | nil => simp [insertA]
  | cons p0 t ih =>
    obtain ⟨k2, a⟩ := p0
    by_cases hk : k2 = k
    · subst hk
      simp [insertA]
    · simp [insertA, hk, ih]

/-- Key/`account_id` consistency is preserved by inserting an account at its
own `account_id`. -/
theorem keysOk_insertA {l : List (Nat × Account)} {k : Nat} {b : Account}
    (hkeys : ∀ p ∈ l, p.2.account_id = p.1) (hb : b.account_id = k) :
    ∀ p ∈ insertA l k b, p.2.account_id = p.1 := by
  intro p hp
  rcases mem_insertA hp with h | h
  · subst h
    exact hb
  · exact hkeys p h

/-- Key/`account_id` consistency is preserved by `get_default_account`'s lazy
account creation. -/
theorem keysOk_get_default {ua : UserAccount} {c : Currency} {t? : Option AccountType}
    (hkeys : ∀ p ∈ ua.accounts, p.2.account_id = p.1) :
    ∀ p ∈ (ua.get_default_account c t?).2.accounts, p.2.account_id = p.1 := by
  intro p hp
  unfold UserAccount.get_default_account at hp
  dsimp only at hp
  split at hp
  next q hf => exact hkeys p hp
  next hf =>
    refine keysOk_insertA hkeys ?_ p hp
    rfl

/-- The account `get_default_account` resolves always carries the requested
account type (`Internal` by default) and the `Cash` class. -/
theorem get_default_account_fields (ua : UserAccount) (c : Currency)
    (t? : Option AccountType) :
    (ua.get_default_account c t?).1.account_type = t?.getD AccountType.Internal ∧
    (ua.get_default_account c t?).1.account_class = AccountClass.Cash := by
  unfold UserAccount.get_default_account
  dsimp only
  split
  next p hf =>
    have hpred := List.find?_some hf
    simp only [decide_eq_true_eq] at hpred
    exact ⟨hpred.2.1, hpred.2.2⟩
  next => exact ⟨rfl, rfl⟩

/-- Writing a mutated clone of the default account back into the collection at
the default account's id (the `insert` performed after a booking) makes the
next `get_default_account` resolve exactly that clone, provided the collection
keys agree with the stored `account_id`s and the clone keeps the resolved
account's id, currency, type and class. -/
theorem get_default_account_insert {ua ua2 : UserAccount} {c : Currency} {a0 b : Account}
    (hg : ua.get_default_account c none = (a0, ua2))
    (hkeys : ∀ p ∈ ua.accounts, p.2.account_id = p.1)
    (hb1 : b.account_id = a0.account_id) (hb2 : b.currency = c)
    (hb3 : b.account_type = AccountType.Internal)
    (hb4 : b.account_class = AccountClass.Cash) :
    ((UserAccount.mk ua2.owner
      (insertA ua2.accounts a0.account_id b)).get_default_account c none).1 = b := by
  unfold UserAccount.get_default_account at hg ⊢
  dsimp only [Option.getD] at hg ⊢
  split at hg
  next q hf =>
    simp only [Prod.mk.injEq] at hg
    obtain ⟨h1, h2⟩ := hg
    subst h1
    subst h2
    rw [find?_insertA_found hf hkeys (by simp [hb2, hb3, hb4])]
  next hf =>
    simp only [Prod.mk.injEq] at hg
    obtain ⟨h1, h2⟩ := hg
    subst h1
    subst h2
    dsimp only
    rw [insertA_insertA]
    rw [find?_insertA_none hf (by simp [hb2, hb3, hb4])]

/-- The refund leg of a failed pay task: `Bank::PaymentResult` credits the
customer's default BTC account by exactly the task's reserved amount, persists
it via `update_account`, and leaves the account's ledger balance at its
pre-refund value plus the reserved amount. -/
theorem refund_leg {o : Oracle} {s s2 : BankEngine} {info : SpawnInfo} {e : String}
    {outs2 : List Output} {ua : UserAccount}
    (hcur : info.currency = Currency.BTC)
    (hrate : info.rate = ⟨Currency.BTC, Currency.BTC, 1⟩)
    (hresc : info.reserved.currency = Currency.BTC)
    (h0 : 0 < info.reserved.value)
    (hua : lookupA s.ledger.user_accounts info.uid = some ua)
    (hkeys : ∀ p ∈ ua.accounts, p.2.account_id = p.1)
    (he : handlePaymentResult o s (spawnFailureResult info e) = some (s2, outs2)) :
    (∃ la2, s2.updates = s.updates ++
      [(info.uid, { (ua.get_default_account Currency.BTC none).1 with balance :=
          (ua.get_default_account Currency.BTC none).1.balance + info.reserved.value }),
       (BANK_UID, la2)]) ∧
    userBalance s2 info.uid Currency.BTC =
      (ua.get_default_account Currency.BTC none).1.balance + info.reserved.value := by
  obtain ⟨iuid, irid, icur, irate, ipr, iamt, ires, ifee, isats⟩ := info
  obtain ⟨irc, irv⟩ := ires
  dsimp only at hcur hrate hresc h0 hua ⊢
  subst hcur
  subst hrate
  subst hresc
  have hin : ∀ bv : Rat,
      ((UserAccount.mk (ua.get_default_account Currency.BTC none).2.owner
        (insertA (ua.get_default_account Currency.BTC none).2.accounts
          (ua.get_default_account Currency.BTC none).1.account_id
          { (ua.get_default_account Currency.BTC none).1 with
            balance := bv })).get_default_account Currency.BTC none).1 =
      { (ua.get_default_account Currency.BTC none).1 with balance := bv } :=
    fun bv => @get_default_account_insert ua
      ((ua.get_default_account Currency.BTC none).2) Currency.BTC
      ((ua.get_default_account Currency.BTC none).1)
      { (ua.get_default_account Currency.BTC none).1 with balance := bv }
      rfl hkeys rfl (get_default_account_currency ua Currency.BTC none)
      (get_default_account_fields ua Currency.BTC none).1
      (get_default_account_fields ua Currency.BTC none).2
  unfold handlePaymentResult at he
  dsimp only [spawnFailureResult, setBankLiabilities, setUser, setDealerAccounts] at he
  rw [if_neg (not_le.mpr h0)] at he
  rw [hua] at he
  dsimp only at he
  rw [if_neg (by simp)] at he
  unfold Money.exchange at he
  rw [if_pos rfl] at he
  dsimp only at he
  rw [if_neg (by simp)] at he
  split at he
  next e4 herr2 =>
    rcases make_tx_error herr2 with hc | hc
    · exact absurd hc (by dsimp only; linarith)
    · exact absurd ((get_default_account_currency _ _ _).trans
        (get_default_account_currency _ _ _).symm) hc
  next s3b lb2 ib2 txb hmk2 =>
  have hmkf2 := make_tx_ok hmk2
  dsimp only [insertBankLiabilityAccount, setBankLiabilities] at he
  split at he
  · exact Option.noConfusion he
  next s5b hins2 =>
  obtain ⟨uz2, huz2, hs5b⟩ := insert_into_ledger_spec hins2
  dsimp only at huz2
  rw [hmkf2.2.2.2.2.1] at huz2
  dsimp only at huz2
  rw [lookupA_insertA_self] at huz2
  simp only [Option.some.injEq] at huz2
  subst huz2
  subst hs5b
  dsimp only [setUser, update_account] at he
  split at he
  · exact Option.noConfusion he
  next e5 hsum2 =>
    simp only [Option.some.injEq, Prod.mk.injEq] at he
    obtain ⟨h1, _⟩ := he
    subst h1
    refine ⟨⟨lb2, ?_⟩, ?_⟩
    · dsimp only
      rw [hmkf2.2.2.2.1]
      simp [hmkf2.2.2.2.2.2.1, List.append_assoc]
    · unfold userBalance
      dsimp only
      rw [lookupA_insertA_self]
      dsimp only [Option.getD]
      rw [hmkf2.2.2.2.1]
      dsimp only
      rw [hin]
  next s6b tx6 hsum2 =>
    have hsumf2 := make_summary_tx_ok hsum2
    simp only [Option.some.injEq, Prod.mk.injEq] at he
    obtain ⟨h1, _⟩ := he
    subst h1
    refine ⟨⟨lb2, ?_⟩, ?_⟩
    · rw [hsumf2.2.1]
      dsimp only
      rw [hmkf2.2.2.2.1]
      simp [hmkf2.2.2.2.2.2.1, List.append_assoc]
    · unfold userBalance
      rw [hsumf2.1]
      dsimp only
      rw [lookupA_insertA_self]
      dsimp only [Option.getD]
      rw [hmkf2.2.2.2.1]
      dsimp only
      rw [hin]

/-- C5: an external BTC withdrawal (`Api::PaymentRequest`) books the
reservation by debiting the customer's resolved default BTC account by
exactly the spawned pay task's reserved amount (invoice amount plus estimated
fee) via `update_account`, and the failed task's `Bank::PaymentResult`
credits that same account by exactly the reserved amount again and persists
it, so the account's final ledger balance equals its pre-request balance. -/
theorem C5_failed_pay_full_refund {o1 o2 : Oracle} {s0 s1 s2 : BankEngine}
    {m : PaymentRequest} {ua0 : UserAccount} {prq : String}
    {info : SpawnInfo} {e : String} {outs2 : List Output}
    (hcur : m.currency = Currency.BTC)
    (hua0 : lookupA s0.ledger.user_accounts m.uid = some ua0)
    (hkeys : ∀ p ∈ ua0.accounts, p.2.account_id = p.1)
    (hrec : m.receipient = none)
    (hpr : m.payment_request = some prq)
    (hfi : findInvoice s0.invoices prq = none)
    (he1 : handlePaymentRequest o1 s0 m = some (s1, [Output.spawnPay info]))
    (he2 : handlePaymentResult o2 s1 (spawnFailureResult info e) = some (s2, outs2)) :
    (∃ la1, s1.updates = s0.updates ++
      [(m.uid, { (ua0.get_default_account Currency.BTC none).1 with balance :=
          (ua0.get_default_account Currency.BTC none).1.balance - info.reserved.value }),
       (BANK_UID, la1)]) ∧
    (∃ la2 a2, s2.updates = s1.updates ++ [(m.uid, a2), (BANK_UID, la2)] ∧
      a2.balance = (ua0.get_default_account Currency.BTC none).1.balance) ∧
    userBalance s2 m.uid Currency.BTC =
      (ua0.get_default_account Currency.BTC none).1.balance := by
  obtain ⟨rid, muid, mam, mcur, mrate, mpr, mrec, mfees⟩ := m
  dsimp only at hcur hrec hpr hua0 ⊢
  subst hcur
  subst hrec
  subst hpr
  have hin : ∀ bv : Rat,
      ((UserAccount.mk (ua0.get_default_account Currency.BTC none).2.owner
        (insertA (ua0.get_default_account Currency.BTC none).2.accounts
          (ua0.get_default_account Currency.BTC none).1.account_id
          { (ua0.get_default_account Currency.BTC none).1 with
            balance := bv })).get_default_account Currency.BTC none).1 =
      { (ua0.get_default_account Currency.BTC none).1 with balance := bv } :=
    fun bv => @get_default_account_insert ua0
      ((ua0.get_default_account Currency.BTC none).2) Currency.BTC
      ((ua0.get_default_account Currency.BTC none).1)
      { (ua0.get_default_account Currency.BTC none).1 with balance := bv }
      rfl hkeys rfl (get_default_account_currency ua0 Currency.BTC none)
      (get_default_account_fields ua0 Currency.BTC none).1
      (get_default_account_fields ua0 Currency.BTC none).2
  unfold handlePaymentRequest at he1
  dsimp only at he1
  split at he1
  next hrl => simp at he1
  next hrl =>
  rw [hua0] at he1
  dsimp only [setUser, is_insurance_fund_depleted] at he1
  split at he1
  next hamt => simp at he1
  next hamt =>
  rw [if_neg (by simp)] at he1
  split at he1
  next hdec => simp at he1
  next decoded hdec =>
  split at he1
  next hmsat => simp at he1
  next msats hmsat =>
  unfold handlePaymentDecoded at he1
  dsimp only at he1
  rw [if_neg (by simp)] at he1
  unfold storedInvoice at he1
  dsimp only at he1
  rw [hfi] at he1
  dsimp only at he1
  rw [if_neg (by simp)] at he1
  rw [if_neg (by simp)] at he1
  unfold pr_decorated at he1
  dsimp only at he1
  rw [if_pos rfl] at he1
  dsimp only [Option.getD] at he1
  unfold Money.exchange at he1
  dsimp only [Money.from_btc] at he1
  rw [if_pos rfl] at he1
  dsimp only at he1
  split at he1
  next hlt => simp at he1
  next hge =>
  unfold reservePayment at he1
  dsimp only at he1
  rw [if_neg (by simp)] at he1
  split at he1
  next e2 herr => simp at he1
  next s3 oa2 bl2 txid1 hmk =>
  have hmkf := make_tx_ok hmk
  dsimp only [insertBankLiabilityAccount, setBankLiabilities] at he1
  split at he1
  · exact Option.noConfusion he1
  next s5 hins =>
  obtain ⟨uz, huz, hs5⟩ := insert_into_ledger_spec hins
  dsimp only at huz
  rw [hmkf.2.2.2.2.1] at huz
  dsimp only [setBankLiabilities] at huz
  rw [lookupA_insertA_self] at huz
  simp only [Option.some.injEq] at huz
  subst huz
  subst hs5
  dsimp only [setUser, update_account] at he1
  split at he1
  · exact Option.noConfusion he1
  next r hsum =>
  split at he1
  next sF txF =>
    have hsumf := make_summary_tx_ok hsum
    simp only [Option.some.injEq, Prod.mk.injEq, List.cons.injEq, and_true,
      Output.spawnPay.injEq] at he1
    obtain ⟨h1, h2⟩ := he1
    subst h1
    subst h2
    have hua1 : lookupA sF.ledger.user_accounts muid =
        some ⟨(ua0.get_default_account Currency.BTC none).2.owner,
          insertA (ua0.get_default_account Currency.BTC none).2.accounts
            oa2.account_id oa2⟩ := by
      rw [hsumf.1]
      dsimp only
      rw [lookupA_insertA_self]
    have hrl2 := refund_leg (by rfl) (by rfl) (by rfl)
      (by have h := hmkf.1; dsimp only at h ⊢; rw [mul_one] at h; exact h)
      hua1 (keysOk_insertA (keysOk_get_default hkeys) rfl) he2
    obtain ⟨⟨la2, hupd⟩, hub⟩ := hrl2
    refine ⟨⟨bl2, ?_⟩, ⟨la2, _, hupd, ?_⟩, ?_⟩
    · rw [hsumf.2.1]
      dsimp only
      rw [hmkf.2.2.1]
      simp [mul_one, List.append_assoc, hmkf.2.2.2.2.2.1, setBankLiabilities, setUser]
    · dsimp only
      rw [hmkf.2.2.1]
      dsimp only
      rw [hin]
      dsimp only
      ring
    · dsimp only at hub
      rw [hmkf.2.2.1] at hub
      dsimp only at hub
      rw [hin] at hub
      dsimp only at hub
      rw [hub]
      ring
  next e3 =>
    simp only [Option.some.injEq, Prod.mk.injEq, List.cons.injEq, and_true,
      Output.spawnPay.injEq] at he1
    obtain ⟨h1, h2⟩ := he1
    subst h2
    have hua1 : lookupA s1.ledger.user_accounts muid =
        some ⟨(ua0.get_default_account Currency.BTC none).2.owner,
          insertA (ua0.get_default_account Currency.BTC none).2.accounts
            oa2.account_id oa2⟩ := by
      rw [← h1]
      dsimp only
      rw [lookupA_insertA_self]
    have hrl2 := refund_leg (by rfl) (by rfl) (by rfl)
      (by have h := hmkf.1; dsimp only at h ⊢; rw [mul_one] at h; exact h)
      hua1 (keysOk_insertA (keysOk_get_default hkeys) rfl) he2
    obtain ⟨⟨la2, hupd⟩, hub⟩ := hrl2
    refine ⟨⟨bl2, ?_⟩, ⟨la2, _, hupd, ?_⟩, ?_⟩
    · rw [← h1]
      dsimp only
      rw [hmkf.2.2.1]
      simp [mul_one, List.append_assoc, hmkf.2.2.2.2.2.1, setBankLiabilities, setUser]
    · dsimp only
      rw [hmkf.2.2.1]
      dsimp only
      rw [hin]
      dsimp only
      ring
    · dsimp only at hub
      rw [hmkf.2.2.1] at hub
      dsimp only at hub
      rw [hin] at hub
      dsimp only at hub
      rw [hub]
      ring

unseal Rat.mul Rat.add Rat.sub Rat.inv in
theorem C5_failed_pay_full_refund_witness :
    (∃ la1, c5w_s1.updates = (c5state 1).updates ++
      [(1, { (c5w_u.get_default_account Currency.BTC none).1 with balance :=
          (c5w_u.get_default_account Currency.BTC none).1.balance - c5info.reserved.value }),
       (BANK_UID, la1)]) ∧
    (∃ la2 a2, c5w_s2.updates = c5w_s1.updates ++ [(1, a2), (BANK_UID, la2)] ∧
      a2.balance = (c5w_u.get_default_account Currency.BTC none).1.balance) ∧
    userBalance c5w_s2 1 Currency.BTC =
      (c5w_u.get_default_account Currency.BTC none).1.balance :=
  @C5_failed_pay_full_refund c5oracle c5oracle (c5state 1) c5w_s1 c5w_s2 c5req c5w_u
    "lnbc5000" c5info "err" c5w_outs2
    (by rfl) (by rfl) (by decide) (by rfl) (by rfl) (by rfl) (by rfl) (by rfl)

end LndHubX

